import Mathlib

/-!
# createrepo_c: compression wrapper and streaming XML file writer

A shallow embedding of `src/compression_wrapper.c` and `src/xml_file.c`.

* C strings and byte buffers are lists of characters (`Bytes`); a C string is
  the bytes before its terminating NUL, a `NULL` string is `none`.
* Every call into the outside world (libc, glib, zlib, bzlib, liblzma,
  libmagic) is recorded in `World.log` and is answered by the next entry of
  `World.script`.  A run whose script has no fitting answer left is `stuck`.
* A failing `assert` ends the run with `abort`.
* An answer that the library cannot give (more bytes written than asked for,
  an `int` count outside the range of `int`) also leaves the run `stuck`.
* A `GError` keeps its error code; the message text is not modelled.  The
  caller always supplies an error location (`err != NULL`), except where the
  source itself passes `NULL`.
-/

namespace Createrepo

/-- Byte buffers and C strings. -/
abbrev Bytes := List Char

/-- Compression kinds, `cr_CompressionType` (the sentinel is not a value). -/
inductive cr_CompressionType where
  | CR_CW_AUTO_DETECT_COMPRESSION
  | CR_CW_UNKNOWN_COMPRESSION
  | CR_CW_NO_COMPRESSION
  | CR_CW_GZ_COMPRESSION
  | CR_CW_BZ2_COMPRESSION
  | CR_CW_XZ_COMPRESSION
  deriving DecidableEq, Repr

/-- Open modes, `cr_OpenMode`. -/
inductive cr_OpenMode where
  | CR_CW_MODE_READ
  | CR_CW_MODE_WRITE
  deriving DecidableEq, Repr

/-- Document kinds, `cr_XmlFileType`. -/
inductive cr_XmlFileType where
  | CR_XMLFILE_PRIMARY
  | CR_XMLFILE_FILELISTS
  | CR_XMLFILE_OTHER
  deriving DecidableEq, Repr

/-- Error codes of `error.h` that the two files use.  `CRE_OTHER n` stands
for whatever other code the checksum module or a serializer reports. -/
inductive cr_Error where
  | CRE_OK
  | CRE_ERROR
  | CRE_IO
  | CRE_MEMORY
  | CRE_BADARG
  | CRE_NOFILE
  | CRE_EXISTS
  | CRE_UNKNOWNCOMPRESSION
  | CRE_MAGIC
  | CRE_GZ
  | CRE_BZ2
  | CRE_XZ
  | CRE_OTHER (n : Nat)
  deriving DecidableEq, Repr

open cr_CompressionType cr_OpenMode cr_XmlFileType cr_Error

/-- A set `GError`: its code. -/
structure GError where
  code : cr_Error
  deriving DecidableEq, Repr

/-- The two tests of `g_file_test` that the code uses. -/
inductive GFileTest where
  | G_FILE_TEST_EXISTS
  | G_FILE_TEST_IS_REGULAR
  deriving DecidableEq, Repr

/-- The action argument of `lzma_code`. -/
inductive lzma_action where
  | LZMA_RUN
  | LZMA_FINISH
  deriving DecidableEq, Repr

open GFileTest lzma_action

/-- Calls into the outside world, with the arguments that matter.
`cr_write_entry` is not an outside call: it records a buffer that passed the
mode check of `cr_write`, the stream's write path. -/
inductive Call where
  | g_file_test (filename : Bytes) (test : GFileTest)
  | fopen (filename : Bytes) (mode : Bytes)
  | fclose (f : Nat)
  | fread (f : Nat) (len : Nat)
  | feof (f : Nat)
  | fwrite (f : Nat) (data : Bytes)
  | gzopen (filename : Bytes) (mode : Bytes)
  | gzsetparams (f : Nat)
  | gzbuffer (f : Nat) (size : Nat)
  | gzclose (f : Nat)
  | gzread (f : Nat) (len : Nat)
  | gzwrite (f : Nat) (data : Bytes)
  | BZ2_bzWriteOpen (f : Nat)
  | BZ2_bzReadOpen (f : Nat)
  | BZ2_bzReadClose (b : Nat)
  | BZ2_bzWriteClose (b : Nat)
  | BZ2_bzRead (b : Nat) (len : Nat)
  | BZ2_bzWrite (b : Nat) (data : Bytes)
  | lzma_easy_encoder
  | lzma_auto_decoder
  | lzma_code (action : lzma_action) (input : Bytes) (avail_out : Nat)
  | lzma_end
  | magic_open
  | magic_load
  | magic_check
  | magic_file (filename : Bytes)
  | magic_close
  | g_vasprintf
  | cr_write_entry (data : Bytes)
  deriving DecidableEq, Repr

/-- Answers of the outside world.
* `bool`: `g_file_test`, `feof`;
* `ptr`: a returned pointer, `0` is `NULL` (`fopen`, `gzopen`, `magic_open`);
* `int`: a returned `int` status (`fclose`, `gzclose`, `gzbuffer`,
  `magic_load`, `lzma_easy_encoder`, ...);
* `size`: the item count returned by `fwrite`;
* `str`: a returned C string or `NULL` (`magic_file`);
* `data`: the bytes `fread` stored (its return value is their number) and
  whether the error indicator of the file got set, which the code never tests;
* `rd`: a codec read (`gzread`, `BZ2_bzRead`): status or count, and the bytes stored;
* `bzopen`: `BZ2_bzWriteOpen`/`BZ2_bzReadOpen`: the handle and `bzerror`;
* `code`: one `lzma_code` step: its return value, how many input bytes it
  consumed and the bytes it produced. -/
inductive Resp where
  | bool (b : Bool)
  | ptr (p : Nat)
  | int (i : Int)
  | size (n : Nat)
  | str (s : Option Bytes)
  | data (d : Bytes) (ferror : Bool)
  | rd (ret : Int) (bzerror : Int) (d : Bytes)
  | bzopen (p : Nat) (bzerror : Int)
  | code (ret : Int) (consumed : Nat) (out : Bytes)
  deriving DecidableEq, Repr

/-- The outside world: the calls made so far and the answers still to come. -/
structure World where
  log : List Call
  script : List Resp
  deriving DecidableEq, Repr

/-- Result of running a function: it returned `a` in world `w`, an assertion
failed, or the script had no answer for a call. -/
inductive Res (α : Type) where
  | done (a : α) (w : World)
  | abort (w : World)
  | stuck
  deriving DecidableEq, Repr

/-- Make an outside call: log it and take the next answer. -/
def World.call (w : World) (c : Call) : Option (Resp × World) :=
  match w.script with
  | [] => none
  | r :: rest => some (r, { log := w.log ++ [c], script := rest })

/-- Record a call that has no result (`magic_close`, `lzma_end`, `gzsetparams`). -/
def World.note (w : World) (c : Call) : World :=
  { w with log := w.log ++ [c] }

/-- The glib test `g_str_has_suffix`. -/
def g_str_has_suffix (str suffix : Bytes) : Bool :=
  suffix.isSuffixOf str

/-- The glib test `g_str_has_prefix`. -/
def g_str_has_prefix (str pre : Bytes) : Bool :=
  pre.isPrefixOf str

/-- The mime-type groups of `cr_detect_compression`, in the order tested. -/
def mime_is_gz (mime_type : Bytes) : Bool :=
  g_str_has_prefix mime_type "application/x-gzip".toList ||
  g_str_has_prefix mime_type "application/gzip".toList ||
  g_str_has_prefix mime_type "application/gzip-compressed".toList ||
  g_str_has_prefix mime_type "application/gzipped".toList ||
  g_str_has_prefix mime_type "application/x-gzip-compressed".toList ||
  g_str_has_prefix mime_type "application/x-compress".toList ||
  g_str_has_prefix mime_type "application/x-gzip".toList ||
  g_str_has_prefix mime_type "application/x-gunzip".toList ||
  g_str_has_prefix mime_type "multipart/x-gzip".toList

/-- The bzip2 mime-type group. -/
def mime_is_bz2 (mime_type : Bytes) : Bool :=
  g_str_has_prefix mime_type "application/x-bzip2".toList ||
  g_str_has_prefix mime_type "application/x-bz2".toList ||
  g_str_has_prefix mime_type "application/bzip2".toList ||
  g_str_has_prefix mime_type "application/bz2".toList

/-- The xz mime-type group. -/
def mime_is_xz (mime_type : Bytes) : Bool :=
  g_str_has_prefix mime_type "application/x-xz".toList

/-- The mime types of uncompressed and of empty files. -/
def mime_is_plain (mime_type : Bytes) : Bool :=
  g_str_has_prefix mime_type "text/plain".toList ||
  g_str_has_prefix mime_type "text/xml".toList ||
  g_str_has_prefix mime_type "application/xml".toList ||
  g_str_has_prefix mime_type "application/x-xml".toList ||
  g_str_has_prefix mime_type "application/x-empty".toList ||
  g_str_has_prefix mime_type "inode/x-empty".toList

/-- The `if`/`else if` chain over the detected mime type (lines 182-216);
`type` starts as `CR_CW_UNKNOWN_COMPRESSION`. -/
def mime_to_type (mime_type : Bytes) : cr_CompressionType :=
  if mime_is_gz mime_type then CR_CW_GZ_COMPRESSION
  else if mime_is_bz2 mime_type then CR_CW_BZ2_COMPRESSION
  else if mime_is_xz mime_type then CR_CW_XZ_COMPRESSION
  else if mime_is_plain mime_type then CR_CW_NO_COMPRESSION
  else CR_CW_UNKNOWN_COMPRESSION

/-- The magic-bytes part of `cr_detect_compression` (lines 154-235). -/
def cr_detect_compression_magic (filename : Bytes) (w : World) :
    Res (cr_CompressionType × Option GError) :=
  match w.call .magic_open with
  | some (.ptr myt, w) =>
    if myt = 0 then .done (CR_CW_UNKNOWN_COMPRESSION, some ⟨CRE_MAGIC⟩) w
    else
      match w.call .magic_load with
      | some (.int rl, w) =>
        if rl = -1 then .done (CR_CW_UNKNOWN_COMPRESSION, some ⟨CRE_MAGIC⟩) w
        else
          match w.call .magic_check with
          | some (.int rc, w) =>
            if rc = -1 then .done (CR_CW_UNKNOWN_COMPRESSION, some ⟨CRE_MAGIC⟩) w
            else
              match w.call (.magic_file filename) with
              | some (.str (some mime_type), w) =>
                let type := mime_to_type mime_type
                let type :=
                  if type = CR_CW_UNKNOWN_COMPRESSION ∧ g_str_has_suffix filename ".xml".toList
                  then CR_CW_NO_COMPRESSION else type
                .done (type, none) (w.note .magic_close)
              | some (.str none, w) =>
                .done (CR_CW_UNKNOWN_COMPRESSION, some ⟨CRE_MAGIC⟩) (w.note .magic_close)
              | _ => .stuck
          | _ => .stuck
      | _ => .stuck
  | _ => .stuck

/-- The function `cr_detect_compression`: the detected kind and the error set, if any. -/
def cr_detect_compression (filename : Bytes) (w : World) :
    Res (cr_CompressionType × Option GError) :=
  match w.call (.g_file_test filename G_FILE_TEST_IS_REGULAR) with
  | some (.bool is_regular, w) =>
    if !is_regular then .done (CR_CW_UNKNOWN_COMPRESSION, some ⟨CRE_NOFILE⟩) w
    else if g_str_has_suffix filename ".gz".toList ||
        g_str_has_suffix filename ".gzip".toList ||
        g_str_has_suffix filename ".gunzip".toList then
      .done (CR_CW_GZ_COMPRESSION, none) w
    else if g_str_has_suffix filename ".bz2".toList ||
        g_str_has_suffix filename ".bzip2".toList then
      .done (CR_CW_BZ2_COMPRESSION, none) w
    else if g_str_has_suffix filename ".xz".toList then
      .done (CR_CW_XZ_COMPRESSION, none) w
    else if g_str_has_suffix filename ".xml".toList then
      .done (CR_CW_NO_COMPRESSION, none) w
    else cr_detect_compression_magic filename w
  | _ => .stuck

/-- The function `cr_compression_suffix`. -/
def cr_compression_suffix (comtype : cr_CompressionType) : Option Bytes :=
  match comtype with
  | CR_CW_GZ_COMPRESSION => some ".gz".toList
  | CR_CW_BZ2_COMPRESSION => some ".bz2".toList
  | CR_CW_XZ_COMPRESSION => some ".xz".toList
  | _ => none

/-- Conversion of an unsigned or `size_t` value to `int` (two's complement, 32 bits). -/
def toInt32 (n : Nat) : Int :=
  if n % 2 ^ 32 < 2 ^ 31 then (n % 2 ^ 32 : Nat) else (n % 2 ^ 32 : Nat) - 2 ^ 32

/-- Conversion of a `size_t` value to `unsigned int`. -/
def toUInt32 (n : Nat) : Nat := n % 2 ^ 32

/-- Modelled from the spec: the error sentinel `CR_CW_ERR` of the read and
write functions, a macro of `compression_wrapper.h`, which is not among the
sources; it is `-1`, the value that `cr_read` tests `gzread` for. -/
def CR_CW_ERR : Int := -1

/-- Size of the gzip buffer asked for with `gzbuffer`. -/
def GZ_BUFFER_SIZE : Nat := 1024 * 128

/-- Size of the buffer in `XzFile`. -/
def XZ_BUFFER_SIZE : Nat := 1024 * 32

/-- The zlib success status. -/
def Z_OK : Int := 0

/-- The bzlib success status. -/
def BZ_OK : Int := 0

/-- The bzlib status for a call out of sequence. -/
def BZ_SEQUENCE_ERROR : Int := -1

/-- The bzlib status at the logical end of the stream. -/
def BZ_STREAM_END : Int := 4

/-- The liblzma success status. -/
def LZMA_OK : Int := 0

/-- The liblzma status at the end of the stream. -/
def LZMA_STREAM_END : Int := 1

/-- Modelled from the spec: the checksum kinds of `checksum.h`, which is not
among the sources; only the value for "no checksum" is told apart. -/
abbrev cr_ChecksumType := Nat

/-- The checksum kind that stands for "no checksum". -/
def CR_CHECKSUM_UNKNOWN : cr_ChecksumType := 0

/-- Modelled from the spec: the incremental hash engine of `checksum.c`
(`new(algorithm) -> context`, `update(context, bytes) -> Error?`,
`finalize(context) -> digest bytes`), with contexts of type `κ`. -/
structure ChecksumEngine (κ : Type) where
  cr_checksum_new : cr_ChecksumType → Except GError κ
  cr_checksum_update : κ → Bytes → κ × Option GError
  cr_checksum_final : κ → Bytes

/-- The record `cr_ContentStat`; `size` is a 64-bit counter. -/
structure cr_ContentStat where
  size : Nat
  checksum_type : cr_ChecksumType
  checksum : Option Bytes
  deriving DecidableEq, Repr

/-- The function `cr_contentstat_new`: a zeroed record with the given checksum kind. -/
def cr_contentstat_new (type : cr_ChecksumType) : cr_ContentStat :=
  { size := 0, checksum_type := type, checksum := none }

/-- The struct `XzFile`: the raw file and the part of `buffer` that the
`lzma_stream` has not consumed yet (`next_in`, `avail_in`). -/
structure XzFile where
  file : Nat
  avail_in : Bytes
  deriving DecidableEq, Repr

/-- What `CR_FILE.FILE` points to: a `FILE *`, `gzFile` or `BZFILE *`, or an `XzFile`. -/
inductive Handle where
  | ptr (p : Nat)
  | xz (x : XzFile)
  deriving DecidableEq, Repr

/-- The struct `CR_FILE`.  `stat` holds the current value of the caller's
record that the stream points to. -/
structure CR_FILE (κ : Type) where
  type : cr_CompressionType
  FILE : Handle
  mode : cr_OpenMode
  stat : Option cr_ContentStat
  checksum_ctx : Option κ
  deriving DecidableEq

/-- The glib call `g_set_error` and `g_propagate_error`: an error already set stays. -/
def set_error (err : Option GError) (code : cr_Error) : Option GError :=
  match err with
  | some e => some e
  | none => some ⟨code⟩

/-- The `while (1)` loop of `cr_close` for an xz stream in write mode (lines
597-653): code with `LZMA_FINISH`, write the staging buffer out, until the end
of the stream.  Yields `ret` and the error set. -/
def xz_finish_loop (x : XzFile) : List Call → List Resp → Res (cr_Error × Option GError)
  | log, .code rc consumed out :: rest =>
    let log := log ++ [.lzma_code LZMA_FINISH x.avail_in XZ_BUFFER_SIZE]
    if consumed ≤ x.avail_in.length ∧ out.length ≤ XZ_BUFFER_SIZE then
      if rc ≠ LZMA_OK ∧ rc ≠ LZMA_STREAM_END then
        .done (CRE_XZ, some ⟨CRE_XZ⟩) ⟨log, rest⟩
      else
        match rest with
        | .size n :: rest =>
          let log := log ++ [.fwrite x.file out]
          if n ≤ out.length then
            if n ≠ out.length then .done (CRE_XZ, some ⟨CRE_XZ⟩) ⟨log, rest⟩
            else if rc = LZMA_STREAM_END then .done (CRE_OK, none) ⟨log, rest⟩
            else xz_finish_loop { x with avail_in := x.avail_in.drop consumed } log rest
          else .stuck
        | _ => .stuck
    else .stuck
  | _, _ => .stuck

/-- The `switch` of `cr_close` (lines 520-669): the finalisation of each
kind.  Yields `ret` and the error set. -/
def cr_close_kind {κ : Type} (cr_file : CR_FILE κ) (w : World) : Res (cr_Error × Option GError) :=
  match cr_file.type, cr_file.FILE with
  | CR_CW_NO_COMPRESSION, .ptr f =>
    match w.call (.fclose f) with
    | some (.int r, w) =>
      if r = 0 then .done (CRE_OK, none) w else .done ( CRE_IO, some ⟨ CRE_IO⟩) w
    | _ => .stuck
  | CR_CW_GZ_COMPRESSION, .ptr f =>
    match w.call (.gzclose f) with
    | some (.int rc, w) =>
      if rc = Z_OK then .done (CRE_OK, none) w else .done (CRE_GZ, some ⟨CRE_GZ⟩) w
    | _ => .stuck
  | CR_CW_BZ2_COMPRESSION, .ptr b =>
    match w.call (if cr_file.mode = CR_CW_MODE_READ then .BZ2_bzReadClose b
                  else .BZ2_bzWriteClose b) with
    | some (.int rc, w) =>
      if rc = BZ_OK then .done (CRE_OK, none) w else .done (CRE_BZ2, some ⟨CRE_BZ2⟩) w
    | _ => .stuck
  | CR_CW_XZ_COMPRESSION, .xz x =>
    let r :=
      if cr_file.mode = CR_CW_MODE_WRITE then xz_finish_loop x w.log w.script
      else .done (CRE_OK, none) w
    match r with
    | .done a w =>
      match w.call (.fclose x.file) with
      | some (.int _, w) => .done a (w.note .lzma_end)
      | _ => .stuck
    | .abort w => .abort w
    | .stuck => .stuck
  | CR_CW_AUTO_DETECT_COMPRESSION, _ => .done (CRE_BADARG, some ⟨CRE_BADARG⟩) w
  | CR_CW_UNKNOWN_COMPRESSION, _ => .done (CRE_BADARG, some ⟨CRE_BADARG⟩) w
  | _, _ => .stuck

/-- Lines 671-678 of `cr_close`: the digest is stored in the attached record,
`NULL` when there is no checksum context. -/
def close_stat {κ : Type} (E : ChecksumEngine κ) (cr_file : CR_FILE κ) : Option cr_ContentStat :=
  match cr_file.stat with
  | some st =>
    match cr_file.checksum_ctx with
    | some ctx => some { st with checksum := some (E.cr_checksum_final ctx) }
    | none => some { st with checksum := none }
  | none => none

/-- The function `cr_close`: `ret`, the error set and the attached record
afterwards.  On `NULL` it returns `CRE_OK` at once. -/
def cr_close {κ : Type} (E : ChecksumEngine κ) (cr_file : Option (CR_FILE κ)) (w : World) :
    Res (cr_Error × Option GError × Option cr_ContentStat) :=
  match cr_file with
  | none => .done (CRE_OK, none, none) w
  | some cr_file =>
    match cr_close_kind cr_file w with
    | .done (ret, err) w =>
      let stat := close_stat E cr_file
      if (ret ≠ CRE_OK ∧ err ≠ none) ∨ (ret = CRE_OK ∧ err = none) then
        .done (ret, err, stat) w
      else .abort w
    | .abort w => .abort w
    | .stuck => .stuck

/-- The `switch` of `cr_sopen` (lines 325-475): open the handle of the
resolved kind.  Yields `file->FILE` (`none` for `NULL`) and the error set. -/
def cr_sopen_kind (filename : Bytes) (mode : cr_OpenMode) (type : cr_CompressionType)
    (w : World) : Res (Option Handle × Option GError) :=
  let mode_str : Bytes := if mode = CR_CW_MODE_WRITE then "wb".toList else "rb".toList
  match type with
  | CR_CW_NO_COMPRESSION =>
    let mode_str : Bytes := if mode = CR_CW_MODE_WRITE then "w".toList else "r".toList
    match w.call (.fopen filename mode_str) with
    | some (.ptr f, w) =>
      if f = 0 then .done (none, some ⟨ CRE_IO⟩) w else .done (some (.ptr f), none) w
    | _ => .stuck
  | CR_CW_GZ_COMPRESSION =>
    match w.call (.gzopen filename mode_str) with
    | some (.ptr f, w) =>
      if f = 0 then .done (none, some ⟨CRE_GZ⟩) w
      else
        let w := if mode = CR_CW_MODE_WRITE then w.note (.gzsetparams f) else w
        match w.call (.gzbuffer f GZ_BUFFER_SIZE) with
        | some (.int r, w) =>
          if r = -1 then .done (some (.ptr f), some ⟨CRE_GZ⟩) w
          else .done (some (.ptr f), none) w
        | _ => .stuck
    | _ => .stuck
  | CR_CW_BZ2_COMPRESSION =>
    match w.call (.fopen filename mode_str) with
    | some (.ptr f, w) =>
      if f = 0 then .done (none, some ⟨ CRE_IO⟩) w
      else
        match w.call (if mode = CR_CW_MODE_WRITE then .BZ2_bzWriteOpen f
                      else .BZ2_bzReadOpen f) with
        | some (.bzopen b bzerror, w) =>
          .done (if b = 0 then none else some (.ptr b),
                 if bzerror ≠ BZ_OK then some ⟨CRE_BZ2⟩ else none) w
        | _ => .stuck
    | _ => .stuck
  | CR_CW_XZ_COMPRESSION =>
    match w.call (if mode = CR_CW_MODE_WRITE then .lzma_easy_encoder
                  else .lzma_auto_decoder) with
    | some (.int ret, w) =>
      if ret ≠ LZMA_OK then .done (none, some ⟨CRE_XZ⟩) w
      else
        match w.call (.fopen filename mode_str) with
        | some (.ptr f, w) =>
          if f = 0 then .done (none, some ⟨CRE_XZ⟩) (w.note .lzma_end)
          else .done (some (.xz { file := f, avail_in := [] }), none) w
        | _ => .stuck
    | _ => .stuck
  | _ => .done (none, none) w

/-- Lines 298-505 of `cr_sopen`, after the checks of the write mode. -/
def cr_sopen_body {κ : Type} (E : ChecksumEngine κ) (filename : Bytes) (mode : cr_OpenMode)
    (comtype : cr_CompressionType) (stat : Option cr_ContentStat) (w : World) :
    Res (Option (CR_FILE κ) × Option GError × Option cr_ContentStat) :=
  let detected : Res (cr_CompressionType × Option GError) :=
    if comtype = CR_CW_AUTO_DETECT_COMPRESSION then cr_detect_compression filename w
    else .done (comtype, none) w
  match detected with
  | .done (_, some tmp_err) w => .done (none, some tmp_err, stat) w
  | .done (type, none) w =>
    if type = CR_CW_UNKNOWN_COMPRESSION then
      .done (none, some ⟨CRE_UNKNOWNCOMPRESSION⟩, stat) w
    else
      match cr_sopen_kind filename mode type w with
      | .done (none, err) w => .done (none, set_error err CRE_XZ, stat) w
      | .done (some h, err) w =>
        let file : CR_FILE κ :=
          { type := type, FILE := h, mode := mode, stat := none, checksum_ctx := none }
        match stat with
        | none => if err = none then .done (some file, none, none) w else .abort w
        | some st =>
          let file := { file with stat := some st }
          if st.checksum_type = CR_CHECKSUM_UNKNOWN then
            if err = none then .done (some file, none, some st) w else .abort w
          else
            match E.cr_checksum_new st.checksum_type with
            | .ok ctx =>
              let file := { file with checksum_ctx := some ctx }
              if err = none then .done (some file, none, some st) w else .abort w
            | .error tmp_err =>
              match cr_close E (some file) w with
              | .done (_, _, stat) w => .done (none, set_error err tmp_err.code, stat) w
              | .abort w => .abort w
              | .stuck => .stuck
      | .abort w => .abort w
      | .stuck => .stuck
  | .abort w => .abort w
  | .stuck => .stuck

/-- The function `cr_sopen`: the stream (`none` for `NULL`), the error set,
and the caller's record afterwards. -/
def cr_sopen {κ : Type} (E : ChecksumEngine κ) (filename : Bytes) (mode : cr_OpenMode)
    (comtype : cr_CompressionType) (stat : Option cr_ContentStat) (w : World) :
    Res (Option (CR_FILE κ) × Option GError × Option cr_ContentStat) :=
  if mode = CR_CW_MODE_WRITE ∧ comtype = CR_CW_AUTO_DETECT_COMPRESSION then .abort w
  else if mode = CR_CW_MODE_WRITE ∧ comtype = CR_CW_UNKNOWN_COMPRESSION then .abort w
  else cr_sopen_body E filename mode comtype stat w

/-- The closing assertion of the read and write functions:
`(ret == CR_CW_ERR && *err != NULL) || (ret != CR_CW_ERR && *err == NULL)`. -/
def ret_err_agree (ret : Int) (err : Option GError) : Prop :=
  (ret = CR_CW_ERR ∧ err ≠ none) ∨ (ret ≠ CR_CW_ERR ∧ err = none)

instance (ret : Int) (err : Option GError) : Decidable (ret_err_agree ret err) := by
  unfold ret_err_agree; infer_instance

/-- What one decoding step of the xz read loop leads to: the function
returns `CR_CW_ERR`, the loop ends, or the loop goes on. -/
inductive XzStep where
  | fail (err : GError) (x : XzFile)
  | stop (got : Bytes) (avail_out : Nat) (x : XzFile)
  | next (got : Bytes) (avail_out : Nat) (x : XzFile)
  | stuck
  deriving DecidableEq, Repr

/-- Lines 798-857 of `cr_read`: the answer of `lzma_code(stream, LZMA_RUN)`,
with `avail_out` bytes of room left in the caller's buffer, of which `got` are
filled already. -/
def xz_decode (x : XzFile) (avail_out : Nat) (got : Bytes) (lret : Int) (consumed : Nat)
    (out : Bytes) : XzStep :=
  if consumed ≤ x.avail_in.length ∧ out.length ≤ avail_out then
    let x := { x with avail_in := x.avail_in.drop consumed }
    if lret ≠ LZMA_OK ∧ lret ≠ LZMA_STREAM_END then .fail ⟨CRE_XZ⟩ x
    else if lret = LZMA_STREAM_END then .stop (got ++ out) (avail_out - out.length) x
    else .next (got ++ out) (avail_out - out.length) x
  else .stuck

/-- The `while (stream->avail_out)` loop of `cr_read` for xz (lines 780-858).
`got` is what the decoder has put into the caller's buffer so far.  Yields
`none` and the error where the loop returns `CR_CW_ERR` at once, and else the
bytes decoded and `avail_out` at the end of the loop; with them the stream. -/
def xz_read_loop : XzFile → Nat → Bytes → List Call → List Resp →
    Res (Option (Bytes × Nat) × Option GError × XzFile)
  | x, 0, got, log, script => .done (some (got, 0), none, x) ⟨log, script⟩
  | x, avail_out + 1, got, log, r :: rest =>
    if x.avail_in.length = 0 then
      match r with
      | .data d _ =>
        let log := log ++ [.fread x.file XZ_BUFFER_SIZE]
        if d.length ≤ XZ_BUFFER_SIZE then
          if toInt32 d.length < 0 then .done (none, some ⟨CRE_XZ⟩, x) ⟨log, rest⟩
          else if toInt32 d.length = 0 then
            .done (some (got, avail_out + 1), none, x) ⟨log, rest⟩
          else
            match rest with
            | .code lret consumed out :: rest =>
              let log := log ++ [.lzma_code LZMA_RUN d (avail_out + 1)]
              match xz_decode { x with avail_in := d } (avail_out + 1) got lret consumed out with
              | .fail err x => .done (none, some err, x) ⟨log, rest⟩
              | .stop got avail_out x => .done (some (got, avail_out), none, x) ⟨log, rest⟩
              | .next got avail_out x => xz_read_loop x avail_out got log rest
              | .stuck => .stuck
            | _ => .stuck
        else .stuck
      | _ => .stuck
    else
      match r with
      | .code lret consumed out =>
        let log := log ++ [.lzma_code LZMA_RUN x.avail_in (avail_out + 1)]
        match xz_decode x (avail_out + 1) got lret consumed out with
        | .fail err x => .done (none, some err, x) ⟨log, rest⟩
        | .stop got avail_out x => .done (some (got, avail_out), none, x) ⟨log, rest⟩
        | .next got avail_out x => xz_read_loop x avail_out got log rest
        | .stuck => .stuck
      | _ => .stuck
  | _, _ + 1, _, _, [] => .stuck

/-- The `switch` of `cr_read` (lines 706-869).  Yields `ret`, the error set,
the bytes stored in the caller's buffer and the stream; `direct` tells that the
function returned from inside the `switch`, not through its closing assertion. -/
def cr_read_kind {κ : Type} (cr_file : CR_FILE κ) (len : Nat) (w : World) :
    Res (Bool × Int × Option GError × Bytes × CR_FILE κ) :=
  match cr_file.type, cr_file.FILE with
  | CR_CW_NO_COMPRESSION, .ptr f =>
    match w.call (.fread f len) with
    | some (.data d _, w) =>
      if d.length ≤ len then
        if toInt32 d.length ≠ toInt32 len then
          match w.call (.feof f) with
          | some (.bool eof, w) =>
            if !eof then .done (false, CR_CW_ERR, some ⟨ CRE_IO⟩, d, cr_file) w
            else .done (false, toInt32 d.length, none, d, cr_file) w
          | _ => .stuck
        else .done (false, toInt32 d.length, none, d, cr_file) w
      else .stuck
    | _ => .stuck
  | CR_CW_GZ_COMPRESSION, .ptr f =>
    match w.call (.gzread f len) with
    | some (.rd ret _ d, w) =>
      if ret = -1 ∨ (0 ≤ ret ∧ ret ≤ len ∧ ret < 2 ^ 31 ∧ d.length = ret) then
        if ret = -1 then .done (false, CR_CW_ERR, some ⟨CRE_GZ⟩, d, cr_file) w
        else .done (false, ret, none, d, cr_file) w
      else .stuck
    | _ => .stuck
  | CR_CW_BZ2_COMPRESSION, .ptr b =>
    match w.call (.BZ2_bzRead b len) with
    | some (.rd ret bzerror d, w) =>
      if 0 ≤ ret ∧ ret ≤ len ∧ ret < 2 ^ 31 ∧ d.length = ret then
        if ret = 0 ∧ bzerror = BZ_SEQUENCE_ERROR then .done (true, 0, none, d, cr_file) w
        else if bzerror ≠ BZ_OK ∧ bzerror ≠ BZ_STREAM_END then
          .done (false, CR_CW_ERR, some ⟨CRE_BZ2⟩, d, cr_file) w
        else .done (false, ret, none, d, cr_file) w
      else .stuck
    | _ => .stuck
  | CR_CW_XZ_COMPRESSION, .xz x =>
    match xz_read_loop x (toUInt32 len) [] w.log w.script with
    | .done (none, err, x) w => .done (true, CR_CW_ERR, err, [], { cr_file with FILE := .xz x }) w
    | .done (some (got, avail_out), err, x) w =>
      .done (false, toInt32 (len - avail_out), err, got, { cr_file with FILE := .xz x }) w
    | .abort w => .abort w
    | .stuck => .stuck
  | CR_CW_AUTO_DETECT_COMPRESSION, _ =>
    .done (false, CR_CW_ERR, some ⟨CRE_BADARG⟩, [], cr_file) w
  | CR_CW_UNKNOWN_COMPRESSION, _ =>
    .done (false, CR_CW_ERR, some ⟨CRE_BADARG⟩, [], cr_file) w
  | _, _ => .stuck

/-- The function `cr_read` for a buffer of `len` bytes: `ret`, the error
set, the bytes stored in the buffer and the stream afterwards. -/
def cr_read {κ : Type} (cr_file : CR_FILE κ) (len : Nat) (w : World) :
    Res (Int × Option GError × Bytes × CR_FILE κ) :=
  if cr_file.mode ≠ CR_CW_MODE_READ then
    .done (CR_CW_ERR, some ⟨CRE_BADARG⟩, [], cr_file) w
  else
    match cr_read_kind cr_file len w with
    | .done (direct, ret, err, d, cr_file) w =>
      if direct ∨ ret_err_agree ret err then .done (ret, err, d, cr_file) w else .abort w
    | .abort w => .abort w
    | .stuck => .stuck

/-- The `while (stream->avail_in)` loop of `cr_write` for xz (lines 967-1014):
one `lzma_code` step with `LZMA_RUN`, then the staging buffer goes to the raw
file.  Yields `ret`, the error set and the input left in the stream. -/
def xz_write_loop (file : Nat) :
    Bytes → Int → List Call → List Resp → Res (Int × Option GError × Bytes)
  | [], ret, log, script => .done (ret, none, []) ⟨log, script⟩
  | c :: cs, ret, log, .code lret consumed out :: rest =>
    let log := log ++ [.lzma_code LZMA_RUN (c :: cs) XZ_BUFFER_SIZE]
    if consumed ≤ (c :: cs).length ∧ out.length ≤ XZ_BUFFER_SIZE then
      if lret ≠ LZMA_OK then
        .done (CR_CW_ERR, some ⟨CRE_XZ⟩, (c :: cs).drop consumed) ⟨log, rest⟩
      else
        match rest with
        | .size n :: rest =>
          let log := log ++ [.fwrite file out]
          if n ≤ out.length then
            if n ≠ out.length then
              .done (CR_CW_ERR, some ⟨CRE_XZ⟩, (c :: cs).drop consumed) ⟨log, rest⟩
            else xz_write_loop file ((c :: cs).drop consumed) ret log rest
          else .stuck
        | _ => .stuck
    else .stuck
  | _ :: _, _, _, _ => .stuck

/-- The `switch` of `cr_write` (lines 907-1023).  `buffer` is the `len` bytes
at the pointer passed, so `len` is its length.  Yields `ret`, the error set
and the stream. -/
def cr_write_kind {κ : Type} (cr_file : CR_FILE κ) (buffer : Bytes) (w : World) :
    Res (Int × Option GError × CR_FILE κ) :=
  let len := buffer.length
  match cr_file.type, cr_file.FILE with
  | CR_CW_NO_COMPRESSION, .ptr f =>
    match w.call (.fwrite f buffer) with
    | some (.size n, w) =>
      if n ≤ len then
        if toInt32 n ≠ toInt32 len then .done (CR_CW_ERR, some ⟨ CRE_IO⟩, cr_file) w
        else .done (toInt32 n, none, cr_file) w
      else .stuck
    | _ => .stuck
  | CR_CW_GZ_COMPRESSION, .ptr f =>
    if len = 0 then .done (0, none, cr_file) w
    else
      match w.call (.gzwrite f buffer) with
      | some (.int r, w) =>
        if 0 ≤ r ∧ r ≤ len ∧ r < 2 ^ 31 then
          if r = 0 then .done (CR_CW_ERR, some ⟨CRE_GZ⟩, cr_file) w
          else .done (r, none, cr_file) w
        else .stuck
      | _ => .stuck
  | CR_CW_BZ2_COMPRESSION, .ptr b =>
    match w.call (.BZ2_bzWrite b buffer) with
    | some (.int bzerror, w) =>
      if bzerror = BZ_OK then .done (toInt32 len, none, cr_file) w
      else .done (CR_CW_ERR, some ⟨CRE_BZ2⟩, cr_file) w
    | _ => .stuck
  | CR_CW_XZ_COMPRESSION, .xz x =>
    match xz_write_loop x.file buffer (toInt32 len) w.log w.script with
    | .done (ret, err, avail_in) w =>
      .done (ret, err, { cr_file with FILE := .xz { x with avail_in := avail_in } }) w
    | .abort w => .abort w
    | .stuck => .stuck
  | CR_CW_AUTO_DETECT_COMPRESSION, _ => .done (CR_CW_ERR, some ⟨CRE_BADARG⟩, cr_file) w
  | CR_CW_UNKNOWN_COMPRESSION, _ => .done (CR_CW_ERR, some ⟨CRE_BADARG⟩, cr_file) w
  | _, _ => .stuck

/-- Lines 895-905 of `cr_write`: the attached record counts the bytes and the
checksum context takes them in.  Yields the stream and the error of the update. -/
def cr_write_stat {κ : Type} (E : ChecksumEngine κ) (cr_file : CR_FILE κ) (buffer : Bytes) :
    CR_FILE κ × Option GError :=
  match cr_file.stat with
  | some st =>
    let cr_file := { cr_file with stat := some { st with size := (st.size + buffer.length) % 2 ^ 64 } }
    match cr_file.checksum_ctx with
    | some ctx =>
      let r := E.cr_checksum_update ctx buffer
      ({ cr_file with checksum_ctx := some r.1 }, r.2)
    | none => (cr_file, none)
  | none => (cr_file, none)

/-- The function `cr_write`: `ret`, the error set and the stream afterwards. -/
def cr_write {κ : Type} (E : ChecksumEngine κ) (cr_file : CR_FILE κ) (buffer : Bytes)
    (w : World) : Res (Int × Option GError × CR_FILE κ) :=
  if cr_file.mode ≠ CR_CW_MODE_WRITE then .done (CR_CW_ERR, some ⟨CRE_BADARG⟩, cr_file) w
  else
    let w := w.note (.cr_write_entry buffer)
    match cr_write_stat E cr_file buffer with
    | (cr_file, some tmp_err) => .done (CR_CW_ERR, some tmp_err, cr_file) w
    | (cr_file, none) =>
      match cr_write_kind cr_file buffer w with
      | .done (ret, err, cr_file) w =>
        if ret_err_agree ret err then .done (ret, err, cr_file) w else .abort w
      | .abort w => .abort w
      | .stuck => .stuck

/-- The function `cr_puts`; `str` is `none` for `NULL`.  The `size_t` length
is passed on as `unsigned int` and compared as `int`. -/
def cr_puts {κ : Type} (E : ChecksumEngine κ) (cr_file : CR_FILE κ) (str : Option Bytes)
    (w : World) : Res (Int × Option GError × CR_FILE κ) :=
  match str with
  | none => .done (0, none, cr_file) w
  | some str =>
    if cr_file.mode ≠ CR_CW_MODE_WRITE then .done (CR_CW_ERR, some ⟨CRE_BADARG⟩, cr_file) w
    else
      match cr_file.type with
      | CR_CW_AUTO_DETECT_COMPRESSION => .done (CR_CW_ERR, some ⟨CRE_BADARG⟩, cr_file) w
      | CR_CW_UNKNOWN_COMPRESSION => .done (CR_CW_ERR, some ⟨CRE_BADARG⟩, cr_file) w
      | _ =>
        let len := str.length
        match cr_write E cr_file (str.take (toUInt32 len)) w with
        | .done (ret, err, cr_file) w =>
          let ret := if ret ≠ toInt32 len then CR_CW_ERR else ret
          if ret_err_agree ret err then .done (ret, err, cr_file) w else .abort w
        | .abort w => .abort w
        | .stuck => .stuck

/-- The `int` that a `%d` conversion reads where a `long` was passed: its low 32 bits. -/
def long_as_int (a : Int) : Int := toInt32 (a % 2 ^ 32).toNat

/-- The rendering done by `g_vasprintf` for the templates of `xml_file.c`:
plain characters are copied and `%d` becomes the decimal form of the argument. -/
def vasprintf_d : Bytes → Int → Bytes
  | '%' :: 'd' :: rest, a => (toString (long_as_int a)).toList ++ vasprintf_d rest a
  | c :: rest, a => c :: vasprintf_d rest a
  | [], _ => []

/-- The function `cr_printf` with one argument after the format; `format` is
`none` for `NULL`. -/
def cr_printf {κ : Type} (E : ChecksumEngine κ) (cr_file : CR_FILE κ) (format : Option Bytes)
    (arg : Int) (w : World) : Res (Int × Option GError × CR_FILE κ) :=
  match format with
  | none => .done (0, none, cr_file) w
  | some format =>
    if cr_file.mode ≠ CR_CW_MODE_WRITE then .done (CR_CW_ERR, some ⟨CRE_BADARG⟩, cr_file) w
    else
      let buf := vasprintf_d format arg
      match w.call .g_vasprintf with
      | some (.int ret, w) =>
        if ret < 0 then .done (CR_CW_ERR, some ⟨CRE_MEMORY⟩, cr_file) w
        else if ret = buf.length ∧ ret < 2 ^ 31 then
          match cr_file.type with
          | CR_CW_AUTO_DETECT_COMPRESSION => .done (CR_CW_ERR, some ⟨CRE_BADARG⟩, cr_file) w
          | CR_CW_UNKNOWN_COMPRESSION => .done (CR_CW_ERR, some ⟨CRE_BADARG⟩, cr_file) w
          | _ =>
            match cr_write E cr_file (buf.take ret.toNat) w with
            | .done (tmp_ret, err, cr_file) w =>
              let ret := if tmp_ret ≠ ret then CR_CW_ERR else ret
              if ret_err_agree ret err then .done (ret, err, cr_file) w else .abort w
            | .abort w => .abort w
            | .stuck => .stuck
        else .stuck
      | _ => .stuck

/-- Modelled from the spec: the macros `XML_DOC_VERSION` and `XML_ENCODING`
of `xml_dump_internal.h`, which is not among the sources; the declaration line
is `<?xml version="1.0" encoding="UTF-8"?>`. -/
def XML_DOC_VERSION : Bytes := "1.0".toList

/-- The encoding named in the declaration line. -/
def XML_ENCODING : Bytes := "UTF-8".toList

/-- The namespace macros of `xml_dump.h`, which is not among the sources. -/
structure XmlNamespaces where
  CR_XML_COMMON_NS : Bytes
  CR_XML_RPM_NS : Bytes
  CR_XML_FILELISTS_NS : Bytes
  CR_XML_OTHER_NS : Bytes
  deriving DecidableEq, Repr

/-- The macro `XML_HEADER`. -/
def XML_HEADER : Bytes :=
  "<?xml version=\"".toList ++ XML_DOC_VERSION ++ "\" encoding=\"".toList ++ XML_ENCODING ++
    "\"?>\n".toList

/-- The macro `XML_PRIMARY_HEADER`. -/
def XML_PRIMARY_HEADER (ns : XmlNamespaces) : Bytes :=
  XML_HEADER ++ "<metadata xmlns=\"".toList ++ ns.CR_XML_COMMON_NS ++ "\" xmlns:rpm=\"".toList ++
    ns.CR_XML_RPM_NS ++ "\" packages=\"%d\">\n".toList

/-- The macro `XML_FILELISTS_HEADER`. -/
def XML_FILELISTS_HEADER (ns : XmlNamespaces) : Bytes :=
  XML_HEADER ++ "<filelists xmlns=\"".toList ++ ns.CR_XML_FILELISTS_NS ++
    "\" packages=\"%d\">\n".toList

/-- The macro `XML_OTHER_HEADER`. -/
def XML_OTHER_HEADER (ns : XmlNamespaces) : Bytes :=
  XML_HEADER ++ "<otherdata xmlns=\"".toList ++ ns.CR_XML_OTHER_NS ++
    "\" packages=\"%d\">\n".toList

/-- The macro `XML_PRIMARY_FOOTER`. -/
def XML_PRIMARY_FOOTER : Bytes := "</metadata>".toList

/-- The macro `XML_FILELISTS_FOOTER`. -/
def XML_FILELISTS_FOOTER : Bytes := "</filelists>".toList

/-- The macro `XML_OTHER_FOOTER`. -/
def XML_OTHER_FOOTER : Bytes := "</otherdata>".toList

/-- The struct `cr_XmlFile`; `header` and `footer` are the `int` flags, `pkgs` the `long`. -/
structure cr_XmlFile (κ : Type) where
  f : CR_FILE κ
  type : cr_XmlFileType
  header : Nat
  footer : Nat
  pkgs : Int
  deriving DecidableEq

/-- The function `cr_xmlfile_sopen`: the document (`none` for `NULL`), the
error set and the caller's record afterwards.  `cr_sopen` never returns `NULL`
without an error, so no document wraps a `NULL` stream. -/
def cr_xmlfile_sopen {κ : Type} (E : ChecksumEngine κ) (filename : Bytes) (type : cr_XmlFileType)
    (comtype : cr_CompressionType) (stat : Option cr_ContentStat) (w : World) :
    Res (Option (cr_XmlFile κ) × Option GError × Option cr_ContentStat) :=
  match w.call (.g_file_test filename G_FILE_TEST_EXISTS) with
  | some (.bool «exists», w) =>
    if «exists» then .done (none, some ⟨CRE_EXISTS⟩, stat) w
    else
      match cr_sopen E filename CR_CW_MODE_WRITE comtype stat w with
      | .done (_, some tmp_err, stat) w => .done (none, some tmp_err, stat) w
      | .done (some cr_f, none, stat) w =>
        .done (some { f := cr_f, type := type, header := 0, footer := 0, pkgs := 0 }, none, stat) w
      | .done (none, none, _) _ => .stuck
      | .abort w => .abort w
      | .stuck => .stuck
  | _ => .stuck

/-- The function `cr_xmlfile_set_num_of_pkgs`. -/
def cr_xmlfile_set_num_of_pkgs {κ : Type} (f : cr_XmlFile κ) (num : Int) (w : World) :
    Res (cr_Error × Option GError × cr_XmlFile κ) :=
  if f.header ≠ 0 then .abort w
  else if ¬ (num ≥ 0) then .abort w
  else .done (CRE_OK, none, { f with pkgs := num }) w

/-- The header template chosen by the `switch` of `cr_xmlfile_write_xml_header`. -/
def xml_header (ns : XmlNamespaces) (type : cr_XmlFileType) : Bytes :=
  match type with
  | CR_XMLFILE_PRIMARY => XML_PRIMARY_HEADER ns
  | CR_XMLFILE_FILELISTS => XML_FILELISTS_HEADER ns
  | CR_XMLFILE_OTHER => XML_OTHER_HEADER ns

/-- The footer chosen by the `switch` of `cr_xmlfile_write_xml_footer`. -/
def xml_footer (type : cr_XmlFileType) : Bytes :=
  match type with
  | CR_XMLFILE_PRIMARY => XML_PRIMARY_FOOTER
  | CR_XMLFILE_FILELISTS => XML_FILELISTS_FOOTER
  | CR_XMLFILE_OTHER => XML_OTHER_FOOTER

/-- The function `cr_xmlfile_write_xml_header`. -/
def cr_xmlfile_write_xml_header {κ : Type} (E : ChecksumEngine κ) (ns : XmlNamespaces)
    (f : cr_XmlFile κ) (w : World) : Res (cr_Error × Option GError × cr_XmlFile κ) :=
  if f.header ≠ 0 then .abort w
  else
    match cr_printf E f.f (some (xml_header ns f.type)) f.pkgs w with
    | .done (ret, tmp_err, cr_f) w =>
      if ret = CR_CW_ERR then
        match tmp_err with
        | some e => .done (e.code, some e, { f with f := cr_f }) w
        | none => .abort w
      else .done (CRE_OK, none, { f with f := cr_f, header := 1 }) w
    | .abort w => .abort w
    | .stuck => .stuck

/-- The function `cr_xmlfile_write_xml_footer`. -/
def cr_xmlfile_write_xml_footer {κ : Type} (E : ChecksumEngine κ)
    (f : cr_XmlFile κ) (w : World) : Res (cr_Error × Option GError × cr_XmlFile κ) :=
  if f.footer ≠ 0 then .abort w
  else
    match cr_puts E f.f (some (xml_footer f.type)) w with
    | .done (_, some tmp_err, cr_f) w => .done (tmp_err.code, some tmp_err, { f with f := cr_f }) w
    | .done (_, none, cr_f) w => .done (CRE_OK, none, { f with f := cr_f, footer := 1 }) w
    | .abort w => .abort w
    | .stuck => .stuck

/-- The function `cr_xmlfile_add_chunk`; `chunk` is `none` for `NULL`. -/
def cr_xmlfile_add_chunk {κ : Type} (E : ChecksumEngine κ) (ns : XmlNamespaces)
    (f : cr_XmlFile κ) (chunk : Option Bytes) (w : World) :
    Res (cr_Error × Option GError × cr_XmlFile κ) :=
  if f.footer ≠ 0 then .abort w
  else
    match chunk with
    | none => .done (CRE_OK, none, f) w
    | some chunk =>
      let hdr : Res (cr_Error × Option GError × cr_XmlFile κ) :=
        if f.header = 0 then cr_xmlfile_write_xml_header E ns f w
        else .done (CRE_OK, none, f) w
      match hdr with
      | .done (_, some tmp_err, f) w => .done (tmp_err.code, some tmp_err, f) w
      | .done (_, none, f) w =>
        match cr_puts E f.f (some chunk) w with
        | .done (_, some tmp_err, cr_f) w =>
          .done (tmp_err.code, some tmp_err, { f with f := cr_f }) w
        | .done (_, none, cr_f) w => .done (CRE_OK, none, { f with f := cr_f }) w
        | .abort w => .abort w
        | .stuck => .stuck
      | .abort w => .abort w
      | .stuck => .stuck

/-- The function `cr_xmlfile_add_pkg`.  The serializers `cr_xml_dump_primary`,
`cr_xml_dump_filelists` and `cr_xml_dump_other` are the parameter `dump`:
the text (`none` for `NULL`) and the error set. -/
def cr_xmlfile_add_pkg {κ π : Type} (E : ChecksumEngine κ) (ns : XmlNamespaces)
    (dump : cr_XmlFileType → π → Option Bytes × Option GError)
    (f : cr_XmlFile κ) (pkg : π) (w : World) :
    Res (cr_Error × Option GError × cr_XmlFile κ) :=
  if f.footer ≠ 0 then .abort w
  else
    match dump f.type pkg with
    | (_, some tmp_err) => .done (tmp_err.code, some tmp_err, f) w
    | (none, none) => .done (CRE_OK, none, f) w
    | (some xml, none) =>
      match cr_xmlfile_add_chunk E ns f (some xml) w with
      | .done (_, some tmp_err, f) w => .done (tmp_err.code, some tmp_err, f) w
      | .done (_, none, f) w => .done (CRE_OK, none, f) w
      | .abort w => .abort w
      | .stuck => .stuck

/-- The function `cr_xmlfile_close`: the code returned, the error set, the
document if it was not freed, and the attached record once the stream is closed. -/
def cr_xmlfile_close {κ : Type} (E : ChecksumEngine κ) (ns : XmlNamespaces)
    (f : Option (cr_XmlFile κ)) (w : World) :
    Res (cr_Error × Option GError × Option (cr_XmlFile κ) × Option cr_ContentStat) :=
  match f with
  | none => .done (CRE_OK, none, none, none) w
  | some f =>
    let hdr : Res (cr_Error × Option GError × cr_XmlFile κ) :=
      if f.header = 0 then cr_xmlfile_write_xml_header E ns f w
      else .done (CRE_OK, none, f) w
    match hdr with
    | .done (_, some tmp_err, f) w => .done (tmp_err.code, some tmp_err, some f, f.f.stat) w
    | .done (_, none, f) w =>
      let ftr : Res (cr_Error × Option GError × cr_XmlFile κ) :=
        if f.footer = 0 then cr_xmlfile_write_xml_footer E f w
        else .done (CRE_OK, none, f) w
      match ftr with
      | .done (_, some tmp_err, f) w => .done (tmp_err.code, some tmp_err, some f, f.f.stat) w
      | .done (_, none, f) w =>
        match cr_close E (some f.f) w with
        | .done (_, some tmp_err, stat) w => .done (tmp_err.code, some tmp_err, some f, stat) w
        | .done (_, none, stat) w => .done (CRE_OK, none, none, stat) w
        | .abort w => .abort w
        | .stuck => .stuck
      | .abort w => .abort w
      | .stuck => .stuck
    | .abort w => .abort w
    | .stuck => .stuck

/-! ## Callers: sequences of calls on one stream or document -/

/-- A caller that writes the buffers one after the other with `cr_write`:
the return value and error of each call, and the stream afterwards. -/
def cr_write_all {κ : Type} (E : ChecksumEngine κ) :
    CR_FILE κ → List Bytes → World → Res (List (Int × Option GError) × CR_FILE κ)
  | f, [], w => .done ([], f) w
  | f, b :: bs, w =>
    match cr_write E f b w with
    | .done (ret, err, f) w =>
      match cr_write_all E f bs w with
      | .done (rs, f) w => .done ((ret, err) :: rs, f) w
      | .abort w => .abort w
      | .stuck => .stuck
    | .abort w => .abort w
    | .stuck => .stuck

/-- A caller that appends the chunks one after the other with
`cr_xmlfile_add_chunk`: the code and error of each call, and the document
afterwards. -/
def cr_xmlfile_add_chunks {κ : Type} (E : ChecksumEngine κ) (ns : XmlNamespaces) :
    cr_XmlFile κ → List Bytes → World → Res (List (cr_Error × Option GError) × cr_XmlFile κ)
  | f, [], w => .done ([], f) w
  | f, chunk :: chunks, w =>
    match cr_xmlfile_add_chunk E ns f (some chunk) w with
    | .done (ret, err, f) w =>
      match cr_xmlfile_add_chunks E ns f chunks w with
      | .done (rs, f) w => .done ((ret, err) :: rs, f) w
      | .abort w => .abort w
      | .stuck => .stuck
    | .abort w => .abort w
    | .stuck => .stuck

/-- The operations on an open document before its close. -/
inductive XmlOp (π : Type) where
  | set_num_of_pkgs (num : Int)
  | write_xml_header
  | write_xml_footer
  | add_chunk (chunk : Option Bytes)
  | add_pkg (pkg : π)

/-- One operation on a document; `add_pkg` goes through the serializers `dump`. -/
def cr_xmlfile_op {κ π : Type} (E : ChecksumEngine κ) (ns : XmlNamespaces)
    (dump : cr_XmlFileType → π → Option Bytes × Option GError)
    (f : cr_XmlFile κ) (op : XmlOp π) (w : World) :
    Res (cr_Error × Option GError × cr_XmlFile κ) :=
  match op with
  | .set_num_of_pkgs num => cr_xmlfile_set_num_of_pkgs f num w
  | .write_xml_header => cr_xmlfile_write_xml_header E ns f w
  | .write_xml_footer => cr_xmlfile_write_xml_footer E f w
  | .add_chunk chunk => cr_xmlfile_add_chunk E ns f chunk w
  | .add_pkg pkg => cr_xmlfile_add_pkg E ns dump f pkg w

/-- A caller that applies the operations in order: the code and error of
each call, and the document afterwards.  An operation whose assertion fails
aborts the run. -/
def cr_xmlfile_ops {κ π : Type} (E : ChecksumEngine κ) (ns : XmlNamespaces)
    (dump : cr_XmlFileType → π → Option Bytes × Option GError) :
    cr_XmlFile κ → List (XmlOp π) → World →
      Res (List (cr_Error × Option GError) × cr_XmlFile κ)
  | f, [], w => .done ([], f) w
  | f, op :: ops, w =>
    match cr_xmlfile_op E ns dump f op w with
    | .done (ret, err, f) w =>
      match cr_xmlfile_ops E ns dump f ops w with
      | .done (rs, f) w => .done ((ret, err) :: rs, f) w
      | .abort w => .abort w
      | .stuck => .stuck
    | .abort w => .abort w
    | .stuck => .stuck

/-- One call of a caller on an open stream: a read into a buffer of `len`
bytes or a write of `buffer`. -/
inductive FileOp where
  | read (len : Nat)
  | write (buffer : Bytes)
  deriving DecidableEq, Repr

/-- A caller that makes one call on the stream and goes on with the stream,
whatever the call returned. -/
def cr_file_op {κ : Type} (E : ChecksumEngine κ) (f : CR_FILE κ) (op : FileOp) (w : World) :
    Res (CR_FILE κ) :=
  match op with
  | .read len =>
    match cr_read f len w with
    | .done (_, _, _, f) w => .done f w
    | .abort w => .abort w
    | .stuck => .stuck
  | .write buffer =>
    match cr_write E f buffer w with
    | .done (_, _, f) w => .done f w
    | .abort w => .abort w
    | .stuck => .stuck

/-- A caller that makes the calls one after the other on one stream. -/
def cr_file_ops {κ : Type} (E : ChecksumEngine κ) :
    CR_FILE κ → List FileOp → World → Res (CR_FILE κ)
  | f, [], w => .done f w
  | f, op :: ops, w =>
    match cr_file_op E f op w with
    | .done f w => cr_file_ops E f ops w
    | .abort w => .abort w
    | .stuck => .stuck

/-- A caller that reads into buffers of the sizes `lens`, one after the
other: what each `cr_read` returned and stored, and the stream afterwards. -/
def cr_read_all {κ : Type} :
    CR_FILE κ → List Nat → World → Res (List (Int × Option GError × Bytes) × CR_FILE κ)
  | f, [], w => .done ([], f) w
  | f, len :: lens, w =>
    match cr_read f len w with
    | .done (ret, err, d, f) w =>
      match cr_read_all f lens w with
      | .done (rs, f) w => .done ((ret, err, d) :: rs, f) w
      | .abort w => .abort w
      | .stuck => .stuck
    | .abort w => .abort w
    | .stuck => .stuck

/-! ## Definitions that follow the wording of the specification -/

/-- What the specification says a file name's suffix implies:
`.gz`, `.gzip`, `.gunzip` mean gzip, `.bz2`, `.bzip2` mean bzip2, `.xz` means
xz and `.xml` means no compression. -/
def suffix_implies (filename : Bytes) (k : cr_CompressionType) : Prop :=
  (k = CR_CW_GZ_COMPRESSION ∧
    (".gz".toList <:+ filename ∨ ".gzip".toList <:+ filename ∨ ".gunzip".toList <:+ filename)) ∨
  (k = CR_CW_BZ2_COMPRESSION ∧ (".bz2".toList <:+ filename ∨ ".bzip2".toList <:+ filename)) ∨
  (k = CR_CW_XZ_COMPRESSION ∧ ".xz".toList <:+ filename) ∨
  (k = CR_CW_NO_COMPRESSION ∧ ".xml".toList <:+ filename)

/-- The suffixes that decide the kind without a look at the content. -/
def recognised_suffixes : List Bytes :=
  [".gz".toList, ".gzip".toList, ".gunzip".toList, ".bz2".toList, ".bzip2".toList,
   ".xz".toList, ".xml".toList]

/-- The mime-prefix groups in the order of the specification, each with its kind. -/
def mime_groups : List (List Bytes × cr_CompressionType) :=
  [(["application/x-gzip".toList, "application/gzip".toList,
     "application/gzip-compressed".toList, "application/gzipped".toList,
     "application/x-gzip-compressed".toList, "application/x-compress".toList,
     "application/x-gunzip".toList, "multipart/x-gzip".toList], CR_CW_GZ_COMPRESSION),
   (["application/x-bzip2".toList, "application/x-bz2".toList, "application/bzip2".toList,
     "application/bz2".toList], CR_CW_BZ2_COMPRESSION),
   (["application/x-xz".toList], CR_CW_XZ_COMPRESSION),
   (["text/plain".toList, "text/xml".toList, "application/xml".toList,
     "application/x-xml".toList, "application/x-empty".toList, "inode/x-empty".toList],
    CR_CW_NO_COMPRESSION)]

/-- A mime type matches a group when one of the group's prefixes starts it. -/
def matches_group (mime_type : Bytes) (g : List Bytes × cr_CompressionType) : Bool :=
  g.1.any (fun p => p.isPrefixOf mime_type)

/-- The kind of the first group that the mime type matches, `Unknown` when none does. -/
def first_mime_group (mime_type : Bytes) : cr_CompressionType :=
  ((mime_groups.find? (matches_group mime_type)).map (fun g => g.2)).getD
    CR_CW_UNKNOWN_COMPRESSION

/-- The hasher is incremental: the digest after successive updates is the
digest after one update with the concatenation. -/
def ChecksumEngine.incremental {κ : Type} (E : ChecksumEngine κ) : Prop :=
  ∀ (ctx : κ) (bs : List Bytes),
    E.cr_checksum_final (bs.foldl (fun c b => (E.cr_checksum_update c b).1) ctx) =
      E.cr_checksum_final (E.cr_checksum_update ctx bs.flatten).1

/-- The hasher takes every update without an error. -/
def ChecksumEngine.update_ok {κ : Type} (E : ChecksumEngine κ) : Prop :=
  ∀ (ctx : κ) (b : Bytes), (E.cr_checksum_update ctx b).2 = none

/-- The bytes handed to the stream's write path so far: the buffers of the
`cr_write_entry` records of the log, in order. -/
def written_bytes (log : List Call) : Bytes :=
  (log.filterMap (fun c => match c with
    | .cr_write_entry data => some data
    | _ => none)).flatten

/-- The header of the specification: the XML declaration line, then the
opening root tag of the kind with its namespaces and `packages="n"`, then a
newline. -/
def header_bytes (ns : XmlNamespaces) (type : cr_XmlFileType) (n : Nat) : Bytes :=
  "<?xml version=\"1.0\" encoding=\"UTF-8\"?>\n".toList ++
  (match type with
   | CR_XMLFILE_PRIMARY =>
     "<metadata xmlns=\"".toList ++ ns.CR_XML_COMMON_NS ++ "\" xmlns:rpm=\"".toList ++
       ns.CR_XML_RPM_NS
   | CR_XMLFILE_FILELISTS => "<filelists xmlns=\"".toList ++ ns.CR_XML_FILELISTS_NS
   | CR_XMLFILE_OTHER => "<otherdata xmlns=\"".toList ++ ns.CR_XML_OTHER_NS) ++
  "\" packages=\"".toList ++ (toString n).toList ++ "\">\n".toList

/-- The footer of the specification: the closing root tag of the kind, with
no newline after it. -/
def footer_bytes (type : cr_XmlFileType) : Bytes :=
  match type with
  | CR_XMLFILE_PRIMARY => "</metadata>".toList
  | CR_XMLFILE_FILELISTS => "</filelists>".toList
  | CR_XMLFILE_OTHER => "</otherdata>".toList

/-- The namespace macros hold no `%`, so that they stand for themselves in a
format string. -/
def XmlNamespaces.plain (ns : XmlNamespaces) : Prop :=
  '%' ∉ ns.CR_XML_COMMON_NS ∧ '%' ∉ ns.CR_XML_RPM_NS ∧ '%' ∉ ns.CR_XML_FILELISTS_NS ∧
    '%' ∉ ns.CR_XML_OTHER_NS

instance (ns : XmlNamespaces) : Decidable ns.plain := by
  unfold XmlNamespaces.plain; infer_instance

/-- The handle is of the kind: a pointer for a plain, gzip or bzip2 stream,
an `XzFile` with no input left in its stream for xz. -/
def handle_fits (type : cr_CompressionType) (h : Handle) : Prop :=
  match type, h with
  | CR_CW_NO_COMPRESSION, .ptr _ => True
  | CR_CW_GZ_COMPRESSION, .ptr _ => True
  | CR_CW_BZ2_COMPRESSION, .ptr _ => True
  | CR_CW_XZ_COMPRESSION, .xz x => x.avail_in = []
  | _, _ => False

/-- A stream in write mode whose handle is of its kind. -/
def CR_FILE.write_ready {κ : Type} (f : CR_FILE κ) : Prop :=
  f.mode = CR_CW_MODE_WRITE ∧ handle_fits f.type f.FILE

/-- The answers to the xz write loop when nothing fails: every `lzma_code`
step returns `LZMA_OK`, every `fwrite` takes the whole staging buffer, and the
steps end when the input is used up. -/
def xz_write_answers_ok : Bytes → List Resp → Bool
  | [], script => script.isEmpty
  | c :: cs, .code lret consumed out :: .size n :: rest =>
    lret = LZMA_OK && consumed ≤ (c :: cs).length && out.length ≤ XZ_BUFFER_SIZE &&
      n = out.length && xz_write_answers_ok ((c :: cs).drop consumed) rest
  | _ :: _, _ => false

/-- The answers of the outside world to one `cr_write` of `buffer` on a stream
of the given kind when the underlying write succeeds. -/
def write_answers_ok (type : cr_CompressionType) (buffer : Bytes) (script : List Resp) : Bool :=
  match type with
  | CR_CW_NO_COMPRESSION => script = [.size buffer.length]
  | CR_CW_GZ_COMPRESSION =>
    if buffer.length = 0 then script = [] else script = [.int buffer.length]
  | CR_CW_BZ2_COMPRESSION => script = [.int BZ_OK]
  | CR_CW_XZ_COMPRESSION => xz_write_answers_ok buffer script
  | _ => false

/-- The answers to writing the header when nothing fails: `g_vasprintf`
returns the length of the rendered header, which fits an `int`, and the write
of it succeeds. -/
def header_answers_ok (kind : cr_CompressionType) (hdr : Bytes) (script : List Resp) : Bool :=
  match script with
  | .int r :: seg => r = hdr.length && hdr.length < 2 ^ 31 && write_answers_ok kind hdr seg
  | _ => false

/-- The answers to the xz finishing loop of `cr_close` when nothing fails:
steps that return `LZMA_OK` and a last one that returns `LZMA_STREAM_END`,
every staging buffer taken whole by `fwrite`. -/
def xz_finish_answers_ok : Bytes → List Resp → Bool
  | avail_in, .code rc consumed out :: .size n :: rest =>
    consumed ≤ avail_in.length && out.length ≤ XZ_BUFFER_SIZE && n = out.length &&
      (if rc = LZMA_STREAM_END then rest.isEmpty
       else rc = LZMA_OK && xz_finish_answers_ok (avail_in.drop consumed) rest)
  | _, _ => false

/-- The answers of the outside world to `cr_close` on a stream of the given
kind in write mode when the finalisation succeeds (for xz the finishing loop,
then the answer of `fclose`). -/
def close_answers_ok (type : cr_CompressionType) (script : List Resp) : Bool :=
  match type with
  | CR_CW_NO_COMPRESSION => script = [.int 0]
  | CR_CW_GZ_COMPRESSION => script = [.int Z_OK]
  | CR_CW_BZ2_COMPRESSION => script = [.int BZ_OK]
  | CR_CW_XZ_COMPRESSION =>
    match script.getLast? with
    | some (.int _) => xz_finish_answers_ok [] script.dropLast
    | _ => false
  | _ => false

/-- What stays of the attached record and the checksum context between
`cr_sopen` and `cr_close`: the stored digest, the checksum kind, and whether
there is a context. -/
def stat_kept {κ : Type} (f g : CR_FILE κ) : Prop :=
  g.stat.map (fun s => (s.checksum, s.checksum_type)) =
    f.stat.map (fun s => (s.checksum, s.checksum_type)) ∧
  g.checksum_ctx.isSome = f.checksum_ctx.isSome

/-- What the library behind a stream of the given kind was handed for storing
by the calls of a log: the buffers of `fwrite` for an uncompressed stream, of
`gzwrite` for gzip and of `BZ2_bzWrite` for bzip2.  The xz encoder is fed in
steps; what it was handed is the input of the first `lzma_code(LZMA_RUN)` step
of each write, which the loop of a write that succeeds feeds to it until none
is left.  `first` tells that the call before was the entry of a write. -/
def handed (type : cr_CompressionType) : Bool → List Call → Bytes
  | _, [] => []
  | first, c :: rest =>
    match c with
    | .cr_write_entry _ => handed type true rest
    | .fwrite _ d => (if type = CR_CW_NO_COMPRESSION then d else []) ++ handed type false rest
    | .gzwrite _ d => (if type = CR_CW_GZ_COMPRESSION then d else []) ++ handed type false rest
    | .BZ2_bzWrite _ d =>
      (if type = CR_CW_BZ2_COMPRESSION then d else []) ++ handed type false rest
    | .lzma_code LZMA_RUN input _ =>
      (if type = CR_CW_XZ_COMPRESSION ∧ first then input else []) ++ handed type false rest
    | _ => handed type false rest

/-- The lengths that a write of the kind can take whole: an `unsigned int`
other than the one that reads as `CR_CW_ERR`, and for zlib and bzlib, whose
write calls count in `int`, a length below 2^31. -/
def write_fits (type : cr_CompressionType) (len : Nat) : Prop :=
  len < 2 ^ 32 - 1 ∧
  (type = CR_CW_GZ_COMPRESSION ∨ type = CR_CW_BZ2_COMPRESSION → len < 2 ^ 31)

instance (type : cr_CompressionType) (len : Nat) : Decidable (write_fits type len) := by
  unfold write_fits; infer_instance

/-- One decoding step of an xz read that does not fail, on the side of the
answers: the decoder takes `consumed` bytes of the input `ain` and puts out
`out`, which fits the room `a`; with `LZMA_STREAM_END` the read is over, with
`LZMA_OK` it goes on as `next` tells. -/
def xz_answer_step (ain : Bytes) (a : Nat) (lret : Int) (consumed : Nat) (out : Bytes)
    (next : Option (Bytes × Bytes)) (rest : List Resp) : Option (Bytes × Bytes) :=
  if consumed ≤ ain.length ∧ out.length ≤ a then
    if lret = LZMA_STREAM_END then
      if rest = [] then some (out, ain.drop consumed) else none
    else if lret = LZMA_OK then next.map (fun r => (out ++ r.1, r.2))
    else none
  else none

/-- The answers to one xz read that does not fail: with the staged input `ain`
and room for `a` bytes, refills of the staging buffer by `fread` and decoding
steps by `lzma_code`, until the room is used up, the decoder reports the end of
the stream, or a refill finds the end of the file.  Yields the bytes put out
and the staged input left. -/
def xz_read_answers : Bytes → Nat → List Resp → Option (Bytes × Bytes)
  | ain, 0, script => if script = [] then some ([], ain) else none
  | ain, a + 1, r :: rest =>
    match ain, r with
    | [], .data d _ =>
      if d = [] then (if rest = [] then some ([], []) else none)
      else if d.length ≤ XZ_BUFFER_SIZE then
        match rest with
        | .code lret consumed out :: rest =>
          xz_answer_step d (a + 1) lret consumed out
            (xz_read_answers (d.drop consumed) (a + 1 - out.length) rest) rest
        | _ => none
      else none
    | c :: cs, .code lret consumed out =>
      xz_answer_step (c :: cs) (a + 1) lret consumed out
        (xz_read_answers ((c :: cs).drop consumed) (a + 1 - out.length) rest) rest
    | _, _ => none
  | _, _ + 1, [] => none

/-- The answers to one `cr_read` of `len` bytes that does not fail, for a
stream of the given kind and handle: the bytes that the library stores in the
caller's buffer and the handle afterwards.  An uncompressed read is full, or
short with the end-of-file indicator set; `gzread` returns its count;
`BZ2_bzRead` reports `BZ_OK` or `BZ_STREAM_END`, or `BZ_SEQUENCE_ERROR` with no
bytes once the end was reported; for xz see `xz_read_answers`. -/
def read_answers (type : cr_CompressionType) (FILE : Handle) (len : Nat) (seg : List Resp) :
    Option (Bytes × Handle) :=
  match type, FILE, seg with
  | CR_CW_NO_COMPRESSION, .ptr p, [.data d _] =>
    if d.length = len then some (d, .ptr p) else none
  | CR_CW_NO_COMPRESSION, .ptr p, [.data d _, .bool true] =>
    if d.length < len then some (d, .ptr p) else none
  | CR_CW_GZ_COMPRESSION, .ptr p, [.rd r _ d] =>
    if r = d.length ∧ d.length ≤ len then some (d, .ptr p) else none
  | CR_CW_BZ2_COMPRESSION, .ptr p, [.rd r bzerror d] =>
    if r = d.length ∧ d.length ≤ len ∧
        (bzerror = BZ_OK ∨ bzerror = BZ_STREAM_END ∨ (bzerror = BZ_SEQUENCE_ERROR ∧ d = []))
    then some (d, .ptr p) else none
  | CR_CW_XZ_COMPRESSION, .xz x, seg =>
    (xz_read_answers x.avail_in len seg).map (fun r => (r.1, .xz { x with avail_in := r.2 }))
  | _, _, _ => none

/-- The answers to reads of the lengths `lens`, one after the other, none of
which fails: the bytes stored by each read. -/
def reads_answers (type : cr_CompressionType) :
    Handle → List Nat → List (List Resp) → Option (List Bytes)
  | _, [], [] => some []
  | FILE, len :: lens, seg :: segs =>
    match read_answers type FILE len seg with
    | some (d, FILE1) => (reads_answers type FILE1 lens segs).map (fun ds => d :: ds)
    | none => none
  | _, _, _ => none

/-- The buffer sizes that a read of the kind can take: an `unsigned int` other
than the one that reads as `CR_CW_ERR`, and for zlib and bzlib, whose read calls
count in `int`, a size below 2^31. -/
def read_fits (type : cr_CompressionType) (len : Nat) : Prop :=
  len < 2 ^ 32 - 1 ∧
  (type = CR_CW_GZ_COMPRESSION ∨ type = CR_CW_BZ2_COMPRESSION → len < 2 ^ 31)

instance (type : cr_CompressionType) (len : Nat) : Decidable (read_fits type len) := by
  unfold read_fits; infer_instance

/-! ## Values for worked examples -/

/-- A hasher for worked examples: the context is the bytes seen so far and
the digest is their reversal. -/
def sample_engine : ChecksumEngine Bytes :=
  { cr_checksum_new := fun _ => .ok [],
    cr_checksum_update := fun ctx b => (ctx ++ b, none),
    cr_checksum_final := fun ctx => ctx.reverse }

/-- A record for worked examples: nothing counted yet, checksum kind 2. -/
def sample_stat : cr_ContentStat := { size := 0, checksum_type := 2, checksum := none }

/-- A gzip stream in write mode as `cr_sopen` returns it for `sample_stat`,
after `n` bytes with the checksum context `ctx`. -/
def sample_gz_file (n : Nat) (ctx : Bytes) : CR_FILE Bytes :=
  { type := CR_CW_GZ_COMPRESSION, FILE := .ptr 4, mode := CR_CW_MODE_WRITE,
    stat := some { sample_stat with size := n }, checksum_ctx := some ctx }

/-- The namespaces of the repodata format, for worked examples. -/
def repodata_ns : XmlNamespaces :=
  { CR_XML_COMMON_NS := "http://linux.duke.edu/metadata/common".toList,
    CR_XML_RPM_NS := "http://linux.duke.edu/metadata/rpm".toList,
    CR_XML_FILELISTS_NS := "http://linux.duke.edu/metadata/filelists".toList,
    CR_XML_OTHER_NS := "http://linux.duke.edu/metadata/other".toList }

/-- A chunk of 2^32 bytes. -/
def long_chunk : Bytes := List.replicate (2 ^ 32) 'x'

/-- An uncompressed primary document with no record attached, as
`cr_xmlfile_sopen` returns it; `header` is its header flag. -/
def sample_doc (header : Nat) : cr_XmlFile Bytes :=
  { f := { type := CR_CW_NO_COMPRESSION, FILE := .ptr 3, mode := CR_CW_MODE_WRITE, stat := none,
           checksum_ctx := none },
    type := CR_XMLFILE_PRIMARY, header := header, footer := 0, pkgs := 0 }

/-- The calls that open `p.xml` for an uncompressed document. -/
def sample_open_log : List Call :=
  [.g_file_test "p.xml".toList G_FILE_TEST_EXISTS, .fopen "p.xml".toList "w".toList]

/-- An xz filelists document with `sample_stat` attached, as
`cr_xmlfile_sopen` returns it. -/
def sample_xz_doc : cr_XmlFile Bytes :=
  { f := { type := CR_CW_XZ_COMPRESSION, FILE := .xz { file := 3, avail_in := [] },
           mode := CR_CW_MODE_WRITE, stat := some sample_stat, checksum_ctx := some [] },
    type := CR_XMLFILE_FILELISTS, header := 0, footer := 0, pkgs := 0 }

/-- Answers of a run on `sample_xz_doc` in which nothing fails: for the header,
for two chunks of ten bytes, for the footer and for the close. -/
def sample_xz_answers : List (List Resp) :=
  [[.int 113, .code 0 113 [], .size 0],
   [.code 0 4 "ab".toList, .size 2, .code 0 6 [], .size 0],
   [.code 0 10 [], .size 0],
   [.code 0 12 "c".toList, .size 1],
   [.code 0 0 "d".toList, .size 1, .code 1 0 "e".toList, .size 1, .int 0]]

/-- Serializers for documents of which no package is added. -/
def no_dump : cr_XmlFileType → Unit → Option Bytes × Option GError := fun _ _ => (none, none)

/-- A buffer of 2^32 - 1 bytes, the largest `unsigned int` length. -/
def longest_buffer : Bytes := List.replicate (2 ^ 32 - 1) 'x'

/-- A final read of 2^31 bytes. -/
def large_read : Bytes := List.replicate (2 ^ 31) 'x'

/-- The header that an uncompressed primary document gets for the declared
count 2^31. -/
def wrapped_header : Bytes :=
  XML_HEADER ++ "<metadata xmlns=\"".toList ++ repodata_ns.CR_XML_COMMON_NS ++
    "\" xmlns:rpm=\"".toList ++ repodata_ns.CR_XML_RPM_NS ++
    "\" packages=\"-2147483648\">\n".toList

/-- A hasher for worked examples that takes two bytes and fails on more. -/
def small_engine : ChecksumEngine Bytes :=
  { cr_checksum_new := fun _ => .ok [],
    cr_checksum_update := fun ctx b =>
      if (ctx ++ b).length ≤ 2 then (ctx ++ b, none) else (ctx, some ⟨CRE_ERROR⟩),
    cr_checksum_final := fun ctx => ctx.reverse }

/-- The answers of a writing run on an xz stream: "ab" and "c" are written,
the encoder takes them in and puts out "x", and "yz" when the stream is closed. -/
def sample_xz_write_answers : List (List Resp) :=
  [[.code 0 2 "x".toList, .size 1], [.code 0 1 [], .size 0]]

/-- The answers of a reading run on that xz stream with buffers of 2 bytes:
`fread` brings "xyz", the decoder puts out "ab", then "c" with
`LZMA_STREAM_END`, and the next refill finds the end of the file. -/
def sample_xz_read_answers : List (List Resp) :=
  [[.data "xyz".toList false, .code 0 2 "ab".toList], [.code 1 1 "c".toList],
   [.data [] false]]

/-! ## Theorems -/

theorem has_suffix_iff (str suffix : Bytes) :
    g_str_has_suffix str suffix = true ↔ suffix <:+ str := by
  simp [g_str_has_suffix]

/-- Two suffixes of one list: one of them ends in the other. -/
theorem suffix_excl {a b l : Bytes} (ha : a <:+ l) (hb : b <:+ l)
    (h1 : ¬ a <:+ b) (h2 : ¬ b <:+ a) : False := by
  rcases List.suffix_or_suffix_of_suffix ha hb with h | h
  · exact h1 h
  · exact h2 h

theorem suffix_other {a l : Bytes} (b : Bytes) (ha : a <:+ l)
    (h1 : ¬ a <:+ b) (h2 : ¬ b <:+ a) : g_str_has_suffix l b = false := by
  rw [Bool.eq_false_iff]
  intro hb
  exact suffix_excl ha ((has_suffix_iff _ _).1 hb) h1 h2

theorem first_of_four {α β : Type} (p : α → Bool) (a b c d : α) (f : α → β) (z : β) :
    (([a, b, c, d].find? p).map f).getD z =
    if p a then f a else if p b then f b else if p c then f c else if p d then f d else z := by
  simp only [List.find?_cons, List.find?_nil]
  cases p a <;> cases p b <;> cases p c <;> cases p d <;> rfl

/-- The `if` chain of the code picks the first matching group of the table. -/
theorem mime_to_type_eq (m : Bytes) : mime_to_type m = first_mime_group m := by
  have h1 : mime_is_gz m = matches_group m (mime_groups.get ⟨0, by decide⟩) := by
    simp only [mime_is_gz, matches_group, mime_groups, g_str_has_prefix, List.get, List.any_cons,
      List.any_nil, Bool.or_false]
    ac_rfl
  have h2 : mime_is_bz2 m = matches_group m (mime_groups.get ⟨1, by decide⟩) := by
    simp only [mime_is_bz2, matches_group, mime_groups, g_str_has_prefix, List.get, List.any_cons,
      List.any_nil, Bool.or_false]
    ac_rfl
  have h3 : mime_is_xz m = matches_group m (mime_groups.get ⟨2, by decide⟩) := by
    simp only [mime_is_xz, matches_group, mime_groups, g_str_has_prefix, List.get, List.any_cons,
      List.any_nil, Bool.or_false]
  have h4 : mime_is_plain m = matches_group m (mime_groups.get ⟨3, by decide⟩) := by
    simp only [mime_is_plain, matches_group, mime_groups, g_str_has_prefix, List.get, List.any_cons,
      List.any_nil, Bool.or_false]
    ac_rfl
  unfold mime_to_type
  rw [h1, h2, h3, h4]
  unfold first_mime_group
  exact (first_of_four (matches_group m) (mime_groups.get ⟨0, by decide⟩)
    (mime_groups.get ⟨1, by decide⟩) (mime_groups.get ⟨2, by decide⟩)
    (mime_groups.get ⟨3, by decide⟩) (fun g => g.2) CR_CW_UNKNOWN_COMPRESSION).symm

/-- C6: for an existing regular file whose name ends in `.gz`, `.gzip` or
`.gunzip` the detection returns gzip, for `.bz2` or `.bzip2` bzip2, for `.xz`
xz and for `.xml` no compression; no error is set, and the only outside call is
the file test, so the content sniffer is never consulted. -/
theorem cr_detect_compression_suffix (filename : Bytes) (k : cr_CompressionType)
    (log : List Call) (rest : List Resp) (h : suffix_implies filename k) :
    cr_detect_compression filename ⟨log, .bool true :: rest⟩ =
      .done (k, none) ⟨log ++ [.g_file_test filename G_FILE_TEST_IS_REGULAR], rest⟩ := by
  simp only [cr_detect_compression, World.call]
  rcases h with ⟨rfl, h | h | h⟩ | ⟨rfl, h | h⟩ | ⟨rfl, h⟩ | ⟨rfl, h⟩
  · simp only [(has_suffix_iff _ _).2 h]; rfl
  · simp only [(has_suffix_iff _ _).2 h, Bool.or_true, Bool.true_or]; rfl
  · simp only [(has_suffix_iff _ _).2 h, Bool.or_true, Bool.true_or]; rfl
  · simp only [(has_suffix_iff _ _).2 h, suffix_other ".gz".toList h (by decide) (by decide),
      suffix_other ".gzip".toList h (by decide) (by decide),
      suffix_other ".gunzip".toList h (by decide) (by decide)]; rfl
  · simp only [(has_suffix_iff _ _).2 h, suffix_other ".gz".toList h (by decide) (by decide),
      suffix_other ".gzip".toList h (by decide) (by decide),
      suffix_other ".gunzip".toList h (by decide) (by decide), Bool.or_true]; rfl
  · simp only [(has_suffix_iff _ _).2 h, suffix_other ".gz".toList h (by decide) (by decide),
      suffix_other ".gzip".toList h (by decide) (by decide),
      suffix_other ".gunzip".toList h (by decide) (by decide),
      suffix_other ".bz2".toList h (by decide) (by decide),
      suffix_other ".bzip2".toList h (by decide) (by decide)]; rfl
  · simp only [(has_suffix_iff _ _).2 h, suffix_other ".gz".toList h (by decide) (by decide),
      suffix_other ".gzip".toList h (by decide) (by decide),
      suffix_other ".gunzip".toList h (by decide) (by decide),
      suffix_other ".bz2".toList h (by decide) (by decide),
      suffix_other ".bzip2".toList h (by decide) (by decide),
      suffix_other ".xz".toList h (by decide) (by decide)]; rfl

/-- Witness of C6: a regular file named `repo.bz2`. -/
theorem cr_detect_compression_suffix_witness :
    suffix_implies "repo.bz2".toList CR_CW_BZ2_COMPRESSION ∧
    cr_detect_compression "repo.bz2".toList ⟨[], [.bool true]⟩ =
      .done (CR_CW_BZ2_COMPRESSION, none)
        ⟨[.g_file_test "repo.bz2".toList G_FILE_TEST_IS_REGULAR], []⟩ :=
  have h : suffix_implies "repo.bz2".toList CR_CW_BZ2_COMPRESSION :=
    Or.inr (Or.inl ⟨rfl, Or.inl (by decide)⟩)
  ⟨h, cr_detect_compression_suffix "repo.bz2".toList CR_CW_BZ2_COMPRESSION [] [] h⟩

/-- C7: for a path that is not an existing regular file the detection sets
the error `CRE_NOFILE` and returns the unknown kind, whatever the name's suffix
is; nothing but the file test is called. -/
theorem cr_detect_compression_not_regular (filename : Bytes) (log : List Call)
    (rest : List Resp) :
    cr_detect_compression filename ⟨log, .bool false :: rest⟩ =
      .done (CR_CW_UNKNOWN_COMPRESSION, some ⟨CRE_NOFILE⟩)
        ⟨log ++ [.g_file_test filename G_FILE_TEST_IS_REGULAR], rest⟩ := by
  simp [cr_detect_compression, World.call]

theorem no_suffix_tests {filename : Bytes} (hs : ∀ s ∈ recognised_suffixes, ¬ s <:+ filename) :
    g_str_has_suffix filename ".gz".toList = false ∧
    g_str_has_suffix filename ".gzip".toList = false ∧
    g_str_has_suffix filename ".gunzip".toList = false ∧
    g_str_has_suffix filename ".bz2".toList = false ∧
    g_str_has_suffix filename ".bzip2".toList = false ∧
    g_str_has_suffix filename ".xz".toList = false ∧
    g_str_has_suffix filename ".xml".toList = false := by
  simp only [Bool.eq_false_iff, ne_eq, has_suffix_iff]
  refine ⟨hs _ ?_, hs _ ?_, hs _ ?_, hs _ ?_, hs _ ?_, hs _ ?_, hs _ ?_⟩ <;>
    simp [recognised_suffixes]

theorem detect_to_magic {filename : Bytes} (hs : ∀ s ∈ recognised_suffixes, ¬ s <:+ filename)
    (log : List Call) (rest : List Resp) :
    cr_detect_compression filename ⟨log, .bool true :: rest⟩ =
      cr_detect_compression_magic filename
        ⟨log ++ [.g_file_test filename G_FILE_TEST_IS_REGULAR], rest⟩ := by
  obtain ⟨h1, h2, h3, h4, h5, h6, h7⟩ := no_suffix_tests hs
  simp only [cr_detect_compression, World.call, h1, h2, h3, h4, h5, h6, h7]
  rfl

/-- C8: for an existing regular file whose name has none of the recognised
suffixes, the detection returns the kind of the first mime-prefix group that
the sniffed mime type matches, with no error set, and the unknown kind (still
with no error) when no group matches; the error `CRE_MAGIC` is set, and the
unknown kind returned, exactly in the other cases: `magic_open` returns `NULL`,
`magic_load` or `magic_check` returns `-1`, or `magic_file` yields no mime type. -/
theorem cr_detect_compression_sniff (filename : Bytes) (log : List Call) (rest : List Resp)
    (hs : ∀ s ∈ recognised_suffixes, ¬ s <:+ filename) :
    (∀ (myt : Nat) (rl rc : Int) (m : Bytes), myt ≠ 0 → rl ≠ -1 → rc ≠ -1 →
      cr_detect_compression filename
          ⟨log, .bool true :: .ptr myt :: .int rl :: .int rc :: .str (some m) :: rest⟩ =
        .done (first_mime_group m, none)
          ⟨log ++ [.g_file_test filename G_FILE_TEST_IS_REGULAR] ++
            [.magic_open, .magic_load, .magic_check, .magic_file filename, .magic_close], rest⟩ ∧
      ((∀ g ∈ mime_groups, matches_group m g = false) →
        first_mime_group m = CR_CW_UNKNOWN_COMPRESSION)) ∧
    cr_detect_compression filename ⟨log, .bool true :: .ptr 0 :: rest⟩ =
      .done (CR_CW_UNKNOWN_COMPRESSION, some ⟨CRE_MAGIC⟩)
        ⟨log ++ [.g_file_test filename G_FILE_TEST_IS_REGULAR] ++ [.magic_open], rest⟩ ∧
    (∀ (myt : Nat), myt ≠ 0 →
      cr_detect_compression filename ⟨log, .bool true :: .ptr myt :: .int (-1) :: rest⟩ =
        .done (CR_CW_UNKNOWN_COMPRESSION, some ⟨CRE_MAGIC⟩)
          ⟨log ++ [.g_file_test filename G_FILE_TEST_IS_REGULAR] ++
            [.magic_open, .magic_load], rest⟩) ∧
    (∀ (myt : Nat) (rl : Int), myt ≠ 0 → rl ≠ -1 →
      cr_detect_compression filename
          ⟨log, .bool true :: .ptr myt :: .int rl :: .int (-1) :: rest⟩ =
        .done (CR_CW_UNKNOWN_COMPRESSION, some ⟨CRE_MAGIC⟩)
          ⟨log ++ [.g_file_test filename G_FILE_TEST_IS_REGULAR] ++
            [.magic_open, .magic_load, .magic_check], rest⟩) ∧
    (∀ (myt : Nat) (rl rc : Int), myt ≠ 0 → rl ≠ -1 → rc ≠ -1 →
      cr_detect_compression filename
          ⟨log, .bool true :: .ptr myt :: .int rl :: .int rc :: .str none :: rest⟩ =
        .done (CR_CW_UNKNOWN_COMPRESSION, some ⟨CRE_MAGIC⟩)
          ⟨log ++ [.g_file_test filename G_FILE_TEST_IS_REGULAR] ++
            [.magic_open, .magic_load, .magic_check, .magic_file filename, .magic_close],
           rest⟩) := by
  have hx : g_str_has_suffix filename ".xml".toList = false := (no_suffix_tests hs).2.2.2.2.2.2
  refine ⟨?_, ?_, ?_, ?_, ?_⟩
  · intro myt rl rc m h0 h1 h2
    constructor
    · rw [detect_to_magic hs]
      simp only [cr_detect_compression_magic, World.call, World.note, h0, h1, h2, hx,
        mime_to_type_eq, if_false, List.append_assoc, List.cons_append, List.nil_append,
        Bool.false_eq_true, and_false]
    · intro hg
      have hn : mime_groups.find? (matches_group m) = none :=
        List.find?_eq_none.2 (fun g hgm => by rw [hg g hgm]; decide)
      rw [first_mime_group, hn]
      rfl
  · rw [detect_to_magic hs]
    simp [cr_detect_compression_magic, World.call]
  · intro myt h0
    rw [detect_to_magic hs]
    simp [cr_detect_compression_magic, World.call, h0]
  · intro myt rl h0 h1
    rw [detect_to_magic hs]
    simp [cr_detect_compression_magic, World.call, h0, h1]
  · intro myt rl rc h0 h1 h2
    rw [detect_to_magic hs]
    simp [cr_detect_compression_magic, World.call, World.note, h0, h1, h2]

/-- Witness of C8: a regular file named `data` whose content is sniffed as xz. -/
theorem cr_detect_compression_sniff_witness :
    (∀ s ∈ recognised_suffixes, ¬ s <:+ "data".toList) ∧
    cr_detect_compression "data".toList
        ⟨[], [.bool true, .ptr 1, .int 0, .int 0, .str (some "application/x-xz".toList)]⟩ =
      .done (first_mime_group "application/x-xz".toList, none)
        ⟨[] ++ [.g_file_test "data".toList G_FILE_TEST_IS_REGULAR] ++
          [.magic_open, .magic_load, .magic_check, .magic_file "data".toList, .magic_close], []⟩ ∧
    first_mime_group "application/x-xz".toList = CR_CW_XZ_COMPRESSION :=
  ⟨by decide,
   ((cr_detect_compression_sniff "data".toList [] [] (by decide)).1 1 0 0
      "application/x-xz".toList (by decide) (by decide) (by decide)).1,
   by decide⟩

/-- C9: when the path names an existing filesystem entry, `cr_xmlfile_sopen`
returns no document and sets `CRE_EXISTS`, for every document kind and every
compression kind; the only outside call is the existence test, so `cr_sopen` is
not called and the existing file is neither opened nor truncated. -/
theorem cr_xmlfile_sopen_exists {κ : Type} (E : ChecksumEngine κ) (filename : Bytes)
    (type : cr_XmlFileType) (comtype : cr_CompressionType) (stat : Option cr_ContentStat)
    (log : List Call) (rest : List Resp) :
    cr_xmlfile_sopen E filename type comtype stat ⟨log, .bool true :: rest⟩ =
      .done (none, some ⟨CRE_EXISTS⟩, stat)
        ⟨log ++ [.g_file_test filename G_FILE_TEST_EXISTS], rest⟩ := by
  simp [cr_xmlfile_sopen, World.call]

/-- C10: `cr_sopen` in write mode with the kind auto-detect or unknown stops
at its assertion: no stream is returned and the world is as before, so no file
was opened, no codec was set up and no detection was run. -/
theorem cr_sopen_write_rejects {κ : Type} (E : ChecksumEngine κ) (filename : Bytes)
    (stat : Option cr_ContentStat) (w : World) :
    cr_sopen E filename CR_CW_MODE_WRITE CR_CW_AUTO_DETECT_COMPRESSION stat w = .abort w ∧
    cr_sopen E filename CR_CW_MODE_WRITE CR_CW_UNKNOWN_COMPRESSION stat w = .abort w := by
  simp [cr_sopen]

/-- The per-kind write leaves mode, kind, record and checksum context alone. -/
theorem cr_write_kind_frame {κ : Type} {f f' : CR_FILE κ} {b : Bytes} {w w' : World}
    {ret : Int} {err : Option GError}
    (h : cr_write_kind f b w = .done (ret, err, f') w') :
    f'.mode = f.mode ∧ f'.type = f.type ∧ f'.stat = f.stat ∧ f'.checksum_ctx = f.checksum_ctx := by
  unfold cr_write_kind at h
  dsimp only at h
  repeat' split at h
  all_goals (try simp_all)
  all_goals
    obtain ⟨-, -, rfl⟩ := h.1
    simp

theorem cr_write_stat_frame {κ : Type} (E : ChecksumEngine κ) (f : CR_FILE κ) (b : Bytes) :
    (cr_write_stat E f b).1.mode = f.mode ∧ (cr_write_stat E f b).1.type = f.type ∧
    (cr_write_stat E f b).1.FILE = f.FILE := by
  obtain ⟨t, F, m, st, ctx⟩ := f
  cases st <;> cases ctx <;> simp [cr_write_stat]

/-- A write that passes the mode check leaves the record and the checksum
context as lines 895-905 set them, whatever happens afterwards. -/
theorem cr_write_frame {κ : Type} {E : ChecksumEngine κ} {f f' : CR_FILE κ} {b : Bytes}
    {w w' : World} {ret : Int} {err : Option GError}
    (hm : f.mode = CR_CW_MODE_WRITE)
    (h : cr_write E f b w = .done (ret, err, f') w') :
    f'.mode = f.mode ∧ f'.type = f.type ∧
    f'.stat = (cr_write_stat E f b).1.stat ∧
    f'.checksum_ctx = (cr_write_stat E f b).1.checksum_ctx := by
  unfold cr_write at h
  simp only [hm, ne_eq, not_true_eq_false, if_false] at h
  obtain ⟨h1, h2, -⟩ := cr_write_stat_frame E f b
  split at h
  · simp only [Res.done.injEq, Prod.mk.injEq] at h
    obtain ⟨⟨-, -, rfl⟩, -⟩ := h
    simp_all
  · split at h
    · split at h
      · rename_i hk _
        simp only [Res.done.injEq, Prod.mk.injEq] at h
        obtain ⟨⟨-, -, rfl⟩, -⟩ := h
        have := cr_write_kind_frame hk
        simp_all
      · simp at h
    · simp at h
    · simp at h

/-- A write on a stream that is not in write mode fails with `CRE_BADARG`. -/
theorem cr_write_mode {κ : Type} {E : ChecksumEngine κ} {f f' : CR_FILE κ} {b : Bytes}
    {w w' : World} {ret : Int}
    (h : cr_write E f b w = .done (ret, none, f') w') : f.mode = CR_CW_MODE_WRITE := by
  by_contra hm
  simp [cr_write, hm] at h

set_option maxHeartbeats 1600000 in
/-- What holds of a stream that `cr_sopen` returned. -/
theorem cr_sopen_some {κ : Type} {E : ChecksumEngine κ} {filename : Bytes} {mode : cr_OpenMode}
    {comtype : cr_CompressionType} {stat st' : Option cr_ContentStat} {w w' : World}
    {f : CR_FILE κ} {err : Option GError}
    (h : cr_sopen E filename mode comtype stat w = .done (some f, err, st') w') :
    err = none ∧ f.mode = mode ∧ f.stat = stat ∧ st' = stat ∧
    (match stat with
     | none => f.checksum_ctx = none
     | some st =>
       if st.checksum_type = CR_CHECKSUM_UNKNOWN then f.checksum_ctx = none
       else ∃ ctx, E.cr_checksum_new st.checksum_type = .ok ctx ∧ f.checksum_ctx = some ctx) := by
  unfold cr_sopen at h
  split at h
  · simp at h
  split at h
  · simp at h
  unfold cr_sopen_body at h
  dsimp only at h
  repeat' split at h
  all_goals (try simp_all)
  all_goals
    obtain ⟨⟨rfl, h1, rfl⟩, -⟩ := h
    simp_all

/-- Successive writes on a stream in write mode: the mode stays, the record
counts every buffer and the checksum context takes every buffer in. -/
theorem cr_write_all_frame {κ : Type} {E : ChecksumEngine κ} (bufs : List Bytes) :
    ∀ {f f' : CR_FILE κ} {w w' : World} {rs : List (Int × Option GError)},
    f.mode = CR_CW_MODE_WRITE →
    cr_write_all E f bufs w = .done (rs, f') w' →
    f'.mode = CR_CW_MODE_WRITE ∧
    (∀ st, f.stat = some st → ∃ n, f'.stat = some { st with size := n } ∧
      (st.size < 2 ^ 64 → n = (st.size + (bufs.map List.length).sum) % 2 ^ 64)) ∧
    (∀ st ctx, f.stat = some st → f.checksum_ctx = some ctx → f'.checksum_ctx =
      some (bufs.foldl (fun c b => (E.cr_checksum_update c b).1) ctx)) := by
  induction bufs with
  | nil =>
    intro f f' w w' rs hm h
    simp only [cr_write_all, Res.done.injEq, Prod.mk.injEq] at h
    obtain ⟨⟨-, rfl⟩, -⟩ := h
    refine ⟨hm, ?_, ?_⟩
    · intro st hst
      refine ⟨st.size, hst, fun hlt => ?_⟩
      simp only [List.map_nil, List.sum_nil, Nat.add_zero, Nat.mod_eq_of_lt hlt]
    · intro st ctx _ hc
      simpa using hc
  | cons b bs ih =>
    intro f f' w w' rs hm h
    simp only [cr_write_all] at h
    split at h
    · rename_i ret err f1 w1 h1
      split at h
      · rename_i rs2 f2 w2 h2
        simp only [Res.done.injEq, Prod.mk.injEq] at h
        obtain ⟨⟨-, rfl⟩, -⟩ := h
        obtain ⟨hm1, -, hs1, hc1⟩ := cr_write_frame hm h1
        obtain ⟨hm2, hs2, hc2⟩ := ih (hm1.trans hm) h2
        refine ⟨hm2, ?_, ?_⟩
        · intro st hst
          have : f1.stat = some { st with size := (st.size + b.length) % 2 ^ 64 } := by
            rw [hs1]; simp [cr_write_stat, hst]; split <;> rfl
          obtain ⟨n, hn, hn2⟩ := hs2 _ this
          refine ⟨n, hn, fun _ => ?_⟩
          rw [hn2 (Nat.mod_lt _ (by norm_num))]
          simp [Nat.add_assoc]
        · intro st ctx hst hc
          have : f1.checksum_ctx = some (E.cr_checksum_update ctx b).1 := by
            rw [hc1]; simp [cr_write_stat, hst, hc]
          have hst1 : f1.stat = some { st with size := (st.size + b.length) % 2 ^ 64 } := by
            rw [hs1]; simp [cr_write_stat, hst]; split <;> rfl
          rw [hc2 _ _ hst1 this]
          rfl
      · simp at h
      · simp at h
    · simp at h
    · simp at h


theorem cr_close_stat {κ : Type} {E : ChecksumEngine κ} {f : CR_FILE κ} {w w' : World}
    {ret : cr_Error} {err : Option GError} {st : Option cr_ContentStat}
    (h : cr_close E (some f) w = .done (ret, err, st) w') : st = close_stat E f := by
  unfold cr_close at h
  dsimp only at h
  repeat' split at h
  all_goals simp_all


/-- C4: a stream opened for writing with a freshly created record (`size`
is 0), of any kind: after any sequence of `cr_write` calls that return, with
buffers of lengths l1..lm (zero lengths included, and whether or not a call
reports an error), the record's `size` is l1 + ... + lm, as long as the sum
fits the 64-bit counter. -/
theorem cr_write_total_size {κ : Type} (E : ChecksumEngine κ) (filename : Bytes)
    (comtype : cr_CompressionType) (type : cr_ChecksumType) (w0 w1 w2 : World)
    (f f' : CR_FILE κ) (err : Option GError) (st0 : Option cr_ContentStat)
    (bufs : List Bytes) (rs : List (Int × Option GError))
    (hopen : cr_sopen E filename CR_CW_MODE_WRITE comtype (some (cr_contentstat_new type)) w0 =
      .done (some f, err, st0) w1)
    (hwrite : cr_write_all E f bufs w1 = .done (rs, f') w2)
    (hsum : (bufs.map List.length).sum < 2 ^ 64) :
    ∃ st, f'.stat = some st ∧ st.size = (bufs.map List.length).sum := by
  obtain ⟨-, hm, hs, -, -⟩ := cr_sopen_some hopen
  obtain ⟨-, h1, -⟩ := cr_write_all_frame bufs hm hwrite
  obtain ⟨n, hn, hn2⟩ := h1 _ hs
  refine ⟨_, hn, ?_⟩
  rw [hn2 (by simp [cr_contentstat_new])]
  simp only [cr_contentstat_new, Nat.zero_add]
  exact Nat.mod_eq_of_lt hsum

/-- Witness of C4: three writes of 2, 0 and 1 bytes on an uncompressed stream. -/
theorem cr_write_total_size_witness :
    cr_sopen sample_engine "f".toList CR_CW_MODE_WRITE CR_CW_NO_COMPRESSION
        (some (cr_contentstat_new 1)) ⟨[], [.ptr 3, .size 2, .size 0, .size 1]⟩ =
      .done (some ⟨CR_CW_NO_COMPRESSION, .ptr 3, CR_CW_MODE_WRITE, some (cr_contentstat_new 1),
        some []⟩, none, some (cr_contentstat_new 1))
        ⟨[.fopen "f".toList "w".toList], [.size 2, .size 0, .size 1]⟩ ∧
    (∃ st, (⟨CR_CW_NO_COMPRESSION, .ptr 3, CR_CW_MODE_WRITE, some ⟨3, 1, none⟩,
        some "abc".toList⟩ : CR_FILE Bytes).stat = some st ∧
      st.size = (["ab".toList, [], "c".toList].map List.length).sum) :=
  have h1 : cr_sopen sample_engine "f".toList CR_CW_MODE_WRITE CR_CW_NO_COMPRESSION
        (some (cr_contentstat_new 1)) ⟨[], [.ptr 3, .size 2, .size 0, .size 1]⟩ =
      .done (some ⟨CR_CW_NO_COMPRESSION, .ptr 3, CR_CW_MODE_WRITE, some (cr_contentstat_new 1),
        some []⟩, none, some (cr_contentstat_new 1))
        ⟨[.fopen "f".toList "w".toList], [.size 2, .size 0, .size 1]⟩ := by decide
  have h2 : cr_write_all sample_engine
        ⟨CR_CW_NO_COMPRESSION, .ptr 3, CR_CW_MODE_WRITE, some (cr_contentstat_new 1), some []⟩
        ["ab".toList, [], "c".toList]
        ⟨[.fopen "f".toList "w".toList], [.size 2, .size 0, .size 1]⟩ =
      .done ([(2, none), (0, none), (1, none)],
        ⟨CR_CW_NO_COMPRESSION, .ptr 3, CR_CW_MODE_WRITE, some ⟨3, 1, none⟩, some "abc".toList⟩)
        ⟨[.fopen "f".toList "w".toList, .cr_write_entry "ab".toList, .fwrite 3 "ab".toList,
          .cr_write_entry [], .fwrite 3 [], .cr_write_entry "c".toList, .fwrite 3 "c".toList],
         []⟩ := by decide
  ⟨h1, cr_write_total_size sample_engine _ _ _ _ _ _ _ _ _ _ _ _ h1 h2 (by decide)⟩


theorem sample_engine_incremental : sample_engine.incremental := by
  intro ctx bs
  show (bs.foldl (fun c b => c ++ b) ctx).reverse = (ctx ++ bs.flatten).reverse
  congr 1
  induction bs generalizing ctx with
  | nil => simp
  | cons b bs ih => simp [ih, List.append_assoc]

/-- C5: a stream opened for writing with a record whose checksum kind is
not `CR_CHECKSUM_UNKNOWN`, with an incremental hasher: after writes of b1..bm
and `cr_close`, the record's `checksum` is set, and it is the digest of a new
context updated once with b1 ++ ... ++ bm. -/
theorem cr_close_checksum {κ : Type} (E : ChecksumEngine κ) (filename : Bytes)
    (comtype : cr_CompressionType) (stat : cr_ContentStat) (w0 w1 w2 w3 : World)
    (f f' : CR_FILE κ) (err cerr : Option GError) (st0 st3 : Option cr_ContentStat)
    (bufs : List Bytes) (rs : List (Int × Option GError)) (ret : cr_Error)
    (htype : stat.checksum_type ≠ CR_CHECKSUM_UNKNOWN)
    (hinc : E.incremental)
    (hopen : cr_sopen E filename CR_CW_MODE_WRITE comtype (some stat) w0 =
      .done (some f, err, st0) w1)
    (hwrite : cr_write_all E f bufs w1 = .done (rs, f') w2)
    (hclose : cr_close E (some f') w2 = .done (ret, cerr, st3) w3) :
    ∃ ctx st, E.cr_checksum_new stat.checksum_type = .ok ctx ∧ st3 = some st ∧
      st.checksum = some (E.cr_checksum_final (E.cr_checksum_update ctx bufs.flatten).1) := by
  obtain ⟨-, hm, hs, -, hc⟩ := cr_sopen_some hopen
  simp only [htype, if_false] at hc
  obtain ⟨ctx, hnew, hctx⟩ := hc
  obtain ⟨-, h1, h2⟩ := cr_write_all_frame bufs hm hwrite
  obtain ⟨n, hn, -⟩ := h1 _ hs
  have hst := cr_close_stat hclose
  simp only [close_stat, hn, h2 _ _ hs hctx] at hst
  exact ⟨ctx, _, hnew, hst, by simp only [hinc ctx bufs]⟩

/-- Witness of C5: `ab`, the empty buffer and `c` written to a gzip stream. -/
theorem cr_close_checksum_witness :
    sample_stat.checksum_type ≠ CR_CHECKSUM_UNKNOWN ∧ sample_engine.incremental ∧
    cr_close sample_engine (some (sample_gz_file 3 "abc".toList))
        ⟨[.gzopen "f.gz".toList "wb".toList, .gzsetparams 4, .gzbuffer 4 GZ_BUFFER_SIZE,
          .cr_write_entry "ab".toList, .gzwrite 4 "ab".toList, .cr_write_entry [],
          .cr_write_entry "c".toList, .gzwrite 4 "c".toList], [.int 0]⟩ =
      .done (CRE_OK, none, some { sample_stat with size := 3, checksum := some "cba".toList })
        ⟨[.gzopen "f.gz".toList "wb".toList, .gzsetparams 4, .gzbuffer 4 GZ_BUFFER_SIZE,
          .cr_write_entry "ab".toList, .gzwrite 4 "ab".toList, .cr_write_entry [],
          .cr_write_entry "c".toList, .gzwrite 4 "c".toList, .gzclose 4], []⟩ ∧
    ∃ ctx st, sample_engine.cr_checksum_new sample_stat.checksum_type = .ok ctx ∧
      some { sample_stat with size := 3, checksum := some "cba".toList } = some st ∧
      st.checksum = some (sample_engine.cr_checksum_final
        (sample_engine.cr_checksum_update ctx ["ab".toList, [], "c".toList].flatten).1) :=
  have h1 : cr_sopen sample_engine "f.gz".toList CR_CW_MODE_WRITE CR_CW_GZ_COMPRESSION
        (some sample_stat) ⟨[], [.ptr 4, .int 0, .int 2, .int 1, .int 0]⟩ =
      .done (some (sample_gz_file 0 []), none, some sample_stat)
        ⟨[.gzopen "f.gz".toList "wb".toList, .gzsetparams 4, .gzbuffer 4 GZ_BUFFER_SIZE],
         [.int 2, .int 1, .int 0]⟩ := by decide
  have h2 : cr_write_all sample_engine (sample_gz_file 0 []) ["ab".toList, [], "c".toList]
        ⟨[.gzopen "f.gz".toList "wb".toList, .gzsetparams 4, .gzbuffer 4 GZ_BUFFER_SIZE],
         [.int 2, .int 1, .int 0]⟩ =
      .done ([(2, none), (0, none), (1, none)], sample_gz_file 3 "abc".toList)
        ⟨[.gzopen "f.gz".toList "wb".toList, .gzsetparams 4, .gzbuffer 4 GZ_BUFFER_SIZE,
          .cr_write_entry "ab".toList, .gzwrite 4 "ab".toList, .cr_write_entry [],
          .cr_write_entry "c".toList, .gzwrite 4 "c".toList], [.int 0]⟩ := by decide
  have h3 : cr_close sample_engine (some (sample_gz_file 3 "abc".toList))
        ⟨[.gzopen "f.gz".toList "wb".toList, .gzsetparams 4, .gzbuffer 4 GZ_BUFFER_SIZE,
          .cr_write_entry "ab".toList, .gzwrite 4 "ab".toList, .cr_write_entry [],
          .cr_write_entry "c".toList, .gzwrite 4 "c".toList], [.int 0]⟩ =
      .done (CRE_OK, none, some { sample_stat with size := 3, checksum := some "cba".toList })
        ⟨[.gzopen "f.gz".toList "wb".toList, .gzsetparams 4, .gzbuffer 4 GZ_BUFFER_SIZE,
          .cr_write_entry "ab".toList, .gzwrite 4 "ab".toList, .cr_write_entry [],
          .cr_write_entry "c".toList, .gzwrite 4 "c".toList, .gzclose 4], []⟩ := by decide
  ⟨by decide, sample_engine_incremental, h3,
   cr_close_checksum sample_engine _ _ _ _ _ _ _ _ _ _ _ _ _ _ _ _ (by decide)
     sample_engine_incremental h1 h2 h3⟩

theorem written_bytes_append (l1 l2 : List Call) :
    written_bytes (l1 ++ l2) = written_bytes l1 ++ written_bytes l2 := by
  simp [written_bytes, List.filterMap_append]

theorem xz_write_loop_ok (file : Nat) (ret : Int) (rest : List Resp) :
    ∀ (b : Bytes) (script : List Resp) (log : List Call),
    xz_write_answers_ok b script = true →
    ∃ log', xz_write_loop file b ret log (script ++ rest) = .done (ret, none, []) ⟨log', rest⟩ ∧
      written_bytes log' = written_bytes log := by
  intro b script
  induction b, script using xz_write_answers_ok.induct with
  | case1 script =>
    intro log h
    simp only [xz_write_answers_ok, List.isEmpty_iff] at h
    subst h
    exact ⟨log, by simp [xz_write_loop], rfl⟩
  | case2 c cs lret consumed out n rest' ih =>
    intro log h
    simp only [xz_write_answers_ok, Bool.and_eq_true, decide_eq_true_eq] at h
    obtain ⟨⟨⟨⟨h1, h2⟩, h3⟩, h4⟩, h5⟩ := h
    obtain ⟨log', hl, hw⟩ := ih (log ++ [.lzma_code LZMA_RUN (c :: cs) XZ_BUFFER_SIZE] ++
      [.fwrite file out]) h5
    refine ⟨log', ?_, ?_⟩
    · subst h1 h4
      simp only [List.cons_append, xz_write_loop, h2, h3, and_self, if_true, ne_eq,
        not_true_eq_false, if_false, le_refl]
      exact hl
    · rw [hw]
      simp [written_bytes_append, written_bytes]
  | case3 t c cs hne =>
    intro log h
    exfalso
    unfold xz_write_answers_ok at h
    split at h
    · rename_i heq; cases heq
    · exact hne _ _ _ _ _ rfl
    · exact Bool.false_ne_true h

theorem toInt32_small {n : Nat} (h : n < 2 ^ 31) : toInt32 n = (n : Int) := by
  have h1 : n % 2 ^ 32 = n := Nat.mod_eq_of_lt (by omega)
  simp only [toInt32, h1, h, if_true]

theorem cr_write_kind_ok {κ : Type} (f : CR_FILE κ) (hf : f.write_ready) (b : Bytes)
    (hb : b.length < 2 ^ 31) (seg rest : List Resp) (log : List Call)
    (hs : write_answers_ok f.type b seg = true) :
    ∃ f' log', cr_write_kind f b ⟨log, seg ++ rest⟩ = .done ((b.length : Int), none, f') ⟨log', rest⟩ ∧
      f'.write_ready ∧ f'.type = f.type ∧ f'.stat = f.stat ∧
      f'.checksum_ctx = f.checksum_ctx ∧ written_bytes log' = written_bytes log := by
  obtain ⟨type, FILE, mode, stat, ctx⟩ := f
  obtain ⟨hm, hk⟩ := hf
  simp only at hm hk hs
  subst hm
  have hi : toInt32 b.length = (b.length : Int) := toInt32_small hb
  rcases FILE with p | x <;> cases type <;> simp only [handle_fits] at hk
  · -- no compression
    simp only [write_answers_ok, decide_eq_true_eq] at hs
    subst hs
    refine ⟨⟨CR_CW_NO_COMPRESSION, .ptr p, CR_CW_MODE_WRITE, stat, ctx⟩, log ++ [.fwrite p b],
      ?_, ⟨rfl, trivial⟩, rfl, rfl, rfl, ?_⟩
    · simp only [cr_write_kind, World.call, List.singleton_append, le_refl, if_true, ne_eq,
        not_true_eq_false, if_false, hi]
    · simp [written_bytes_append, written_bytes]
  · -- gzip
    simp only [write_answers_ok] at hs
    by_cases h0 : b.length = 0
    · simp only [h0, if_true, decide_eq_true_eq] at hs
      subst hs
      refine ⟨⟨CR_CW_GZ_COMPRESSION, .ptr p, CR_CW_MODE_WRITE, stat, ctx⟩, log,
        ?_, ⟨rfl, trivial⟩, rfl, rfl, rfl, rfl⟩
      simp [cr_write_kind, h0]
    · simp only [h0, if_false, decide_eq_true_eq] at hs
      subst hs
      refine ⟨⟨CR_CW_GZ_COMPRESSION, .ptr p, CR_CW_MODE_WRITE, stat, ctx⟩,
        log ++ [.gzwrite p b], ?_, ⟨rfl, trivial⟩, rfl, rfl, rfl, ?_⟩
      · have h1 : (b.length : Int) < 2 ^ 31 := by exact_mod_cast hb
        have h2 : ¬ ((b.length : Int) = 0) := by exact_mod_cast h0
        have h3 : b.length < 2147483648 := by simpa using hb
        simp [cr_write_kind, World.call, h0, h1, h2, h3]
      · simp [written_bytes_append, written_bytes]
  · -- bzip2
    simp only [write_answers_ok, decide_eq_true_eq] at hs
    subst hs
    refine ⟨⟨CR_CW_BZ2_COMPRESSION, .ptr p, CR_CW_MODE_WRITE, stat, ctx⟩,
      log ++ [.BZ2_bzWrite p b], ?_, ⟨rfl, trivial⟩, rfl, rfl, rfl, ?_⟩
    · simp [cr_write_kind, World.call, hi]
    · simp [written_bytes_append, written_bytes]
  · -- xz
    simp only [write_answers_ok] at hs
    obtain ⟨log', hl, hw⟩ := xz_write_loop_ok x.file (toInt32 b.length) rest b seg log hs
    refine ⟨⟨CR_CW_XZ_COMPRESSION, .xz { x with avail_in := [] }, CR_CW_MODE_WRITE, stat, ctx⟩,
      log', ?_, ⟨rfl, rfl⟩, rfl, rfl, rfl, hw⟩
    rw [hi] at hl
    simp only [cr_write_kind, hi, hl]

theorem cr_write_stat_ok {κ : Type} {E : ChecksumEngine κ} (hE : E.update_ok) (f : CR_FILE κ)
    (b : Bytes) : (cr_write_stat E f b).2 = none := by
  obtain ⟨t, F, m, st, ctx⟩ := f
  cases st <;> cases ctx <;> simp [cr_write_stat, hE _ _]

theorem ret_err_agree_ok (n : Nat) : ret_err_agree (n : Int) none := by
  right
  refine ⟨?_, rfl⟩
  simp only [CR_CW_ERR]
  omega

theorem cr_write_ok {κ : Type} {E : ChecksumEngine κ} (hE : E.update_ok) (f : CR_FILE κ)
    (hf : f.write_ready) (b : Bytes) (hb : b.length < 2 ^ 31) (seg rest : List Resp)
    (log : List Call) (hs : write_answers_ok f.type b seg = true) :
    ∃ f' log', cr_write E f b ⟨log, seg ++ rest⟩ =
        .done ((b.length : Int), none, f') ⟨log', rest⟩ ∧
      f'.write_ready ∧ f'.type = f.type ∧ written_bytes log' = written_bytes log ++ b := by
  obtain ⟨h1, h2, h3⟩ := cr_write_stat_frame E f b
  have hr : (cr_write_stat E f b).1.write_ready := by
    unfold CR_FILE.write_ready at hf ⊢
    rw [h1, h2, h3]
    exact hf
  obtain ⟨f', log', hk, hr', ht, -, -, hw⟩ := cr_write_kind_ok (cr_write_stat E f b).1 hr b hb seg
    rest (log ++ [.cr_write_entry b]) (by rw [h2]; exact hs)
  refine ⟨f', log', ?_, hr', ht.trans h2, ?_⟩
  · have hpair : cr_write_stat E f b = ((cr_write_stat E f b).1, none) := by
      rw [← cr_write_stat_ok hE f b]
    unfold cr_write
    rw [if_neg (by simp [hf.1])]
    simp only [World.note]
    rw [hpair]
    simp only [hk, ret_err_agree_ok, if_true]
  · rw [hw]
    simp [written_bytes_append, written_bytes]

theorem cr_puts_ok {κ : Type} {E : ChecksumEngine κ} (hE : E.update_ok) (f : CR_FILE κ)
    (hf : f.write_ready) (str : Bytes) (hb : str.length < 2 ^ 31) (seg rest : List Resp)
    (log : List Call) (hs : write_answers_ok f.type str seg = true) :
    ∃ f' log', cr_puts E f (some str) ⟨log, seg ++ rest⟩ =
        .done ((str.length : Int), none, f') ⟨log', rest⟩ ∧
      f'.write_ready ∧ f'.type = f.type ∧ written_bytes log' = written_bytes log ++ str := by
  have hu : toUInt32 str.length = str.length := Nat.mod_eq_of_lt (by omega)
  obtain ⟨f', log', hk, hr', ht, hw⟩ := cr_write_ok hE f hf str hb seg rest log hs
  refine ⟨f', log', ?_, hr', ht, hw⟩
  have hty : f.type ≠ CR_CW_AUTO_DETECT_COMPRESSION ∧ f.type ≠ CR_CW_UNKNOWN_COMPRESSION := by
    obtain ⟨-, hk⟩ := hf
    constructor <;> intro h <;> rw [h] at hk <;> exact hk
  unfold cr_puts
  simp only [hf.1, ne_eq, not_true_eq_false, if_false, hu, List.take_length]
  split
  · exact absurd ‹_› hty.1
  · exact absurd ‹_› hty.2
  · simp only [hk, toInt32_small hb, if_false, not_true_eq_false, ret_err_agree_ok, if_true]

theorem vasprintf_d_plain (a b : Bytes) (x : Int) (h : '%' ∉ a) :
    vasprintf_d (a ++ b) x = a ++ vasprintf_d b x := by
  induction a with
  | nil => rfl
  | cons c a ih =>
    have hc : c ≠ '%' := fun e => h (by simp [e])
    have ha : '%' ∉ a := fun e => h (by simp [e])
    rw [List.cons_append, vasprintf_d.eq_2, ih ha, List.cons_append]
    intro rest hr _
    exact hc hr

theorem vasprintf_d_conv (rest : Bytes) (x : Int) :
    vasprintf_d ('%' :: 'd' :: rest) x = (toString (long_as_int x)).toList ++ vasprintf_d rest x := by
  rw [vasprintf_d]

theorem long_as_int_small (n : Nat) (h : n < 2 ^ 31) : long_as_int (n : Int) = (n : Int) := by
  have h1 : ((n : Int) % 2 ^ 32).toNat = n := by
    have : (n : Int) % 2 ^ 32 = (n : Int) := Int.emod_eq_of_lt (by omega) (by omega)
    rw [this]; simp
  rw [long_as_int, h1, toInt32_small h]

theorem vasprintf_d_header (ns : XmlNamespaces) (hns : ns.plain) (type : cr_XmlFileType)
    (n : Nat) (h : n < 2 ^ 31) :
    vasprintf_d (xml_header ns type) (n : Int) = header_bytes ns type n := by
  obtain ⟨h1, h2, h3, h4⟩ := hns
  have hn : (toString (n : Int)).toList = (toString n).toList := rfl
  have tail : vasprintf_d "\" packages=\"%d\">\n".toList (n : Int) =
      "\" packages=\"".toList ++ (toString n).toList ++ "\">\n".toList := by
    have e : "\" packages=\"%d\">\n".toList = "\" packages=\"".toList ++ ('%' :: 'd' :: "\">\n".toList) := by
      decide
    rw [e, vasprintf_d_plain _ _ _ (by decide), vasprintf_d_conv, long_as_int_small n h, hn]
    have e2 : vasprintf_d "\">\n".toList (n : Int) = "\">\n".toList := rfl
    rw [e2, List.append_assoc]
  cases type
  · simp only [xml_header, XML_PRIMARY_HEADER, header_bytes, List.append_assoc]
    rw [vasprintf_d_plain _ _ _ (by decide), vasprintf_d_plain _ _ _ (by decide),
      vasprintf_d_plain _ _ _ h1, vasprintf_d_plain _ _ _ (by decide),
      vasprintf_d_plain _ _ _ h2, tail]
    simp only [List.append_assoc]
    rfl
  · simp only [xml_header, XML_FILELISTS_HEADER, header_bytes, List.append_assoc]
    rw [vasprintf_d_plain _ _ _ (by decide), vasprintf_d_plain _ _ _ (by decide),
      vasprintf_d_plain _ _ _ h3, tail]
    simp only [List.append_assoc]
    rfl
  · simp only [xml_header, XML_OTHER_HEADER, header_bytes, List.append_assoc]
    rw [vasprintf_d_plain _ _ _ (by decide), vasprintf_d_plain _ _ _ (by decide),
      vasprintf_d_plain _ _ _ h4, tail]
    simp only [List.append_assoc]
    rfl

theorem cr_printf_ok {κ : Type} {E : ChecksumEngine κ} (hE : E.update_ok) (f : CR_FILE κ)
    (hf : f.write_ready) (format : Bytes) (arg : Int) (seg rest : List Resp) (log : List Call)
    (hb : (vasprintf_d format arg).length < 2 ^ 31)
    (hs : write_answers_ok f.type (vasprintf_d format arg) seg = true) :
    ∃ f' log', cr_printf E f (some format) arg
          ⟨log, .int (vasprintf_d format arg).length :: (seg ++ rest)⟩ =
        .done (((vasprintf_d format arg).length : Int), none, f') ⟨log', rest⟩ ∧
      f'.write_ready ∧ f'.type = f.type ∧
      written_bytes log' = written_bytes log ++ vasprintf_d format arg := by
  obtain ⟨f', log', hk, hr', ht, hw⟩ := cr_write_ok hE f hf (vasprintf_d format arg) hb seg rest
    (log ++ [.g_vasprintf]) hs
  refine ⟨f', log', ?_, hr', ht, ?_⟩
  · have hty : f.type ≠ CR_CW_AUTO_DETECT_COMPRESSION ∧ f.type ≠ CR_CW_UNKNOWN_COMPRESSION := by
      obtain ⟨-, hk⟩ := hf
      constructor <;> intro h <;> rw [h] at hk <;> exact hk
    have h1 : ¬ (((vasprintf_d format arg).length : Int) < 0) := by omega
    have h2 : ((vasprintf_d format arg).length : Int) < 2 ^ 31 := by exact_mod_cast hb
    unfold cr_printf
    simp only [hf.1, ne_eq, not_true_eq_false, if_false, World.call, h1, h2, and_self, if_true,
      Int.toNat_ofNat, List.take_length]
    split
    · exact absurd ‹_› hty.1
    · exact absurd ‹_› hty.2
    · simp only [hk, if_false, not_true_eq_false, ret_err_agree_ok, if_true]
  · rw [hw]
    simp [written_bytes_append, written_bytes]

set_option maxHeartbeats 1600000 in
theorem cr_sopen_kind_handle {filename : Bytes} {mode : cr_OpenMode} {type : cr_CompressionType}
    {w w' : World} {h : Handle} {err : Option GError}
    (hk : cr_sopen_kind filename mode type w = .done (some h, err) w') :
    handle_fits type h := by
  unfold cr_sopen_kind at hk
  dsimp only at hk
  repeat' split at hk
  all_goals (try simp_all)
  all_goals
    obtain ⟨⟨rfl, -⟩, -⟩ := hk
    simp [handle_fits]

set_option maxHeartbeats 1600000 in
theorem cr_sopen_write_ready {κ : Type} {E : ChecksumEngine κ} {filename : Bytes}
    {comtype : cr_CompressionType} {stat st' : Option cr_ContentStat} {w w' : World}
    {f : CR_FILE κ} {err : Option GError}
    (h : cr_sopen E filename CR_CW_MODE_WRITE comtype stat w = .done (some f, err, st') w') :
    f.write_ready ∧ f.type = comtype := by
  have hm := (cr_sopen_some h).2.1
  unfold cr_sopen at h
  split at h
  · simp at h
  split at h
  · simp at h
  rename_i h1 h2
  simp only [true_and] at h1 h2
  unfold cr_sopen_body at h
  simp only [h1, if_false, h2] at h
  split at h
  · simp at h
  · rename_i hd hk
    have hh := cr_sopen_kind_handle hk
    repeat' split at h
    all_goals (try simp at h)
    all_goals
      obtain ⟨⟨rfl, -⟩, -⟩ := h
      exact ⟨⟨rfl, hh⟩, rfl⟩
  · simp at h
  · simp at h

theorem xz_finish_loop_ok (rest : List Resp) :
    ∀ (avail_in : Bytes) (script : List Resp) (file : Nat) (log : List Call),
    xz_finish_answers_ok avail_in script = true →
    ∃ log', xz_finish_loop ⟨file, avail_in⟩ log (script ++ rest) = .done (CRE_OK, none) ⟨log', rest⟩ ∧
      written_bytes log' = written_bytes log := by
  intro a script
  induction a, script using xz_finish_answers_ok.induct with
  | case1 a rc consumed out n rest' ih =>
    intro file log h
    simp only [xz_finish_answers_ok, Bool.and_eq_true, decide_eq_true_eq] at h
    obtain ⟨⟨⟨h1, h2⟩, h3⟩, h4⟩ := h
    subst h3
    by_cases hend : rc = LZMA_STREAM_END
    · simp only [hend, if_true, List.isEmpty_iff] at h4
      subst h4 hend
      refine ⟨log ++ [.lzma_code LZMA_FINISH a XZ_BUFFER_SIZE] ++ [.fwrite file out], ?_, ?_⟩
      · simp only [List.cons_append, List.nil_append, xz_finish_loop, h1, h2, and_self, if_true,
          le_refl, ne_eq, not_true_eq_false, and_false, if_false]
        rfl
      · simp [written_bytes_append, written_bytes]
    · simp only [hend, if_false, Bool.and_eq_true, decide_eq_true_eq] at h4
      obtain ⟨hok, h5⟩ := h4
      subst hok
      obtain ⟨log', hl, hw⟩ := ih file (log ++ [.lzma_code LZMA_FINISH a XZ_BUFFER_SIZE] ++
        [.fwrite file out]) h5
      refine ⟨log', ?_, ?_⟩
      · simp only [List.cons_append, xz_finish_loop, h1, h2, and_self, if_true, le_refl, ne_eq,
          not_true_eq_false, false_and, if_false, hend]
        exact hl
      · rw [hw]
        simp [written_bytes_append, written_bytes]
  | case2 a script hne =>
    intro file log h
    exfalso
    unfold xz_finish_answers_ok at h
    split at h
    · exact hne _ _ _ _ _ rfl
    · exact Bool.false_ne_true h

theorem getLast_split {α : Type} (l : List α) (x : α) (h : l.getLast? = some x) :
    l = l.dropLast ++ [x] := by
  have hne : l ≠ [] := by
    intro e; rw [e] at h; simp at h
  have := List.dropLast_append_getLast hne
  rw [List.getLast?_eq_getLast _ hne] at h
  injection h with h
  rw [h] at this
  exact this.symm

theorem cr_close_ok {κ : Type} (E : ChecksumEngine κ) (f : CR_FILE κ) (hf : f.write_ready)
    (seg rest : List Resp) (log : List Call) (hs : close_answers_ok f.type seg = true) :
    ∃ log', cr_close E (some f) ⟨log, seg ++ rest⟩ =
        .done (CRE_OK, none, close_stat E f) ⟨log', rest⟩ ∧
      written_bytes log' = written_bytes log := by
  obtain ⟨type, FILE, mode, stat, ctx⟩ := f
  obtain ⟨hm, hk⟩ := hf
  simp only at hm hk hs
  subst hm
  rcases FILE with p | x <;> cases type <;> simp only [handle_fits] at hk
  · simp only [close_answers_ok, decide_eq_true_eq] at hs
    subst hs
    exact ⟨log ++ [.fclose p], by simp [cr_close, cr_close_kind, World.call],
      by simp [written_bytes_append, written_bytes]⟩
  · simp only [close_answers_ok, decide_eq_true_eq] at hs
    subst hs
    exact ⟨log ++ [.gzclose p], by simp [cr_close, cr_close_kind, World.call],
      by simp [written_bytes_append, written_bytes]⟩
  · simp only [close_answers_ok, decide_eq_true_eq] at hs
    subst hs
    exact ⟨log ++ [.BZ2_bzWriteClose p], by simp [cr_close, cr_close_kind, World.call],
      by simp [written_bytes_append, written_bytes]⟩
  · simp only [close_answers_ok] at hs
    split at hs
    · rename_i r hlast
      obtain ⟨file, avail⟩ := x
      simp only at hk
      subst hk
      obtain ⟨log', hl, hw⟩ := xz_finish_loop_ok (.int r :: rest) [] seg.dropLast file log hs
      have hseg : seg ++ rest = seg.dropLast ++ (.int r :: rest) := by
        conv_lhs => rw [getLast_split seg _ hlast]
        simp
      refine ⟨log' ++ [.fclose file] ++ [.lzma_end], ?_, ?_⟩
      · simp only [cr_close, cr_close_kind, if_true, hseg, hl, World.call, World.note]
        simp
      · rw [written_bytes_append, written_bytes_append, hw]
        simp [written_bytes]
    · exact absurd hs (by simp)

theorem written_bytes_snoc_other (log : List Call) (c : Call)
    (h : ∀ d, c ≠ .cr_write_entry d) : written_bytes (log ++ [c]) = written_bytes log := by
  rw [written_bytes_append]
  cases c <;> simp [written_bytes] at h ⊢

theorem call_eq_some (w w' : World) (c : Call) (r : Resp) :
    w.call c = some (r, w') ↔ (w.script = r :: w'.script ∧ w'.log = w.log ++ [c]) := by
  obtain ⟨log, script⟩ := w
  obtain ⟨log', script'⟩ := w'
  cases script with
  | nil => simp [World.call]
  | cons a rest =>
    simp only [World.call, Option.some.injEq, Prod.mk.injEq, World.mk.injEq, List.cons.injEq]
    constructor
    · rintro ⟨rfl, rfl, rfl⟩; exact ⟨⟨rfl, rfl⟩, rfl⟩
    · rintro ⟨⟨rfl, rfl⟩, rfl⟩; exact ⟨rfl, rfl, rfl⟩

set_option maxHeartbeats 3200000 in
theorem cr_sopen_kind_written {filename : Bytes} {type : cr_CompressionType}
    {w w' : World} {r : Option Handle × Option GError}
    (hk : cr_sopen_kind filename CR_CW_MODE_WRITE type w = .done r w') :
    written_bytes w'.log = written_bytes w.log := by
  unfold cr_sopen_kind at hk
  simp only [if_true] at hk
  repeat' split at hk
  all_goals (try simp only [Res.done.injEq, reduceCtorEq] at hk)
  all_goals
    obtain ⟨-, rfl⟩ := hk
    simp_all [call_eq_some, World.note, written_bytes_append, written_bytes]

set_option maxHeartbeats 1600000 in
theorem cr_sopen_written {κ : Type} {E : ChecksumEngine κ} {filename : Bytes}
    {comtype : cr_CompressionType} {stat st' : Option cr_ContentStat} {w w' : World}
    {f : CR_FILE κ} {err : Option GError}
    (h : cr_sopen E filename CR_CW_MODE_WRITE comtype stat w = .done (some f, err, st') w') :
    written_bytes w'.log = written_bytes w.log := by
  unfold cr_sopen at h
  split at h
  · simp at h
  split at h
  · simp at h
  rename_i h1 h2
  simp only [true_and] at h1 h2
  unfold cr_sopen_body at h
  simp only [h1, if_false, h2] at h
  split at h
  · simp at h
  · rename_i hd hk
    have hh := cr_sopen_kind_written hk
    repeat' split at h
    all_goals (try simp at h)
    all_goals
      obtain ⟨-, rfl⟩ := h
      exact hh
  · simp at h
  · simp at h

theorem cr_xmlfile_sopen_some {κ : Type} {E : ChecksumEngine κ} {filename : Bytes}
    {type : cr_XmlFileType} {comtype : cr_CompressionType} {stat st' : Option cr_ContentStat}
    {w w' : World} {d : cr_XmlFile κ} {err : Option GError}
    (h : cr_xmlfile_sopen E filename type comtype stat w = .done (some d, err, st') w') :
    d.f.write_ready ∧ d.f.type = comtype ∧ d.type = type ∧ d.header = 0 ∧ d.footer = 0 ∧
      d.pkgs = 0 ∧ written_bytes w'.log = written_bytes w.log := by
  unfold cr_xmlfile_sopen at h
  split at h
  · rename_i ex w1 hc
    split at h
    · simp at h
    · split at h
      · simp at h
      · rename_i f st1 w2 ho
        simp only [Res.done.injEq, Prod.mk.injEq, Option.some.injEq] at h
        obtain ⟨⟨rfl, -, -⟩, rfl⟩ := h
        obtain ⟨hr, ht⟩ := cr_sopen_write_ready ho
        have hw := cr_sopen_written ho
        rw [call_eq_some] at hc
        refine ⟨hr, ht, rfl, rfl, rfl, rfl, ?_⟩
        rw [hw, hc.2, written_bytes_snoc_other _ _ (by intro d hd; cases hd)]
      · simp at h
      · simp at h
      · simp at h
  · simp at h

theorem xml_header_ok {κ : Type} {E : ChecksumEngine κ} (hE : E.update_ok) {ns : XmlNamespaces}
    (hns : ns.plain) (d : cr_XmlFile κ) (k : cr_CompressionType) (n : Nat)
    (hr : d.f.write_ready) (hk : d.f.type = k) (hh : d.header = 0) (hp : d.pkgs = (n : Int))
    (hn : n < 2 ^ 31) (hseg rest : List Resp) (log : List Call)
    (hs : header_answers_ok k (header_bytes ns d.type n) hseg = true) :
    ∃ d' log', cr_xmlfile_write_xml_header E ns d ⟨log, hseg ++ rest⟩ =
        .done (CRE_OK, none, d') ⟨log', rest⟩ ∧
      d'.f.write_ready ∧ d'.f.type = k ∧ d'.type = d.type ∧ d'.header = 1 ∧
      d'.footer = d.footer ∧
      written_bytes log' = written_bytes log ++ header_bytes ns d.type n := by
  unfold header_answers_ok at hs
  split at hs
  · rename_i r seg
    simp only [Bool.and_eq_true, decide_eq_true_eq] at hs
    obtain ⟨⟨h1, h2⟩, h3⟩ := hs
    subst h1
    have hv := vasprintf_d_header ns hns d.type n hn
    obtain ⟨f', log', hpf, hr', ht, hw⟩ := cr_printf_ok hE d.f hr (xml_header ns d.type) d.pkgs
      seg rest log (by rw [hp, hv]; exact h2) (by rw [hp, hv, hk]; exact h3)
    rw [hp, hv] at hpf hw
    refine ⟨{ d with f := f', header := 1 }, log', ?_, hr', ht.trans hk, rfl, rfl, rfl, hw⟩
    unfold cr_xmlfile_write_xml_header
    rw [if_neg (by simp [hh]), hp, List.cons_append, hpf]
    have hne : ¬ (((header_bytes ns d.type n).length : Int) = CR_CW_ERR) := by
      simp only [CR_CW_ERR]; omega
    simp only [hne, if_false]
  · exact absurd hs (by simp)

theorem xml_footer_ok {κ : Type} {E : ChecksumEngine κ} (hE : E.update_ok)
    (d : cr_XmlFile κ) (k : cr_CompressionType)
    (hr : d.f.write_ready) (hk : d.f.type = k) (hf : d.footer = 0)
    (fseg rest : List Resp) (log : List Call)
    (hs : write_answers_ok k (footer_bytes d.type) fseg = true) :
    ∃ d' log', cr_xmlfile_write_xml_footer E d ⟨log, fseg ++ rest⟩ =
        .done (CRE_OK, none, d') ⟨log', rest⟩ ∧
      d'.f.write_ready ∧ d'.f.type = k ∧ d'.type = d.type ∧ d'.header = d.header ∧
      d'.footer = 1 ∧
      written_bytes log' = written_bytes log ++ footer_bytes d.type := by
  have hfe : xml_footer d.type = footer_bytes d.type := by cases d.type <;> rfl
  have hlen : (footer_bytes d.type).length < 2 ^ 31 := by cases d.type <;> decide
  obtain ⟨f', log', hp, hr', ht, hw⟩ := cr_puts_ok hE d.f hr (footer_bytes d.type) hlen fseg rest
    log (by rw [hk]; exact hs)
  refine ⟨{ d with f := f', footer := 1 }, log', ?_, hr', ht.trans hk, rfl, rfl, rfl, hw⟩
  unfold cr_xmlfile_write_xml_footer
  rw [if_neg (by simp [hf]), hfe, hp]

theorem xml_add_chunk_ok {κ : Type} {E : ChecksumEngine κ} (hE : E.update_ok)
    (ns : XmlNamespaces) (d : cr_XmlFile κ) (k : cr_CompressionType)
    (hr : d.f.write_ready) (hk : d.f.type = k) (hh : d.header = 1) (hf : d.footer = 0)
    (chunk : Bytes) (hc : chunk.length < 2 ^ 31) (seg rest : List Resp) (log : List Call)
    (hs : write_answers_ok k chunk seg = true) :
    ∃ d' log', cr_xmlfile_add_chunk E ns d (some chunk) ⟨log, seg ++ rest⟩ =
        .done (CRE_OK, none, d') ⟨log', rest⟩ ∧
      d'.f.write_ready ∧ d'.f.type = k ∧ d'.type = d.type ∧ d'.header = 1 ∧
      d'.footer = 0 ∧ written_bytes log' = written_bytes log ++ chunk := by
  obtain ⟨f', log', hp, hr', ht, hw⟩ := cr_puts_ok hE d.f hr chunk hc seg rest log
    (by rw [hk]; exact hs)
  refine ⟨{ d with f := f' }, log', ?_, hr', ht.trans hk, rfl, hh, hf, hw⟩
  unfold cr_xmlfile_add_chunk
  rw [if_neg (by simp [hf])]
  simp only [hh, one_ne_zero, if_false, hp]

theorem xml_add_chunk_first {κ : Type} {E : ChecksumEngine κ} (hE : E.update_ok)
    {ns : XmlNamespaces} (hns : ns.plain) (d : cr_XmlFile κ) (k : cr_CompressionType) (n : Nat)
    (hr : d.f.write_ready) (hk : d.f.type = k) (hh : d.header = 0) (hf : d.footer = 0)
    (hp : d.pkgs = (n : Int)) (hn : n < 2 ^ 31)
    (chunk : Bytes) (hc : chunk.length < 2 ^ 31) (hseg seg rest : List Resp) (log : List Call)
    (hhs : header_answers_ok k (header_bytes ns d.type n) hseg = true)
    (hs : write_answers_ok k chunk seg = true) :
    ∃ d' log', cr_xmlfile_add_chunk E ns d (some chunk) ⟨log, hseg ++ (seg ++ rest)⟩ =
        .done (CRE_OK, none, d') ⟨log', rest⟩ ∧
      d'.f.write_ready ∧ d'.f.type = k ∧ d'.type = d.type ∧ d'.header = 1 ∧
      d'.footer = 0 ∧
      written_bytes log' = written_bytes log ++ header_bytes ns d.type n ++ chunk := by
  obtain ⟨d1, log1, h1, hr1, hk1, ht1, hh1, hf1, hw1⟩ :=
    xml_header_ok hE hns d k n hr hk hh hp hn hseg (seg ++ rest) log hhs
  obtain ⟨f', log', hpu, hr', ht, hw⟩ := cr_puts_ok hE d1.f hr1 chunk hc seg rest log1
    (by rw [hk1]; exact hs)
  refine ⟨{ d1 with f := f' }, log', ?_, hr', ht.trans hk1, ht1, hh1, hf1.trans hf, ?_⟩
  · unfold cr_xmlfile_add_chunk
    rw [if_neg (by simp [hf])]
    simp only [hh, if_true, h1, hpu]
  · rw [hw, hw1]

theorem xml_add_chunks_ok {κ : Type} {E : ChecksumEngine κ} (hE : E.update_ok)
    (ns : XmlNamespaces) (k : cr_CompressionType) (rest : List Resp) :
    ∀ (chunks : List Bytes) (segs : List (List Resp)) (d : cr_XmlFile κ) (log : List Call),
    d.f.write_ready → d.f.type = k → d.header = 1 → d.footer = 0 →
    (∀ c ∈ chunks, c.length < 2 ^ 31) →
    List.Forall₂ (fun c seg => write_answers_ok k c seg = true) chunks segs →
    ∃ rs d' log', cr_xmlfile_add_chunks E ns d chunks ⟨log, segs.flatten ++ rest⟩ =
        .done (rs, d') ⟨log', rest⟩ ∧ (∀ r ∈ rs, r = (CRE_OK, none)) ∧
      d'.f.write_ready ∧ d'.f.type = k ∧ d'.type = d.type ∧ d'.header = 1 ∧
      d'.footer = 0 ∧ written_bytes log' = written_bytes log ++ chunks.flatten := by
  intro chunks
  induction chunks with
  | nil =>
    intro segs d log hr hk hh hf _ hall
    cases hall
    exact ⟨[], d, log, by simp [cr_xmlfile_add_chunks], by simp, hr, hk, rfl, hh, hf, by simp⟩
  | cons c cs ih =>
    intro segs d log hr hk hh hf hlen hall
    cases hall with
    | cons hc hcs =>
      rename_i seg segs'
      obtain ⟨d1, log1, h1, hr1, hk1, ht1, hh1, hf1, hw1⟩ := xml_add_chunk_ok hE ns d k hr hk hh hf
        c (hlen c (by simp)) seg (segs'.flatten ++ rest) log hc
      obtain ⟨rs, d2, log2, h2, hrs, hr2, hk2, ht2, hh2, hf2, hw2⟩ := ih segs' d1 log1 hr1 hk1 hh1
        hf1 (fun x hx => hlen x (by simp [hx])) hcs
      refine ⟨(CRE_OK, none) :: rs, d2, log2, ?_, ?_, hr2, hk2, ht2.trans ht1, hh2, hf2, ?_⟩
      · simp only [cr_xmlfile_add_chunks, List.flatten_cons, List.append_assoc, h1, h2]
      · intro r hr
        rcases List.mem_cons.1 hr with h | h
        · exact h
        · exact hrs r h
      · rw [hw2, hw1]
        simp

theorem xml_close_ok {κ : Type} {E : ChecksumEngine κ} (hE : E.update_ok)
    (ns : XmlNamespaces) (d : cr_XmlFile κ) (k : cr_CompressionType)
    (hr : d.f.write_ready) (hk : d.f.type = k) (hh : d.header = 1) (hf : d.footer = 0)
    (fseg cseg rest : List Resp) (log : List Call)
    (hfs : write_answers_ok k (footer_bytes d.type) fseg = true)
    (hcl : close_answers_ok k cseg = true) :
    ∃ st log', cr_xmlfile_close E ns (some d) ⟨log, fseg ++ (cseg ++ rest)⟩ =
        .done (CRE_OK, none, none, st) ⟨log', rest⟩ ∧
      written_bytes log' = written_bytes log ++ footer_bytes d.type := by
  obtain ⟨d1, log1, h1, hr1, hk1, -, -, -, hw1⟩ :=
    xml_footer_ok hE d k hr hk hf fseg (cseg ++ rest) log hfs
  obtain ⟨log2, h2, hw2⟩ := cr_close_ok E d1.f hr1 cseg rest log1 (by rw [hk1]; exact hcl)
  refine ⟨close_stat E d1.f, log2, ?_, by rw [hw2, hw1]⟩
  unfold cr_xmlfile_close
  simp only [hh, one_ne_zero, if_false, hf, if_true, h1, h2]

/-- A document whose chunks fit an `int`: where every underlying call succeeds
(the writes, the checksum updates and the close of the stream) and every chunk is shorter than
2^31 bytes, the sequence create, set the count `n < 2^31`, append the chunks, close
runs to the end without an error and hands the write path of the stream exactly
header ++ chunks ++ footer; with no chunk that is header ++ footer. -/
theorem cr_xmlfile_document_bytes {κ : Type} (E : ChecksumEngine κ) (ns : XmlNamespaces)
    (filename : Bytes) (type : cr_XmlFileType) (comtype : cr_CompressionType)
    (stat : Option cr_ContentStat) (n : Nat) (chunks : List Bytes) (w0 : World)
    (d : cr_XmlFile κ) (err : Option GError) (st0 : Option cr_ContentStat) (log1 : List Call)
    (hseg fseg cseg rest : List Resp) (segs : List (List Resp))
    (hE : E.update_ok) (hns : ns.plain) (hn : n < 2 ^ 31)
    (hlen : ∀ c ∈ chunks, c.length < 2 ^ 31)
    (hcreate : cr_xmlfile_sopen E filename type comtype stat w0 =
      .done (some d, err, st0) ⟨log1, hseg ++ (segs.flatten ++ (fseg ++ (cseg ++ rest)))⟩)
    (hhs : header_answers_ok comtype (header_bytes ns type n) hseg = true)
    (hcs : List.Forall₂ (fun c seg => write_answers_ok comtype c seg = true) chunks segs)
    (hfs : write_answers_ok comtype (footer_bytes type) fseg = true)
    (hcl : close_answers_ok comtype cseg = true) :
    ∃ d1 rs d2 w2 st w3,
      cr_xmlfile_set_num_of_pkgs d (n : Int)
          ⟨log1, hseg ++ (segs.flatten ++ (fseg ++ (cseg ++ rest)))⟩ =
        .done (CRE_OK, none, d1) ⟨log1, hseg ++ (segs.flatten ++ (fseg ++ (cseg ++ rest)))⟩ ∧
      cr_xmlfile_add_chunks E ns d1 chunks
          ⟨log1, hseg ++ (segs.flatten ++ (fseg ++ (cseg ++ rest)))⟩ = .done (rs, d2) w2 ∧
      (∀ r ∈ rs, r = (CRE_OK, none)) ∧
      cr_xmlfile_close E ns (some d2) w2 = .done (CRE_OK, none, none, st) w3 ∧
      w3.script = rest ∧
      written_bytes w3.log =
        written_bytes w0.log ++ header_bytes ns type n ++ chunks.flatten ++ footer_bytes type := by
  obtain ⟨hr, hk, ht, hh, hf, -, hw0⟩ := cr_xmlfile_sopen_some hcreate
  clear hcreate
  obtain ⟨f, ty, hd, ft, pk⟩ := d
  simp only at hr hk ht hh hf hw0
  subst hh hf ht
  have hset : cr_xmlfile_set_num_of_pkgs ⟨f, ty, 0, 0, pk⟩ (n : Int)
      ⟨log1, hseg ++ (segs.flatten ++ (fseg ++ (cseg ++ rest)))⟩ =
      .done (CRE_OK, none, ⟨f, ty, 0, 0, (n : Int)⟩)
        ⟨log1, hseg ++ (segs.flatten ++ (fseg ++ (cseg ++ rest)))⟩ := by
    simp [cr_xmlfile_set_num_of_pkgs]
  refine ⟨⟨f, ty, 0, 0, (n : Int)⟩, ?_⟩
  cases hcs with
  | nil =>
    obtain ⟨d2, log2, h2, hr2, hk2, ht2, hh2, hf2, hw2⟩ :=
      xml_header_ok hE hns ⟨f, ty, 0, 0, (n : Int)⟩ comtype n hr hk rfl rfl hn hseg
        (fseg ++ (cseg ++ rest)) log1 hhs
    obtain ⟨d3, log3, h3, hr3, hk3, ht3, -, -, hw3⟩ :=
      xml_footer_ok hE d2 comtype hr2 hk2 hf2 fseg (cseg ++ rest) log2
        (by rw [ht2]; exact hfs)
    obtain ⟨log4, h4, hw4⟩ := cr_close_ok E d3.f hr3 cseg rest log3 (by rw [hk3]; exact hcl)
    refine ⟨[], ⟨f, ty, 0, 0, (n : Int)⟩,
      ⟨log1, hseg ++ (([] : List (List Resp)).flatten ++ (fseg ++ (cseg ++ rest)))⟩,
      close_stat E d3.f, ⟨log4, rest⟩, hset, by simp [cr_xmlfile_add_chunks], by simp, ?_, rfl, ?_⟩
    · unfold cr_xmlfile_close
      simp only [List.flatten_nil, List.nil_append] at h2 ⊢
      simp only [if_true, h2, hh2, one_ne_zero, if_false, hf2, h3, h4]
    · simp only [hw4, hw3, hw2, hw0, ht2, List.flatten_nil, List.append_nil]
  | cons hc hcs' =>
    rename_i c seg cs segs'
    obtain ⟨d2, log2, h2, hr2, hk2, ht2, hh2, hf2, hw2⟩ :=
      xml_add_chunk_first hE hns ⟨f, ty, 0, 0, (n : Int)⟩ comtype n hr hk rfl rfl rfl hn c
        (hlen c (by simp)) hseg seg (segs'.flatten ++ (fseg ++ (cseg ++ rest))) log1
        hhs hc
    obtain ⟨rs, d3, log3, h3, hrs, hr3, hk3, ht3, hh3, hf3, hw3⟩ :=
      xml_add_chunks_ok hE ns comtype (fseg ++ (cseg ++ rest)) cs segs' d2 log2 hr2 hk2 hh2 hf2
        (fun x hx => hlen x (by simp [hx])) hcs'
    obtain ⟨st, log4, h4, hw4⟩ := xml_close_ok hE ns d3 comtype hr3 hk3 hh3 hf3 fseg cseg rest
      log3 (by rw [ht3, ht2]; exact hfs) hcl
    refine ⟨(CRE_OK, none) :: rs, d3, ⟨log3, fseg ++ (cseg ++ rest)⟩, st, ⟨log4, rest⟩, hset, ?_,
      ?_, h4, rfl, ?_⟩
    · simp only [cr_xmlfile_add_chunks, List.flatten_cons, List.append_assoc] at h2 h3 ⊢
      simp only [h2, h3]
    · intro r hr
      rcases List.mem_cons.1 hr with h | h
      · exact h
      · exact hrs r h
    · simp only [hw4, hw3, hw2, hw0, ht3, ht2, List.flatten_cons, List.append_assoc]

/-- A string of 2^32 bytes goes through `cr_puts` as the empty string does:
its length is 0 as `unsigned int` and as `int`. -/
theorem cr_puts_wraps {κ : Type} (E : ChecksumEngine κ) (f : CR_FILE κ) (str : Bytes)
    (w : World) (h : str.length = 2 ^ 32) :
    cr_puts E f (some str) w = cr_puts E f (some []) w := by
  have h1 : toUInt32 str.length = 0 := by rw [h]; rfl
  have h2 : toInt32 str.length = 0 := by rw [h]; rfl
  have h3 : toInt32 ([] : Bytes).length = 0 := rfl
  have h4 : toUInt32 ([] : Bytes).length = 0 := rfl
  unfold cr_puts
  simp only [h1, h2, h3, h4, List.take_zero]

theorem cr_xmlfile_add_chunk_wraps {κ : Type} (E : ChecksumEngine κ) (ns : XmlNamespaces)
    (d : cr_XmlFile κ) (chunk : Bytes) (w : World) (h : chunk.length = 2 ^ 32) :
    cr_xmlfile_add_chunk E ns d (some chunk) w = cr_xmlfile_add_chunk E ns d (some []) w := by
  unfold cr_xmlfile_add_chunk
  simp only [cr_puts_wraps E _ chunk _ h]

theorem long_chunk_length : long_chunk.length = 2 ^ 32 := by
  rw [long_chunk, List.length_replicate]

set_option synthInstance.maxSize 1000 in
set_option maxRecDepth 100000 in
/-- C1: create, set the count 0, append one chunk of 2^32 bytes, close, on an
uncompressed primary document.  `cr_puts` hands `strlen(str)`, a `size_t`, to the
`unsigned int` length of `cr_write`, which is 0 here, and its check
`ret != (int) len` compares with the same truncated value.  Every `fwrite`
returns the full count it was asked for and every call reports success, yet the
chunk never reaches the write path: the bytes handed to it are header ++ footer,
not header ++ chunk ++ footer. -/
theorem cr_xmlfile_long_chunk_dropped :
    cr_xmlfile_sopen sample_engine "p.xml".toList CR_XMLFILE_PRIMARY CR_CW_NO_COMPRESSION none
        ⟨[], [.bool false, .ptr 3, .int 156, .size 156, .size 0, .size 11, .int 0]⟩ =
      .done (some (sample_doc 0), none, none)
        ⟨sample_open_log, [.int 156, .size 156, .size 0, .size 11, .int 0]⟩ ∧
    cr_xmlfile_set_num_of_pkgs (sample_doc 0) 0
        ⟨sample_open_log, [.int 156, .size 156, .size 0, .size 11, .int 0]⟩ =
      .done (CRE_OK, none, sample_doc 0)
        ⟨sample_open_log, [.int 156, .size 156, .size 0, .size 11, .int 0]⟩ ∧
    cr_xmlfile_add_chunk sample_engine repodata_ns (sample_doc 0)
        (some long_chunk)
        ⟨sample_open_log, [.int 156, .size 156, .size 0, .size 11, .int 0]⟩ =
      .done (CRE_OK, none, sample_doc 1)
        ⟨sample_open_log ++ [.g_vasprintf,
          .cr_write_entry (header_bytes repodata_ns CR_XMLFILE_PRIMARY 0),
          .fwrite 3 (header_bytes repodata_ns CR_XMLFILE_PRIMARY 0),
          .cr_write_entry [], .fwrite 3 []], [.size 11, .int 0]⟩ ∧
    cr_xmlfile_close sample_engine repodata_ns (some (sample_doc 1))
        ⟨sample_open_log ++ [.g_vasprintf,
          .cr_write_entry (header_bytes repodata_ns CR_XMLFILE_PRIMARY 0),
          .fwrite 3 (header_bytes repodata_ns CR_XMLFILE_PRIMARY 0),
          .cr_write_entry [], .fwrite 3 []], [.size 11, .int 0]⟩ =
      .done (CRE_OK, none, none, none)
        ⟨sample_open_log ++ [.g_vasprintf,
          .cr_write_entry (header_bytes repodata_ns CR_XMLFILE_PRIMARY 0),
          .fwrite 3 (header_bytes repodata_ns CR_XMLFILE_PRIMARY 0),
          .cr_write_entry [], .fwrite 3 [],
          .cr_write_entry (footer_bytes CR_XMLFILE_PRIMARY),
          .fwrite 3 (footer_bytes CR_XMLFILE_PRIMARY), .fclose 3], []⟩ ∧
    written_bytes (sample_open_log ++ [.g_vasprintf,
          .cr_write_entry (header_bytes repodata_ns CR_XMLFILE_PRIMARY 0),
          .fwrite 3 (header_bytes repodata_ns CR_XMLFILE_PRIMARY 0),
          .cr_write_entry [], .fwrite 3 [],
          .cr_write_entry (footer_bytes CR_XMLFILE_PRIMARY),
          .fwrite 3 (footer_bytes CR_XMLFILE_PRIMARY), .fclose 3]) ≠
      header_bytes repodata_ns CR_XMLFILE_PRIMARY 0 ++ long_chunk ++
        footer_bytes CR_XMLFILE_PRIMARY := by
  refine ⟨by decide, by decide, ?_, by decide, ?_⟩
  · rw [cr_xmlfile_add_chunk_wraps _ _ _ _ _ long_chunk_length]
    decide
  · intro h
    have e0 : written_bytes (sample_open_log ++ [.g_vasprintf,
          .cr_write_entry (header_bytes repodata_ns CR_XMLFILE_PRIMARY 0),
          .fwrite 3 (header_bytes repodata_ns CR_XMLFILE_PRIMARY 0),
          .cr_write_entry [], .fwrite 3 [],
          .cr_write_entry (footer_bytes CR_XMLFILE_PRIMARY),
          .fwrite 3 (footer_bytes CR_XMLFILE_PRIMARY), .fclose 3]) =
        header_bytes repodata_ns CR_XMLFILE_PRIMARY 0 ++ footer_bytes CR_XMLFILE_PRIMARY := by
      simp [written_bytes, sample_open_log]
    rw [e0, List.append_assoc] at h
    have hl := congrArg List.length (List.append_cancel_left h)
    have e3 : (footer_bytes CR_XMLFILE_PRIMARY).length = 11 := by decide
    rw [List.length_append, e3, long_chunk_length] at hl
    omega

theorem sample_engine_update_ok : sample_engine.update_ok := fun _ _ => rfl

set_option maxRecDepth 100000 in
/-- Worked example for `cr_xmlfile_document_bytes`: an xz filelists document
with the count 2 and two chunks. -/
theorem cr_xmlfile_document_bytes_witness :
    sample_engine.update_ok ∧ repodata_ns.plain ∧ 2 < 2 ^ 31 ∧
    (∀ c ∈ ["<package/>".toList, "<package/>".toList], c.length < 2 ^ 31) ∧
    ∃ d1 rs d2 w2 st w3,
      cr_xmlfile_set_num_of_pkgs sample_xz_doc ((2 : Nat) : Int)
          ⟨[.g_file_test "f.xz".toList G_FILE_TEST_EXISTS, .lzma_easy_encoder,
            .fopen "f.xz".toList "wb".toList],
           [.int 113, .code 0 113 [], .size 0] ++
            ([[.code 0 4 "ab".toList, .size 2, .code 0 6 [], .size 0],
              [.code 0 10 [], .size 0]].flatten ++
             ([.code 0 12 "c".toList, .size 1] ++
              ([.code 0 0 "d".toList, .size 1, .code 1 0 "e".toList, .size 1, .int 0] ++ [])))⟩ =
        .done (CRE_OK, none, d1)
          ⟨[.g_file_test "f.xz".toList G_FILE_TEST_EXISTS, .lzma_easy_encoder,
            .fopen "f.xz".toList "wb".toList],
           [.int 113, .code 0 113 [], .size 0] ++
            ([[.code 0 4 "ab".toList, .size 2, .code 0 6 [], .size 0],
              [.code 0 10 [], .size 0]].flatten ++
             ([.code 0 12 "c".toList, .size 1] ++
              ([.code 0 0 "d".toList, .size 1, .code 1 0 "e".toList, .size 1, .int 0] ++ [])))⟩ ∧
      cr_xmlfile_add_chunks sample_engine repodata_ns d1
          ["<package/>".toList, "<package/>".toList]
          ⟨[.g_file_test "f.xz".toList G_FILE_TEST_EXISTS, .lzma_easy_encoder,
            .fopen "f.xz".toList "wb".toList],
           [.int 113, .code 0 113 [], .size 0] ++
            ([[.code 0 4 "ab".toList, .size 2, .code 0 6 [], .size 0],
              [.code 0 10 [], .size 0]].flatten ++
             ([.code 0 12 "c".toList, .size 1] ++
              ([.code 0 0 "d".toList, .size 1, .code 1 0 "e".toList, .size 1, .int 0] ++ [])))⟩ =
        .done (rs, d2) w2 ∧
      (∀ r ∈ rs, r = (CRE_OK, none)) ∧
      cr_xmlfile_close sample_engine repodata_ns (some d2) w2 =
        .done (CRE_OK, none, none, st) w3 ∧
      w3.script = [] ∧
      written_bytes w3.log =
        written_bytes ([] : List Call) ++ header_bytes repodata_ns CR_XMLFILE_FILELISTS 2 ++
          ["<package/>".toList, "<package/>".toList].flatten ++
          footer_bytes CR_XMLFILE_FILELISTS :=
  ⟨sample_engine_update_ok, by decide, by decide, by decide,
   cr_xmlfile_document_bytes sample_engine repodata_ns "f.xz".toList CR_XMLFILE_FILELISTS
     CR_CW_XZ_COMPRESSION (some sample_stat) 2 ["<package/>".toList, "<package/>".toList]
     ⟨[], [.bool false, .int 0, .ptr 3] ++ sample_xz_answers.flatten⟩
     sample_xz_doc none (some sample_stat) _ _ _ _ [] _
     sample_engine_update_ok (by decide) (by decide) (by decide) (by decide) (by decide)
     (.cons (by decide) (.cons (by decide) .nil)) (by decide) (by decide)⟩

set_option synthInstance.maxSize 1000 in
set_option maxRecDepth 100000 in
/-- C2 fails on the code: on a new uncompressed primary document,
`cr_xmlfile_write_xml_footer` (its one assertion, `footer == 0`, holds) followed
by `cr_xmlfile_close`, every underlying write succeeding.  The footer is written
first; the close then writes the missing header after it.  The bytes handed to
the write path are footer ++ header: the header does not precede the footer and
the footer is not the last thing written. -/
theorem cr_xmlfile_footer_before_header :
    cr_xmlfile_sopen sample_engine "p.xml".toList CR_XMLFILE_PRIMARY CR_CW_NO_COMPRESSION none
        ⟨[], [.bool false, .ptr 3, .size 11, .int 156, .size 156, .int 0]⟩ =
      .done (some (sample_doc 0), none, none)
        ⟨sample_open_log, [.size 11, .int 156, .size 156, .int 0]⟩ ∧
    cr_xmlfile_ops sample_engine repodata_ns no_dump (sample_doc 0) [.write_xml_footer]
        ⟨sample_open_log, [.size 11, .int 156, .size 156, .int 0]⟩ =
      .done ([(CRE_OK, none)], { sample_doc 0 with footer := 1 })
        ⟨sample_open_log ++ [.cr_write_entry (footer_bytes CR_XMLFILE_PRIMARY),
          .fwrite 3 (footer_bytes CR_XMLFILE_PRIMARY)], [.int 156, .size 156, .int 0]⟩ ∧
    cr_xmlfile_close sample_engine repodata_ns (some { sample_doc 0 with footer := 1 })
        ⟨sample_open_log ++ [.cr_write_entry (footer_bytes CR_XMLFILE_PRIMARY),
          .fwrite 3 (footer_bytes CR_XMLFILE_PRIMARY)], [.int 156, .size 156, .int 0]⟩ =
      .done (CRE_OK, none, none, none)
        ⟨sample_open_log ++ [.cr_write_entry (footer_bytes CR_XMLFILE_PRIMARY),
          .fwrite 3 (footer_bytes CR_XMLFILE_PRIMARY), .g_vasprintf,
          .cr_write_entry (header_bytes repodata_ns CR_XMLFILE_PRIMARY 0),
          .fwrite 3 (header_bytes repodata_ns CR_XMLFILE_PRIMARY 0), .fclose 3], []⟩ ∧
    written_bytes (sample_open_log ++ [.cr_write_entry (footer_bytes CR_XMLFILE_PRIMARY),
          .fwrite 3 (footer_bytes CR_XMLFILE_PRIMARY), .g_vasprintf,
          .cr_write_entry (header_bytes repodata_ns CR_XMLFILE_PRIMARY 0),
          .fwrite 3 (header_bytes repodata_ns CR_XMLFILE_PRIMARY 0), .fclose 3]) =
      footer_bytes CR_XMLFILE_PRIMARY ++ header_bytes repodata_ns CR_XMLFILE_PRIMARY 0 := by
  refine ⟨by decide, by decide, by decide, ?_⟩
  simp [written_bytes, sample_open_log]

/-- A buffer of 2^32 - 1 bytes on an uncompressed stream with no record: `fwrite`
takes all of it, the count is `-1` as `int`, which is `CR_CW_ERR` with no error
set, and the closing assertion of `cr_write` fails. -/
theorem cr_write_sentinel_assert {κ : Type} (E : ChecksumEngine κ) (p : Nat) (buffer : Bytes)
    (log : List Call) (rest : List Resp) (h : buffer.length = 2 ^ 32 - 1) :
    cr_write E ⟨CR_CW_NO_COMPRESSION, .ptr p, CR_CW_MODE_WRITE, none, none⟩ buffer
        ⟨log, .size (2 ^ 32 - 1) :: rest⟩ =
      .abort ⟨log ++ [.cr_write_entry buffer] ++ [.fwrite p buffer], rest⟩ := by
  have h1 : toInt32 (2 ^ 32 - 1) = -1 := by decide
  have h2 : ¬ ret_err_agree (-1) none := by decide
  simp only [cr_write, ne_eq, not_true_eq_false, if_false, World.note, cr_write_stat,
    cr_write_kind, World.call, h, le_refl, if_true, h1, h2]

/-- C11: `cr_read` on a stream that is in write mode, and `cr_write` on a
stream that is in read mode, return `CR_CW_ERR` with the error `CRE_BADARG`;
the world is as before, so no codec or file call was made, and the stream is as
before, so the attached record (its byte counter) and the checksum context are
unchanged. -/
theorem cr_read_write_wrong_mode {κ : Type} (E : ChecksumEngine κ) (cr_file : CR_FILE κ)
    (len : Nat) (buffer : Bytes) (w : World) :
    cr_read { cr_file with mode := CR_CW_MODE_WRITE } len w =
      .done (CR_CW_ERR, some ⟨CRE_BADARG⟩, [], { cr_file with mode := CR_CW_MODE_WRITE }) w ∧
    cr_write E { cr_file with mode := CR_CW_MODE_READ } buffer w =
      .done (CR_CW_ERR, some ⟨CRE_BADARG⟩, { cr_file with mode := CR_CW_MODE_READ }) w := by
  constructor
  · simp [cr_read]
  · simp [cr_write]

/-- The stage assertions: on a document whose footer is written (`footer` is not 0),
`cr_xmlfile_add_chunk`, with any chunk or `NULL`, and `cr_xmlfile_add_pkg` stop
at their assertion; on a document whose header is written,
`cr_xmlfile_write_xml_header` stops at its assertion.  The world is as before in
each case: nothing was written, no serializer output was used. -/
theorem cr_xmlfile_stage_asserts {κ π : Type} (E : ChecksumEngine κ) (ns : XmlNamespaces)
    (dump : cr_XmlFileType → π → Option Bytes × Option GError) (f : cr_XmlFile κ) (k : Nat)
    (chunk : Option Bytes) (pkg : π) (w : World) :
    cr_xmlfile_add_chunk E ns { f with footer := k + 1 } chunk w = .abort w ∧
    cr_xmlfile_add_pkg E ns dump { f with footer := k + 1 } pkg w = .abort w ∧
    cr_xmlfile_write_xml_header E ns { f with header := k + 1 } w = .abort w := by
  refine ⟨?_, ?_, ?_⟩
  · simp [cr_xmlfile_add_chunk]
  · simp [cr_xmlfile_add_pkg]
  · simp [cr_xmlfile_write_xml_header]

/-- When the xz flush loop of `cr_close` returns, its code is `CRE_OK` exactly when no error is set. -/
theorem xz_finish_loop_agree (n : Nat) :
    ∀ (script : List Resp) (x : XzFile) (log : List Call) (ret : cr_Error) (err : Option GError)
      (w' : World), script.length ≤ n →
    xz_finish_loop x log script = .done (ret, err) w' →
      (ret ≠ CRE_OK ∧ err ≠ none) ∨ (ret = CRE_OK ∧ err = none) := by
  induction n with
  | zero =>
    intro script x log ret err w' hn h
    have : script = [] := List.length_eq_zero.mp (Nat.le_zero.mp hn)
    subst this
    simp [xz_finish_loop] at h
  | succ n ih =>
    intro script x log ret err w' hn h
    unfold xz_finish_loop at h
    repeat' split at h
    all_goals try (simp at h; done)
    all_goals try (simp at h; obtain ⟨⟨rfl, rfl⟩, -⟩ := h; simp)
    exact ih _ _ _ _ _ _ (by simp at hn; omega) h

/-- When the finalisation of a kind returns, its code is `CRE_OK` exactly when no error is set: the closing assertion of `cr_close` holds. -/
theorem cr_close_kind_agree {κ : Type} (f : CR_FILE κ) (w w' : World) (ret : cr_Error)
    (err : Option GError) (h : cr_close_kind f w = .done (ret, err) w') :
    (ret ≠ CRE_OK ∧ err ≠ none) ∨ (ret = CRE_OK ∧ err = none) := by
  obtain ⟨type, FILE, mode, stat, ctx⟩ := f
  unfold cr_close_kind at h
  dsimp only at h
  split at h
  · repeat' split at h
    all_goals simp_all
    all_goals (obtain ⟨⟨rfl, rfl⟩, -⟩ := h; simp)
  · repeat' split at h
    all_goals simp_all
    all_goals (obtain ⟨⟨rfl, rfl⟩, -⟩ := h; simp)
  · repeat' split at h
    all_goals simp_all
    all_goals (obtain ⟨⟨rfl, rfl⟩, -⟩ := h; simp)
  · by_cases hm : mode = CR_CW_MODE_WRITE
    · simp only [hm, if_true] at h
      cases hx : xz_finish_loop _ w.log w.script with
      | done a w1 =>
        rw [hx] at h
        obtain ⟨r1, e1⟩ := a
        have := xz_finish_loop_agree _ _ _ _ _ _ _ (le_refl _) hx
        repeat' split at h
        all_goals simp_all
      | abort w1 => rw [hx] at h; simp at h
      | stuck => rw [hx] at h; simp at h
    · simp only [hm, if_false] at h
      repeat' split at h
      all_goals simp_all
  · simp at h; obtain ⟨⟨rfl, rfl⟩, -⟩ := h; simp
  · simp at h; obtain ⟨⟨rfl, rfl⟩, -⟩ := h; simp
  · simp at h

/-- C13: for a stream with an attached record, whatever the finalisation of
its kind returns (`fclose`, `gzclose`, `BZ2_bzReadClose`, `BZ2_bzWriteClose` or
the xz flush loop, succeeding or failing with any code), `cr_close` returns the
same code and error, and the record holds the final digest of the checksum
context when there is one and `NULL` when there is none. -/
theorem cr_close_digest {κ : Type} (E : ChecksumEngine κ) (f : CR_FILE κ)
    (st : cr_ContentStat) (w w' : World) (ret : cr_Error) (err : Option GError)
    (hst : f.stat = some st) (h : cr_close_kind f w = .done (ret, err) w') :
    cr_close E (some f) w =
      .done (ret, err, some { st with checksum := f.checksum_ctx.map E.cr_checksum_final }) w' := by
  have ha := cr_close_kind_agree f w w' ret err h
  obtain ⟨type, FILE, mode, stat, ctx⟩ := f
  simp only at hst
  subst hst
  simp only [cr_close, h, ha, if_true, close_stat]
  cases ctx <;> rfl

/-- C13, worked example: `fclose` fails on a plain stream whose checksum
context has seen "ab"; `cr_close` returns `CRE_IO` and the digest is stored. -/
theorem cr_close_digest_witness :
    cr_close sample_engine
        (some ⟨CR_CW_NO_COMPRESSION, .ptr 7, CR_CW_MODE_WRITE, some sample_stat,
          some "ab".toList⟩) ⟨[], [.int (-1)]⟩ =
      .done ( CRE_IO, some ⟨ CRE_IO⟩,
          some { size := 0, checksum_type := 2, checksum := some "ba".toList })
        ⟨[.fclose 7], []⟩ :=
  cr_close_digest sample_engine
    ⟨CR_CW_NO_COMPRESSION, .ptr 7, CR_CW_MODE_WRITE, some sample_stat, some "ab".toList⟩
    sample_stat ⟨[], [.int (-1)]⟩ ⟨[.fclose 7], []⟩ CRE_IO (some ⟨ CRE_IO⟩) rfl (by decide)

/-- A handle fits only the four kinds that have a codec behind them. -/
theorem handle_fits_kind {type : cr_CompressionType} {h : Handle} (hf : handle_fits type h) :
    type = CR_CW_NO_COMPRESSION ∨ type = CR_CW_GZ_COMPRESSION ∨
      type = CR_CW_BZ2_COMPRESSION ∨ type = CR_CW_XZ_COMPRESSION := by
  cases type <;> simp_all [handle_fits]

/-- A stream returned by the body of `cr_sopen` has a handle of its kind, and its kind is the one asked for or the one detected without error. -/
theorem cr_sopen_body_kind {κ : Type} {E : ChecksumEngine κ} {filename : Bytes}
    {mode : cr_OpenMode} {comtype : cr_CompressionType} {stat st' : Option cr_ContentStat}
    {w w' : World} {f : CR_FILE κ} {err : Option GError}
    (h : cr_sopen_body E filename mode comtype stat w = .done (some f, err, st') w') :
    handle_fits f.type f.FILE ∧
    (comtype = CR_CW_AUTO_DETECT_COMPRESSION →
      ∃ w1, cr_detect_compression filename w = .done (f.type, none) w1) ∧
    (comtype ≠ CR_CW_AUTO_DETECT_COMPRESSION → f.type = comtype) := by
  unfold cr_sopen_body at h
  dsimp only at h
  split at h
  · simp at h
  · rename_i type w1 hd
    split at h
    · simp at h
    · split at h
      · simp at h
      · rename_i hdl _ _ hk
        have hh := cr_sopen_kind_handle hk
        have ht : f.type = type ∧ f.FILE = hdl := by
          repeat' split at h
          all_goals (try simp at h)
          all_goals
            obtain ⟨⟨rfl, -⟩, -⟩ := h
            exact ⟨rfl, rfl⟩
        rw [ht.1, ht.2]
        refine ⟨hh, ?_, ?_⟩
        · intro hc
          simp only [hc, if_true] at hd
          exact ⟨w1, hd⟩
        · intro hc
          simp only [hc, if_false] at hd
          simp at hd
          exact hd.1.symm
      · simp at h
      · simp at h
  · simp at h
  · simp at h

/-- C12: `cr_sopen` in read mode.  With `CR_CW_AUTO_DETECT_COMPRESSION`, an
error of `cr_detect_compression` is handed to the caller and no stream is
returned.  A resolved kind `CR_CW_UNKNOWN_COMPRESSION`, asked for or detected
without error, gives no stream and `CRE_UNKNOWNCOMPRESSION`.  A stream that is
returned has one of the four kinds none, gzip, bzip2, xz, which is the kind
asked for, or with auto-detection the kind that was detected without error. -/
theorem cr_sopen_read_kind {κ : Type} (E : ChecksumEngine κ) (filename : Bytes)
    (comtype : cr_CompressionType) (stat : Option cr_ContentStat) (w : World) :
    (∀ t e w1, cr_detect_compression filename w = .done (t, some e) w1 →
      cr_sopen E filename CR_CW_MODE_READ CR_CW_AUTO_DETECT_COMPRESSION stat w =
        .done (none, some e, stat) w1) ∧
    (∀ w1, cr_detect_compression filename w = .done (CR_CW_UNKNOWN_COMPRESSION, none) w1 →
      cr_sopen E filename CR_CW_MODE_READ CR_CW_AUTO_DETECT_COMPRESSION stat w =
        .done (none, some ⟨CRE_UNKNOWNCOMPRESSION⟩, stat) w1) ∧
    cr_sopen E filename CR_CW_MODE_READ CR_CW_UNKNOWN_COMPRESSION stat w =
      .done (none, some ⟨CRE_UNKNOWNCOMPRESSION⟩, stat) w ∧
    (∀ (f : CR_FILE κ) err st1 w1,
      cr_sopen E filename CR_CW_MODE_READ comtype stat w = .done (some f, err, st1) w1 →
      (f.type = CR_CW_NO_COMPRESSION ∨ f.type = CR_CW_GZ_COMPRESSION ∨
        f.type = CR_CW_BZ2_COMPRESSION ∨ f.type = CR_CW_XZ_COMPRESSION) ∧
      (comtype = CR_CW_AUTO_DETECT_COMPRESSION →
        ∃ w2, cr_detect_compression filename w = .done (f.type, none) w2) ∧
      (comtype ≠ CR_CW_AUTO_DETECT_COMPRESSION → f.type = comtype)) := by
  refine ⟨?_, ?_, ?_, ?_⟩
  · intro t e w1 hd
    simp [cr_sopen, cr_sopen_body, hd]
  · intro w1 hd
    simp [cr_sopen, cr_sopen_body, hd]
  · simp [cr_sopen, cr_sopen_body]
  · intro f err st1 w1 h
    have hb : cr_sopen_body E filename CR_CW_MODE_READ comtype stat w =
        .done (some f, err, st1) w1 := by
      simpa [cr_sopen] using h
    have := cr_sopen_body_kind hb
    exact ⟨handle_fits_kind this.1, this.2⟩

/-- C12, worked example: "a.gz" opened for reading with auto-detection; the
stream returned is a gzip stream and gzip is what detection gives. -/
theorem cr_sopen_read_kind_witness :
    cr_sopen sample_engine "a.gz".toList CR_CW_MODE_READ CR_CW_AUTO_DETECT_COMPRESSION none
        ⟨[], [.bool true, .ptr 4, .int 0]⟩ =
      .done (some ⟨CR_CW_GZ_COMPRESSION, .ptr 4, CR_CW_MODE_READ, none, none⟩, none, none)
        ⟨[.g_file_test "a.gz".toList G_FILE_TEST_IS_REGULAR, .gzopen "a.gz".toList "rb".toList,
          .gzbuffer 4 GZ_BUFFER_SIZE], []⟩ ∧
    ((CR_CW_GZ_COMPRESSION = CR_CW_NO_COMPRESSION ∨
      CR_CW_GZ_COMPRESSION = CR_CW_GZ_COMPRESSION ∨
      CR_CW_GZ_COMPRESSION = CR_CW_BZ2_COMPRESSION ∨
      CR_CW_GZ_COMPRESSION = CR_CW_XZ_COMPRESSION) ∧
    (CR_CW_AUTO_DETECT_COMPRESSION = CR_CW_AUTO_DETECT_COMPRESSION →
      ∃ w2, cr_detect_compression "a.gz".toList ⟨[], [.bool true, .ptr 4, .int 0]⟩ =
        .done (CR_CW_GZ_COMPRESSION, none) w2) ∧
    (CR_CW_AUTO_DETECT_COMPRESSION ≠ CR_CW_AUTO_DETECT_COMPRESSION →
      CR_CW_GZ_COMPRESSION = CR_CW_AUTO_DETECT_COMPRESSION)) :=
  ⟨by decide,
   (cr_sopen_read_kind sample_engine "a.gz".toList CR_CW_AUTO_DETECT_COMPRESSION none
      ⟨[], [.bool true, .ptr 4, .int 0]⟩).2.2.2
    ⟨CR_CW_GZ_COMPRESSION, .ptr 4, CR_CW_MODE_READ, none, none⟩ none none
    ⟨[.g_file_test "a.gz".toList G_FILE_TEST_IS_REGULAR, .gzopen "a.gz".toList "rb".toList,
      .gzbuffer 4 GZ_BUFFER_SIZE], []⟩ (by decide)⟩

/-- C17, counterexample: a write of the empty buffer on a gzip stream in write
mode returns 0 with no error set, and `gzwrite` is not called (the log holds
the entry of `cr_write` only and no answer is consumed). -/
theorem cr_write_gz_empty_ok :
    cr_write sample_engine (sample_gz_file 0 []) [] ⟨[], []⟩ =
      .done (0, none, sample_gz_file 0 []) ⟨[.cr_write_entry []], []⟩ := by
  decide

/-- A write on a gzip stream in write mode whose checksum update does not
fail: `gzwrite` returning 0 for a non-empty buffer gives `CRE_GZ`; the empty
buffer gives 0 and `gzwrite` is not called. -/
theorem cr_write_gz_cases {κ : Type} (E : ChecksumEngine κ) (p : Nat)
    (stat : Option cr_ContentStat) (ctx : Option κ) (buffer : Bytes) (log : List Call)
    (rest : List Resp)
    (hs : (cr_write_stat E ⟨CR_CW_GZ_COMPRESSION, .ptr p, CR_CW_MODE_WRITE, stat, ctx⟩
      buffer).2 = none) :
    (buffer ≠ [] →
      cr_write E ⟨CR_CW_GZ_COMPRESSION, .ptr p, CR_CW_MODE_WRITE, stat, ctx⟩ buffer
          ⟨log, .int 0 :: rest⟩ =
        .done (CR_CW_ERR, some ⟨CRE_GZ⟩,
            (cr_write_stat E ⟨CR_CW_GZ_COMPRESSION, .ptr p, CR_CW_MODE_WRITE, stat, ctx⟩
              buffer).1)
          ⟨log ++ [.cr_write_entry buffer] ++ [.gzwrite p buffer], rest⟩) ∧
    (buffer = [] →
      cr_write E ⟨CR_CW_GZ_COMPRESSION, .ptr p, CR_CW_MODE_WRITE, stat, ctx⟩ buffer
          ⟨log, rest⟩ =
        .done (0, none,
            (cr_write_stat E ⟨CR_CW_GZ_COMPRESSION, .ptr p, CR_CW_MODE_WRITE, stat, ctx⟩
              buffer).1)
          ⟨log ++ [.cr_write_entry buffer], rest⟩) := by
  have hfr := cr_write_stat_frame E
    ⟨CR_CW_GZ_COMPRESSION, .ptr p, CR_CW_MODE_WRITE, stat, ctx⟩ buffer
  have hagree : ret_err_agree CR_CW_ERR (some ⟨CRE_GZ⟩) ∧ ret_err_agree 0 none := by decide
  simp only [cr_write, ne_eq, not_true_eq_false, if_false, World.note]
  generalize cr_write_stat E ⟨CR_CW_GZ_COMPRESSION, .ptr p, CR_CW_MODE_WRITE, stat, ctx⟩
    buffer = r at hs hfr ⊢
  obtain ⟨f1, e1⟩ := r
  obtain ⟨t1, F1, m1, s1, c1⟩ := f1
  simp only at hs hfr
  obtain ⟨rfl, rfl, rfl⟩ := hfr
  subst hs
  constructor
  · intro hb
    have hl : buffer.length ≠ 0 := by simpa using hb
    simp [cr_write_kind, World.call, hl, hagree.1]
  · intro hb
    subst hb
    simp [cr_write_kind, hagree.2]

/-- C17, amended: on a gzip stream in write mode whose checksum update, if
any, does not fail, a write of a non-empty buffer for which `gzwrite` returns 0
returns `CR_CW_ERR` with the error `CRE_GZ`; a write of the empty buffer
returns 0 with no error set, and `gzwrite` is not called. -/
theorem cr_write_gz_zero {κ : Type} (E : ChecksumEngine κ) (p : Nat)
    (stat : Option cr_ContentStat) (ctx : Option κ) (c : Char) (cs : Bytes) (log : List Call)
    (rest : List Resp)
    (hs : (cr_write_stat E ⟨CR_CW_GZ_COMPRESSION, .ptr p, CR_CW_MODE_WRITE, stat, ctx⟩
      (c :: cs)).2 = none)
    (hz : (cr_write_stat E ⟨CR_CW_GZ_COMPRESSION, .ptr p, CR_CW_MODE_WRITE, stat, ctx⟩
      []).2 = none) :
    cr_write E ⟨CR_CW_GZ_COMPRESSION, .ptr p, CR_CW_MODE_WRITE, stat, ctx⟩ (c :: cs)
        ⟨log, .int 0 :: rest⟩ =
      .done (CR_CW_ERR, some ⟨CRE_GZ⟩,
          (cr_write_stat E ⟨CR_CW_GZ_COMPRESSION, .ptr p, CR_CW_MODE_WRITE, stat, ctx⟩
            (c :: cs)).1)
        ⟨log ++ [.cr_write_entry (c :: cs)] ++ [.gzwrite p (c :: cs)], rest⟩ ∧
    cr_write E ⟨CR_CW_GZ_COMPRESSION, .ptr p, CR_CW_MODE_WRITE, stat, ctx⟩ [] ⟨log, rest⟩ =
      .done (0, none,
          (cr_write_stat E ⟨CR_CW_GZ_COMPRESSION, .ptr p, CR_CW_MODE_WRITE, stat, ctx⟩ []).1)
        ⟨log ++ [.cr_write_entry []], rest⟩ :=
  ⟨(cr_write_gz_cases E p stat ctx (c :: cs) log rest hs).1 (List.cons_ne_nil c cs),
   (cr_write_gz_cases E p stat ctx [] log rest hz).2 rfl⟩

/-- C17, worked example: on a gzip stream with a record and a checksum
context, `gzwrite` returns 0 for the buffer "ab" and `cr_write` fails with
`CRE_GZ`; the empty buffer is written with no call at all and the result is 0. -/
theorem cr_write_gz_zero_witness :
    cr_write sample_engine (sample_gz_file 0 []) "ab".toList ⟨[], [.int 0]⟩ =
      .done (CR_CW_ERR, some ⟨CRE_GZ⟩, sample_gz_file 2 "ab".toList)
        ⟨[.cr_write_entry "ab".toList, .gzwrite 4 "ab".toList], []⟩ ∧
    cr_write sample_engine (sample_gz_file 0 []) [] ⟨[], []⟩ =
      .done (0, none, sample_gz_file 0 []) ⟨[.cr_write_entry []], []⟩ :=
  cr_write_gz_zero sample_engine 4 (some sample_stat) (some []) 'a' ['b'] [] [] rfl rfl

theorem longest_buffer_length : longest_buffer.length = 2 ^ 32 - 1 := by
  rw [longest_buffer, List.length_replicate]

/-- C18: a write of 2^32 - 1 bytes on an uncompressed stream in write mode,
where `fwrite` takes every byte.  No error is set, the value in `ret` is
`(int) 4294967295`, which is `CR_CW_ERR`, and the closing assertion of
`cr_write` fails: the call does not return the length. -/
theorem cr_write_longest_buffer :
    cr_write sample_engine ⟨CR_CW_NO_COMPRESSION, .ptr 3, CR_CW_MODE_WRITE, none, none⟩
        longest_buffer ⟨[], [.size (2 ^ 32 - 1)]⟩ =
      .abort ⟨[.cr_write_entry longest_buffer, .fwrite 3 longest_buffer], []⟩ := by
  simpa using cr_write_sentinel_assert sample_engine 3 longest_buffer [] []
    longest_buffer_length

/-- C14: a gzip stream is opened for writing, `gzopen` succeeds and `gzbuffer`
returns -1.  The error `CRE_GZ` is set while `file->FILE` stays non-`NULL`, so
the cleanup that returns `NULL` is skipped and the closing assertion of
`cr_sopen` (`file && *err == NULL`) fails: the call does not end with "no
stream and an error". -/
theorem cr_sopen_gzbuffer_fails :
    cr_sopen sample_engine "a.gz".toList CR_CW_MODE_WRITE CR_CW_GZ_COMPRESSION none
        ⟨[], [.ptr 4, .int (-1)]⟩ =
      .abort ⟨[.gzopen "a.gz".toList "wb".toList, .gzsetparams 4,
        .gzbuffer 4 GZ_BUFFER_SIZE], []⟩ ∧
    cr_sopen_kind "a.gz".toList CR_CW_MODE_WRITE CR_CW_GZ_COMPRESSION
        ⟨[], [.ptr 4, .int (-1)]⟩ =
      .done (some (.ptr 4), some ⟨CRE_GZ⟩)
        ⟨[.gzopen "a.gz".toList "wb".toList, .gzsetparams 4,
          .gzbuffer 4 GZ_BUFFER_SIZE], []⟩ := by
  constructor <;> decide

set_option synthInstance.maxSize 1000 in
set_option maxRecDepth 100000 in
/-- C15: `cr_xmlfile_close` on an uncompressed primary document when a write
fails.  With the header written and a short `fwrite` for the footer, and with
the header not written and a short `fwrite` for the header, the function
returns `CRE_IO` at once: the last call made is that `fwrite`, `cr_close` is not
reached, so no `fclose` is made on the stream, and the document is not freed. -/
theorem cr_xmlfile_close_early_return :
    cr_xmlfile_close sample_engine repodata_ns (some (sample_doc 1)) ⟨[], [.size 3]⟩ =
      .done ( CRE_IO, some ⟨ CRE_IO⟩, some (sample_doc 1), none)
        ⟨[.cr_write_entry (xml_footer CR_XMLFILE_PRIMARY),
          .fwrite 3 (xml_footer CR_XMLFILE_PRIMARY)], []⟩ ∧
    cr_xmlfile_close sample_engine repodata_ns (some (sample_doc 0))
        ⟨[], [.int 156, .size 10]⟩ =
      .done ( CRE_IO, some ⟨ CRE_IO⟩, some (sample_doc 0), none)
        ⟨[.g_vasprintf, .cr_write_entry (header_bytes repodata_ns CR_XMLFILE_PRIMARY 0),
          .fwrite 3 (header_bytes repodata_ns CR_XMLFILE_PRIMARY 0)], []⟩ ∧
    cr_xmlfile_close sample_engine repodata_ns (some (sample_doc 1))
        ⟨[], [.size 11, .int 0]⟩ =
      .done (CRE_OK, none, none, none)
        ⟨[.cr_write_entry (xml_footer CR_XMLFILE_PRIMARY),
          .fwrite 3 (xml_footer CR_XMLFILE_PRIMARY), .fclose 3], []⟩ := by
  refine ⟨?_, ?_, ?_⟩ <;> decide

/-- C19: a document whose footer is not written, on a stream of any of the
four kinds, when the underlying writes succeed.  `cr_xmlfile_add_chunk` with
`NULL` returns `CRE_OK` and leaves the document and the world as they were (no
header is written).  With the empty string it returns `CRE_OK`: when the header
is written nothing more reaches the write path, and when it is not, the header
is written first and is all that reaches the write path. -/
theorem cr_xmlfile_add_chunk_null_empty {κ : Type} {E : ChecksumEngine κ} (hE : E.update_ok)
    {ns : XmlNamespaces} (hns : ns.plain) (d : cr_XmlFile κ) (k : cr_CompressionType) (n : Nat)
    (hr : d.f.write_ready) (hk : d.f.type = k) (hf : d.footer = 0)
    (hp : d.pkgs = (n : Int)) (hn : n < 2 ^ 31) (hseg seg rest : List Resp) (log : List Call)
    (hhs : header_answers_ok k (header_bytes ns d.type n) hseg = true)
    (hs : write_answers_ok k [] seg = true) :
    (∀ w : World, cr_xmlfile_add_chunk E ns d none w = .done (CRE_OK, none, d) w) ∧
    (∃ d' log', cr_xmlfile_add_chunk E ns { d with header := 1 } (some []) ⟨log, seg ++ rest⟩ =
        .done (CRE_OK, none, d') ⟨log', rest⟩ ∧
      d'.header = 1 ∧ d'.footer = 0 ∧ written_bytes log' = written_bytes log) ∧
    (∃ d' log', cr_xmlfile_add_chunk E ns { d with header := 0 } (some [])
          ⟨log, hseg ++ (seg ++ rest)⟩ =
        .done (CRE_OK, none, d') ⟨log', rest⟩ ∧
      d'.header = 1 ∧ d'.footer = 0 ∧
      written_bytes log' = written_bytes log ++ header_bytes ns d.type n) := by
  refine ⟨?_, ?_, ?_⟩
  · intro w
    simp [cr_xmlfile_add_chunk, hf]
  · obtain ⟨d', log', h, -, -, -, hh, hf', hw⟩ :=
      xml_add_chunk_ok hE ns { d with header := 1 } k hr hk rfl hf [] (by simp) seg rest log hs
    exact ⟨d', log', h, hh, hf', by simpa using hw⟩
  · obtain ⟨d', log', h, -, -, -, hh, hf', hw⟩ :=
      xml_add_chunk_first hE hns { d with header := 0 } k n hr hk rfl hf hp hn [] (by simp)
        hseg seg rest log hhs hs
    exact ⟨d', log', h, hh, hf', by simpa using hw⟩

set_option maxRecDepth 100000 in
/-- C19, worked example: the uncompressed primary document `sample_doc 0`,
where `g_vasprintf` and `fwrite` take the 156 bytes of the header and `fwrite`
takes the 0 bytes of the chunk. -/
theorem cr_xmlfile_add_chunk_null_empty_witness :
    (∀ w : World, cr_xmlfile_add_chunk sample_engine repodata_ns (sample_doc 0) none w =
      .done (CRE_OK, none, sample_doc 0) w) ∧
    (∃ d' log', cr_xmlfile_add_chunk sample_engine repodata_ns (sample_doc 1) (some [])
          ⟨[], [.size 0]⟩ =
        .done (CRE_OK, none, d') ⟨log', []⟩ ∧
      d'.header = 1 ∧ d'.footer = 0 ∧ written_bytes log' = written_bytes []) ∧
    (∃ d' log', cr_xmlfile_add_chunk sample_engine repodata_ns (sample_doc 0) (some [])
          ⟨[], [.int 156, .size 156, .size 0]⟩ =
        .done (CRE_OK, none, d') ⟨log', []⟩ ∧
      d'.header = 1 ∧ d'.footer = 0 ∧
      written_bytes log' =
        written_bytes [] ++ header_bytes repodata_ns CR_XMLFILE_PRIMARY 0) :=
  cr_xmlfile_add_chunk_null_empty sample_engine_update_ok (by decide) (sample_doc 0)
    CR_CW_NO_COMPRESSION 0 ⟨rfl, trivial⟩ rfl rfl rfl (by decide)
    [.int 156, .size 156] [.size 0] [] [] (by decide) (by decide)

/-- The xz read loop with no room left in the buffer ends at once. -/
theorem xz_read_loop_zero (x : XzFile) (got : Bytes) (log : List Call) (script : List Resp) :
    xz_read_loop x 0 got log script = .done (some (got, 0), none, x) ⟨log, script⟩ := by
  cases script <;> rfl

/-- The xz read loop with room left and no answer left does not go on. -/
theorem xz_read_loop_nil (x : XzFile) (a : Nat) (got : Bytes) (log : List Call) :
    xz_read_loop x (a + 1) got log [] = .stuck := rfl

/-- One turn of the xz read loop, as in its definition. -/
theorem xz_read_loop_cons (x : XzFile) (avail_out : Nat) (got : Bytes) (log : List Call)
    (r : Resp) (rest : List Resp) :
    xz_read_loop x (avail_out + 1) got log (r :: rest) =
    if x.avail_in.length = 0 then
      match r with
      | .data d _ =>
        let log := log ++ [.fread x.file XZ_BUFFER_SIZE]
        if d.length ≤ XZ_BUFFER_SIZE then
          if toInt32 d.length < 0 then .done (none, some ⟨CRE_XZ⟩, x) ⟨log, rest⟩
          else if toInt32 d.length = 0 then
            .done (some (got, avail_out + 1), none, x) ⟨log, rest⟩
          else
            match rest with
            | .code lret consumed out :: rest =>
              let log := log ++ [.lzma_code LZMA_RUN d (avail_out + 1)]
              match xz_decode { x with avail_in := d } (avail_out + 1) got lret consumed out with
              | .fail err x => .done (none, some err, x) ⟨log, rest⟩
              | .stop got avail_out x => .done (some (got, avail_out), none, x) ⟨log, rest⟩
              | .next got avail_out x => xz_read_loop x avail_out got log rest
              | .stuck => .stuck
            | _ => .stuck
        else .stuck
      | _ => .stuck
    else
      match r with
      | .code lret consumed out =>
        let log := log ++ [.lzma_code LZMA_RUN x.avail_in (avail_out + 1)]
        match xz_decode x (avail_out + 1) got lret consumed out with
        | .fail err x => .done (none, some err, x) ⟨log, rest⟩
        | .stop got avail_out x => .done (some (got, avail_out), none, x) ⟨log, rest⟩
        | .next got avail_out x => xz_read_loop x avail_out got log rest
        | .stuck => .stuck
      | _ => .stuck := by
  cases r <;> cases rest <;> try rfl
  all_goals (rename_i hd tl; cases hd <;> rfl)

/-- A decoding step that does not fail moves bytes from the room left to the bytes filled. -/
theorem xz_decode_next {x x1 : XzFile} {a a1 : Nat} {got got1 : Bytes} {lret : Int}
    {consumed : Nat} {out : Bytes}
    (h : xz_decode x a got lret consumed out = .next got1 a1 x1 ∨
         xz_decode x a got lret consumed out = .stop got1 a1 x1) :
    got1.length + a1 = got.length + a := by
  unfold xz_decode at h
  split at h
  · rename_i hc
    dsimp only at h
    repeat' split at h
    all_goals simp at h
    all_goals
      obtain ⟨rfl, rfl, -⟩ := h
      simp only [List.length_append]
      omega
  · simp at h

/-- When the xz read loop ends other than by a failure, no error is set, and the bytes filled and the room left add up as at the start. -/
theorem xz_read_loop_some (n : Nat) :
    ∀ (script : List Resp) (x : XzFile) (a : Nat) (got : Bytes) (log : List Call)
      (got1 : Bytes) (a1 : Nat) (err : Option GError) (x1 : XzFile) (w1 : World),
    script.length ≤ n →
    xz_read_loop x a got log script = .done (some (got1, a1), err, x1) w1 →
      err = none ∧ got1.length + a1 = got.length + a := by
  induction n with
  | zero =>
    intro script x a got log got1 a1 err x1 w1 hn h
    have : script = [] := List.length_eq_zero.mp (Nat.le_zero.mp hn)
    subst this
    cases a with
    | zero =>
      rw [xz_read_loop_zero] at h
      simp at h; obtain ⟨⟨⟨rfl, rfl⟩, rfl, -⟩, -⟩ := h; simp
    | succ a => rw [xz_read_loop_nil] at h; simp at h
  | succ n ih =>
    intro script x a got log got1 a1 err x1 w1 hn h
    cases a with
    | zero =>
      rw [xz_read_loop_zero] at h
      simp at h; obtain ⟨⟨⟨rfl, rfl⟩, rfl, -⟩, -⟩ := h; simp
    | succ a =>
      cases script with
      | nil => rw [xz_read_loop_nil] at h; simp at h
      | cons r rest =>
        rw [xz_read_loop_cons] at h
        simp only [List.length_cons] at hn
        split at h
        · split at h
          · dsimp only at h
            split at h
            · split at h
              · simp at h
              · split at h
                · simp at h; obtain ⟨⟨⟨rfl, rfl⟩, rfl, -⟩, -⟩ := h; simp
                · split at h
                  · split at h
                    · simp at h
                    · rename_i hdec
                      simp at h; obtain ⟨⟨⟨rfl, rfl⟩, rfl, -⟩, -⟩ := h
                      exact ⟨rfl, xz_decode_next (Or.inr hdec)⟩
                    · rename_i hdec
                      have := ih _ _ _ _ _ _ _ _ _ _ (by simp only [List.length_cons] at hn; omega) h
                      exact ⟨this.1, this.2.trans (xz_decode_next (Or.inl hdec))⟩
                    · simp at h
                  · simp at h
            · simp at h
          · simp at h
        · split at h
          · dsimp only at h
            split at h
            · simp at h
            · rename_i hdec
              simp at h; obtain ⟨⟨⟨rfl, rfl⟩, rfl, -⟩, -⟩ := h
              exact ⟨rfl, xz_decode_next (Or.inr hdec)⟩
            · rename_i hdec
              have := ih _ _ _ _ _ _ _ _ _ _ (by omega) h
              exact ⟨this.1, this.2.trans (xz_decode_next (Or.inl hdec))⟩
            · simp at h
          · simp at h

/-- A read on an uncompressed stream that comes back short with the end-of-file
indicator set: no error, and `ret` is the count converted to `int`. -/
theorem cr_read_plain_eof {κ : Type} (p : Nat) (stat : Option cr_ContentStat) (ctx : Option κ)
    (len : Nat) (d : Bytes) (e : Bool) (log : List Call) (rest : List Resp)
    (h1 : d.length ≤ len) (h2 : toInt32 d.length ≠ toInt32 len)
    (h3 : toInt32 d.length ≠ CR_CW_ERR) :
    cr_read (⟨CR_CW_NO_COMPRESSION, .ptr p, CR_CW_MODE_READ, stat, ctx⟩ : CR_FILE κ) len
        ⟨log, .data d e :: .bool true :: rest⟩ =
      .done (toInt32 d.length, none, d,
          ⟨CR_CW_NO_COMPRESSION, .ptr p, CR_CW_MODE_READ, stat, ctx⟩)
        ⟨log ++ [.fread p len] ++ [.feof p], rest⟩ := by
  simp [cr_read, cr_read_kind, World.call, h1, h2, ret_err_agree, h3]

/-- The length of `large_read`. -/
theorem large_read_length : large_read.length = 2 ^ 31 := by
  rw [large_read, List.length_replicate]

/-- C16: an uncompressed stream in read mode holds 2^31 more bytes; a read of
2^31 + 1 bytes takes them and finds the end of the file.  `ret = fread(...)`
stores the `size_t` count in an `int` with no check of its range: no error is
set, and the value returned is `(int) 2147483648`, a negative number. -/
theorem cr_read_large_final_read :
    cr_read (⟨CR_CW_NO_COMPRESSION, .ptr 3, CR_CW_MODE_READ, none, none⟩ : CR_FILE Bytes)
        (2 ^ 31 + 1) ⟨[], [.data large_read false, .bool true]⟩ =
      .done (-2147483648, none, large_read,
          ⟨CR_CW_NO_COMPRESSION, .ptr 3, CR_CW_MODE_READ, none, none⟩)
        ⟨[.fread 3 (2 ^ 31 + 1), .feof 3], []⟩ := by
  have h := @cr_read_plain_eof Bytes 3 none none (2 ^ 31 + 1) large_read false [] []
    (by rw [large_read_length]; decide) (by rw [large_read_length]; decide)
    (by rw [large_read_length]; decide)
  rw [large_read_length] at h
  have hv : toInt32 (2 ^ 31) = -2147483648 := by decide
  rw [hv] at h
  simpa using h

/-- Reads that come to the end of the source: a read of `len` bytes on a stream in read
mode whose source comes to its end, where fewer than 2^31 bytes are read.  No
error is set and the count of the bytes read is returned, 0 when there are none:
on an uncompressed stream when `fread` comes back short with the end-of-file
indicator set; on a gzip stream for the count of `gzread`; on a bzip2 stream
when `BZ2_bzRead` reports `BZ_STREAM_END`, and 0 for a further read, which
`BZ2_bzRead` answers with `BZ_SEQUENCE_ERROR`; on an xz stream when `fread` has
nothing more, and whenever the decoding loop ends other than by a failure. -/
theorem cr_read_end_of_stream {κ : Type} (p : Nat) (stat : Option cr_ContentStat)
    (ctx : Option κ) (len : Nat) (d : Bytes) (e : Bool) (z : Int) (log : List Call)
    (rest : List Resp) (x x1 : XzFile) (script : List Resp) (got : Bytes) (a1 : Nat)
    (err : Option GError) (w1 : World)
    (hlen : len < 2 ^ 32) (hd : d.length < len) (hd31 : d.length < 2 ^ 31)
    (hxz : xz_read_loop x len [] log script = .done (some (got, a1), err, x1) w1)
    (hg : got.length < 2 ^ 31) :
    cr_read (⟨CR_CW_NO_COMPRESSION, .ptr p, CR_CW_MODE_READ, stat, ctx⟩ : CR_FILE κ) len
        ⟨log, .data d e :: .bool true :: rest⟩ =
      .done ((d.length : Int), none, d,
          ⟨CR_CW_NO_COMPRESSION, .ptr p, CR_CW_MODE_READ, stat, ctx⟩)
        ⟨log ++ [.fread p len] ++ [.feof p], rest⟩ ∧
    cr_read (⟨CR_CW_GZ_COMPRESSION, .ptr p, CR_CW_MODE_READ, stat, ctx⟩ : CR_FILE κ) len
        ⟨log, .rd (d.length : Int) z d :: rest⟩ =
      .done ((d.length : Int), none, d,
          ⟨CR_CW_GZ_COMPRESSION, .ptr p, CR_CW_MODE_READ, stat, ctx⟩)
        ⟨log ++ [.gzread p len], rest⟩ ∧
    cr_read (⟨CR_CW_BZ2_COMPRESSION, .ptr p, CR_CW_MODE_READ, stat, ctx⟩ : CR_FILE κ) len
        ⟨log, .rd (d.length : Int) BZ_STREAM_END d :: rest⟩ =
      .done ((d.length : Int), none, d,
          ⟨CR_CW_BZ2_COMPRESSION, .ptr p, CR_CW_MODE_READ, stat, ctx⟩)
        ⟨log ++ [.BZ2_bzRead p len], rest⟩ ∧
    cr_read (⟨CR_CW_BZ2_COMPRESSION, .ptr p, CR_CW_MODE_READ, stat, ctx⟩ : CR_FILE κ) len
        ⟨log, .rd 0 BZ_SEQUENCE_ERROR [] :: rest⟩ =
      .done (0, none, [], ⟨CR_CW_BZ2_COMPRESSION, .ptr p, CR_CW_MODE_READ, stat, ctx⟩)
        ⟨log ++ [.BZ2_bzRead p len], rest⟩ ∧
    cr_read (⟨CR_CW_XZ_COMPRESSION, .xz ⟨p, []⟩, CR_CW_MODE_READ, stat, ctx⟩ : CR_FILE κ) len
        ⟨log, .data [] e :: rest⟩ =
      .done (0, none, [], ⟨CR_CW_XZ_COMPRESSION, .xz ⟨p, []⟩, CR_CW_MODE_READ, stat, ctx⟩)
        ⟨log ++ [.fread p XZ_BUFFER_SIZE], rest⟩ ∧
    cr_read (⟨CR_CW_XZ_COMPRESSION, .xz x, CR_CW_MODE_READ, stat, ctx⟩ : CR_FILE κ) len
        ⟨log, script⟩ =
      .done ((got.length : Int), none, got,
          ⟨CR_CW_XZ_COMPRESSION, .xz x1, CR_CW_MODE_READ, stat, ctx⟩) w1 := by
  have hne : (d.length : Int) ≠ CR_CW_ERR := by simp only [CR_CW_ERR]; omega
  have hu : toUInt32 len = len := Nat.mod_eq_of_lt hlen
  refine ⟨?_, ?_, ?_, ?_, ?_, ?_⟩
  · have h := cr_read_plain_eof p stat ctx len d e log rest (le_of_lt hd)
      (by
        rw [toInt32_small hd31]
        unfold toInt32
        rw [Nat.mod_eq_of_lt hlen]
        split <;> omega)
      (by rw [toInt32_small hd31]; exact hne)
    rw [toInt32_small hd31] at h
    exact h
  · have h1 : (d.length : Int) ≤ len := by omega
    have h2 : d.length < 2147483648 := hd31
    have h3 : ¬ ((d.length : Int) = -1) := by omega
    simp [cr_read, cr_read_kind, World.call, ret_err_agree, CR_CW_ERR, h1, h2, h3]
  · have h1 : (d.length : Int) ≤ len := by omega
    have h2 : d.length < 2147483648 := hd31
    have h3 : ¬ ((d.length : Int) = -1) := by omega
    simp [cr_read, cr_read_kind, World.call, ret_err_agree, CR_CW_ERR, h1, h2, h3,
      BZ_STREAM_END, BZ_SEQUENCE_ERROR, BZ_OK]
  · simp [cr_read, cr_read_kind, World.call, BZ_SEQUENCE_ERROR]
  · obtain ⟨m, rfl⟩ : ∃ m, len = m + 1 := ⟨len - 1, by omega⟩
    have h0 : toInt32 0 = 0 := by decide
    simp only [cr_read, cr_read_kind, hu, xz_read_loop_cons, ne_eq, not_true_eq_false,
      if_false, List.length_nil, if_true, Nat.zero_le, h0, lt_self_iff_false, Nat.sub_self]
    simp [ret_err_agree, CR_CW_ERR, h0]
  · obtain ⟨rfl, hsum⟩ := xz_read_loop_some script.length script x len [] log got a1 err x1 w1
      (le_refl _) hxz
    simp only [cr_read, cr_read_kind, hu, hxz, ne_eq, not_true_eq_false, if_false]
    have hl : len - a1 = got.length := by simp at hsum; omega
    rw [hl, toInt32_small hg]
    have hne2 : (got.length : Int) ≠ CR_CW_ERR := by simp only [CR_CW_ERR]; omega
    simp [ret_err_agree, hne2]

/-- Worked example for `cr_read_end_of_stream`: reads of 4 bytes that find "ab" before the end; for
xz the raw file gives "zz" and the decoder puts out "ab" with
`LZMA_STREAM_END`. -/
theorem cr_read_end_of_stream_witness :
    cr_read (⟨CR_CW_NO_COMPRESSION, .ptr 3, CR_CW_MODE_READ, none, none⟩ : CR_FILE Bytes) 4
        ⟨[], [.data "ab".toList false, .bool true]⟩ =
      .done (2, none, "ab".toList, ⟨CR_CW_NO_COMPRESSION, .ptr 3, CR_CW_MODE_READ, none, none⟩)
        ⟨[.fread 3 4, .feof 3], []⟩ ∧
    cr_read (⟨CR_CW_GZ_COMPRESSION, .ptr 3, CR_CW_MODE_READ, none, none⟩ : CR_FILE Bytes) 4
        ⟨[], [.rd 2 0 "ab".toList]⟩ =
      .done (2, none, "ab".toList, ⟨CR_CW_GZ_COMPRESSION, .ptr 3, CR_CW_MODE_READ, none, none⟩)
        ⟨[.gzread 3 4], []⟩ ∧
    cr_read (⟨CR_CW_BZ2_COMPRESSION, .ptr 3, CR_CW_MODE_READ, none, none⟩ : CR_FILE Bytes) 4
        ⟨[], [.rd 2 BZ_STREAM_END "ab".toList]⟩ =
      .done (2, none, "ab".toList, ⟨CR_CW_BZ2_COMPRESSION, .ptr 3, CR_CW_MODE_READ, none, none⟩)
        ⟨[.BZ2_bzRead 3 4], []⟩ ∧
    cr_read (⟨CR_CW_BZ2_COMPRESSION, .ptr 3, CR_CW_MODE_READ, none, none⟩ : CR_FILE Bytes) 4
        ⟨[], [.rd 0 BZ_SEQUENCE_ERROR []]⟩ =
      .done (0, none, [], ⟨CR_CW_BZ2_COMPRESSION, .ptr 3, CR_CW_MODE_READ, none, none⟩)
        ⟨[.BZ2_bzRead 3 4], []⟩ ∧
    cr_read (⟨CR_CW_XZ_COMPRESSION, .xz ⟨3, []⟩, CR_CW_MODE_READ, none, none⟩ : CR_FILE Bytes) 4
        ⟨[], [.data [] false]⟩ =
      .done (0, none, [], ⟨CR_CW_XZ_COMPRESSION, .xz ⟨3, []⟩, CR_CW_MODE_READ, none, none⟩)
        ⟨[.fread 3 XZ_BUFFER_SIZE], []⟩ ∧
    cr_read (⟨CR_CW_XZ_COMPRESSION, .xz ⟨5, []⟩, CR_CW_MODE_READ, none, none⟩ : CR_FILE Bytes) 4
        ⟨[], [.data "zz".toList false, .code LZMA_STREAM_END 2 "ab".toList]⟩ =
      .done (2, none, "ab".toList,
          ⟨CR_CW_XZ_COMPRESSION, .xz ⟨5, []⟩, CR_CW_MODE_READ, none, none⟩)
        ⟨[.fread 5 XZ_BUFFER_SIZE, .lzma_code LZMA_RUN "zz".toList 4], []⟩ :=
  cr_read_end_of_stream 3 none none 4 "ab".toList false 0 [] [] ⟨5, []⟩ ⟨5, []⟩
    [.data "zz".toList false, .code LZMA_STREAM_END 2 "ab".toList] "ab".toList 2 none
    ⟨[.fread 5 XZ_BUFFER_SIZE, .lzma_code LZMA_RUN "zz".toList 4], []⟩
    (by decide) (by decide) (by decide) (by decide) (by decide)

/-- The `switch` of `cr_read` leaves the attached record and the checksum context alone. -/
theorem cr_read_kind_stat {κ : Type} {f g : CR_FILE κ} {len : Nat} {w w1 : World}
    {direct : Bool} {ret : Int} {err : Option GError} {d : Bytes}
    (h : cr_read_kind f len w = .done (direct, ret, err, d, g) w1) :
    g.stat = f.stat ∧ g.checksum_ctx = f.checksum_ctx := by
  obtain ⟨t, F, m, s, c⟩ := f
  unfold cr_read_kind at h
  dsimp only at h
  repeat' split at h
  all_goals (try simp at h)
  all_goals
    obtain ⟨⟨-, -, -, -, rfl⟩, -⟩ := h
    exact ⟨rfl, rfl⟩

/-- A read leaves the attached record and the checksum context alone. -/
theorem cr_read_stat {κ : Type} {f g : CR_FILE κ} {len : Nat} {w w1 : World}
    {ret : Int} {err : Option GError} {d : Bytes}
    (h : cr_read f len w = .done (ret, err, d, g) w1) :
    g.stat = f.stat ∧ g.checksum_ctx = f.checksum_ctx := by
  unfold cr_read at h
  split at h
  · simp at h; obtain ⟨⟨-, -, -, rfl⟩, -⟩ := h; exact ⟨rfl, rfl⟩
  · split at h
    · rename_i hk
      split at h
      · simp at h; obtain ⟨⟨-, -, -, rfl⟩, -⟩ := h; exact cr_read_kind_stat hk
      · simp at h
    · simp at h
    · simp at h

/-- Lines 895-905 of `cr_write` change the byte counter and the state of the context only. -/
theorem cr_write_stat_kept {κ : Type} (E : ChecksumEngine κ) (f : CR_FILE κ) (b : Bytes) :
    stat_kept f (cr_write_stat E f b).1 := by
  obtain ⟨t, F, m, s, c⟩ := f
  cases s <;> cases c <;> simp [cr_write_stat, stat_kept]

/-- A write keeps the stored digest, the checksum kind and the presence of a context. -/
theorem cr_write_kept {κ : Type} {E : ChecksumEngine κ} {f g : CR_FILE κ} {b : Bytes}
    {w w1 : World} {ret : Int} {err : Option GError}
    (h : cr_write E f b w = .done (ret, err, g) w1) : stat_kept f g := by
  by_cases hm : f.mode = CR_CW_MODE_WRITE
  · obtain ⟨-, -, h1, h2⟩ := cr_write_frame hm h
    have := cr_write_stat_kept E f b
    unfold stat_kept at this ⊢
    rw [h1, h2]
    exact this
  · simp [cr_write, hm] at h
    obtain ⟨⟨-, -, rfl⟩, -⟩ := h
    exact ⟨rfl, rfl⟩

/-- Any sequence of reads and writes keeps the stored digest, the checksum kind and the presence of a context. -/
theorem cr_file_ops_kept {κ : Type} {E : ChecksumEngine κ} (ops : List FileOp) :
    ∀ {f g : CR_FILE κ} {w w1 : World},
    cr_file_ops E f ops w = .done g w1 → stat_kept f g := by
  induction ops with
  | nil =>
    intro f g w w1 h
    simp [cr_file_ops] at h
    obtain ⟨rfl, -⟩ := h
    exact ⟨rfl, rfl⟩
  | cons op ops ih =>
    intro f g w w1 h
    simp only [cr_file_ops] at h
    split at h
    · rename_i f1 w0 hop
      have h2 := ih h
      have h1 : stat_kept f f1 := by
        unfold cr_file_op at hop
        split at hop
        · split at hop
          · rename_i hr
            simp at hop
            obtain ⟨rfl, -⟩ := hop
            obtain ⟨a, b⟩ := cr_read_stat hr
            exact ⟨by rw [a], by rw [b]⟩
          · simp at hop
          · simp at hop
        · split at hop
          · rename_i hr
            simp at hop
            obtain ⟨rfl, -⟩ := hop
            exact cr_write_kept hr
          · simp at hop
          · simp at hop
      exact ⟨h2.1.trans h1.1, h2.2.trans h1.2⟩
    · simp at h
    · simp at h

/-- C21, counterexample: a record that holds the digest "old" of an earlier
stream is attached to a new stream.  `cr_sopen` succeeds and the record of the
stream it returns still holds "old": the digest is not `NULL` before the close. -/
theorem cr_sopen_keeps_old_checksum :
    cr_sopen sample_engine "a".toList CR_CW_MODE_WRITE CR_CW_NO_COMPRESSION
        (some { size := 7, checksum_type := 2, checksum := some "old".toList })
        ⟨[], [.ptr 3]⟩ =
      .done (some ⟨CR_CW_NO_COMPRESSION, .ptr 3, CR_CW_MODE_WRITE,
                some { size := 7, checksum_type := 2, checksum := some "old".toList },
                some []⟩,
          none, some { size := 7, checksum_type := 2, checksum := some "old".toList })
        ⟨[.fopen "a".toList "w".toList], []⟩ := by
  decide

/-- C21, amended: a record attached at `cr_sopen`, in either mode.  From the
return of `cr_sopen` and through any sequence of `cr_read` and `cr_write` calls
the record's `checksum` is what it was when attached, so it is `NULL` until the
close if it was `NULL` then.  `cr_close` stores `NULL` when the checksum kind is
`CR_CHECKSUM_UNKNOWN` and the digest of the checksum context when it is not. -/
theorem cr_stat_checksum_until_close {κ : Type} (E : ChecksumEngine κ) (filename : Bytes)
    (mode : cr_OpenMode) (comtype : cr_CompressionType) (st : cr_ContentStat)
    (w w1 w2 w3 : World) (f f2 : CR_FILE κ) (err err2 : Option GError)
    (st1 st3 : Option cr_ContentStat) (ops : List FileOp) (ret : cr_Error)
    (ho : cr_sopen E filename mode comtype (some st) w = .done (some f, err, st1) w1)
    (hops : cr_file_ops E f ops w1 = .done f2 w2)
    (hc : cr_close E (some f2) w2 = .done (ret, err2, st3) w3) :
    f.stat = some st ∧
    (∃ s2, f2.stat = some s2 ∧ s2.checksum = st.checksum) ∧
    (∃ s3, st3 = some s3 ∧
      (st.checksum_type = CR_CHECKSUM_UNKNOWN → s3.checksum = none) ∧
      (st.checksum_type ≠ CR_CHECKSUM_UNKNOWN →
        ∃ ctx, f2.checksum_ctx = some ctx ∧ s3.checksum = some (E.cr_checksum_final ctx))) := by
  obtain ⟨-, -, hst, -, hctx⟩ := cr_sopen_some ho
  obtain ⟨hk1, hk2⟩ := cr_file_ops_kept ops hops
  have h3 := cr_close_stat hc
  obtain ⟨t, F, m, s, c⟩ := f
  obtain ⟨t2, F2, m2, s2, c2⟩ := f2
  simp only at hst hctx hk1 hk2 h3 ⊢
  subst hst
  cases s2 with
  | none => simp at hk1
  | some s2 =>
    simp only [Option.map_some', Option.some.injEq, Prod.mk.injEq] at hk1
    refine ⟨rfl, ⟨s2, rfl, hk1.1⟩, ?_⟩
    by_cases hu : st.checksum_type = CR_CHECKSUM_UNKNOWN
    · simp only [hu, if_true] at hctx
      subst hctx
      cases c2 with
      | none => exact ⟨_, h3, fun _ => rfl, fun h => absurd hu h⟩
      | some ctx => simp at hk2
    · simp only [hu, if_false] at hctx
      obtain ⟨ctx0, -, rfl⟩ := hctx
      cases c2 with
      | none => simp at hk2
      | some ctx => exact ⟨_, h3, fun h => absurd h hu, fun _ => ⟨ctx, rfl, rfl⟩⟩

/-- C21, worked example: `sample_stat` is attached to an uncompressed stream
opened for writing, "ab" is written, a read is tried, and the stream is closed. -/
theorem cr_stat_checksum_until_close_witness :
    (⟨CR_CW_NO_COMPRESSION, .ptr 3, CR_CW_MODE_WRITE, some sample_stat, some []⟩ :
        CR_FILE Bytes).stat = some sample_stat ∧
    (∃ s2, (⟨CR_CW_NO_COMPRESSION, .ptr 3, CR_CW_MODE_WRITE,
          some { sample_stat with size := 2 }, some "ab".toList⟩ : CR_FILE Bytes).stat =
        some s2 ∧ s2.checksum = sample_stat.checksum) ∧
    (∃ s3, some { sample_stat with size := 2, checksum := some "ba".toList } = some s3 ∧
      (sample_stat.checksum_type = CR_CHECKSUM_UNKNOWN → s3.checksum = none) ∧
      (sample_stat.checksum_type ≠ CR_CHECKSUM_UNKNOWN →
        ∃ ctx, (⟨CR_CW_NO_COMPRESSION, .ptr 3, CR_CW_MODE_WRITE,
            some { sample_stat with size := 2 }, some "ab".toList⟩ :
              CR_FILE Bytes).checksum_ctx = some ctx ∧
          s3.checksum = some (sample_engine.cr_checksum_final ctx))) :=
  cr_stat_checksum_until_close sample_engine "a".toList CR_CW_MODE_WRITE CR_CW_NO_COMPRESSION
    sample_stat ⟨[], [.ptr 3, .size 2, .int 0]⟩
    ⟨[.fopen "a".toList "w".toList], [.size 2, .int 0]⟩
    ⟨[.fopen "a".toList "w".toList, .cr_write_entry "ab".toList, .fwrite 3 "ab".toList],
      [.int 0]⟩
    ⟨[.fopen "a".toList "w".toList, .cr_write_entry "ab".toList, .fwrite 3 "ab".toList,
      .fclose 3], []⟩
    ⟨CR_CW_NO_COMPRESSION, .ptr 3, CR_CW_MODE_WRITE, some sample_stat, some []⟩
    ⟨CR_CW_NO_COMPRESSION, .ptr 3, CR_CW_MODE_WRITE, some { sample_stat with size := 2 },
      some "ab".toList⟩
    none none (some sample_stat)
    (some { sample_stat with size := 2, checksum := some "ba".toList })
    [.write "ab".toList, .read 4] CRE_OK (by decide) (by decide) (by decide)

/-- C22: an xz stream in read mode whose staging buffer is used up, and a
refill that fails: `fread` returns 0 with the error indicator of the file set.
The test `fread(...) < 0` is not true for it, the loop takes the 0 for the end
of the file, and `cr_read` returns a byte count with no error set: 0 when the
failure comes first, and 2 when it comes after "ab" was decoded. -/
theorem cr_read_xz_refill_error :
    cr_read (⟨CR_CW_XZ_COMPRESSION, .xz ⟨3, []⟩, CR_CW_MODE_READ, none, none⟩ : CR_FILE Bytes) 4
        ⟨[], [.data [] true]⟩ =
      .done (0, none, [], ⟨CR_CW_XZ_COMPRESSION, .xz ⟨3, []⟩, CR_CW_MODE_READ, none, none⟩)
        ⟨[.fread 3 XZ_BUFFER_SIZE], []⟩ ∧
    cr_read (⟨CR_CW_XZ_COMPRESSION, .xz ⟨3, []⟩, CR_CW_MODE_READ, none, none⟩ : CR_FILE Bytes) 4
        ⟨[], [.data "zz".toList false, .code LZMA_OK 2 "ab".toList, .data [] true]⟩ =
      .done (2, none, "ab".toList,
          ⟨CR_CW_XZ_COMPRESSION, .xz ⟨3, []⟩, CR_CW_MODE_READ, none, none⟩)
        ⟨[.fread 3 XZ_BUFFER_SIZE, .lzma_code LZMA_RUN "zz".toList 4,
          .fread 3 XZ_BUFFER_SIZE], []⟩ := by
  constructor <;> decide

set_option synthInstance.maxSize 1000 in
set_option maxRecDepth 100000 in
/-- C23: the count 2^31 is declared on an uncompressed primary document and
the header is written.  `cr_xmlfile_set_num_of_pkgs` accepts the count, the
template renders the `long` with `%d`, and the header that reaches the file
carries `packages="-2147483648"`, not `packages="2147483648"`. -/
theorem cr_xmlfile_header_count_wraps :
    cr_xmlfile_set_num_of_pkgs (sample_doc 0) (2 ^ 31) ⟨[], [.int 166, .size 166]⟩ =
      .done (CRE_OK, none, { sample_doc 0 with pkgs := 2 ^ 31 })
        ⟨[], [.int 166, .size 166]⟩ ∧
    cr_xmlfile_write_xml_header sample_engine repodata_ns { sample_doc 0 with pkgs := 2 ^ 31 }
        ⟨[], [.int 166, .size 166]⟩ =
      .done (CRE_OK, none, { sample_doc 1 with pkgs := 2 ^ 31 })
        ⟨[.g_vasprintf, .cr_write_entry wrapped_header, .fwrite 3 wrapped_header], []⟩ ∧
    wrapped_header ≠ header_bytes repodata_ns CR_XMLFILE_PRIMARY (2 ^ 31) := by
  refine ⟨?_, ?_, ?_⟩ <;> decide

set_option synthInstance.maxSize 1000 in
set_option maxRecDepth 100000 in
/-- C20: on a new uncompressed primary document `cr_xmlfile_write_xml_footer`
is called and then `cr_xmlfile_write_xml_header`, every underlying write
succeeding.  The header function asserts `header == 0` only, not `footer == 0`
as `cr_xmlfile_add_chunk` and `cr_xmlfile_add_pkg` do: it is not rejected,
returns `CRE_OK`, and the 156 bytes of the header follow the footer in the
bytes handed to the write path. -/
theorem cr_xmlfile_header_after_footer :
    cr_xmlfile_ops sample_engine repodata_ns no_dump (sample_doc 0)
        [.write_xml_footer, .write_xml_header] ⟨[], [.size 11, .int 156, .size 156]⟩ =
      .done ([(CRE_OK, none), (CRE_OK, none)], { sample_doc 1 with footer := 1 })
        ⟨[.cr_write_entry (footer_bytes CR_XMLFILE_PRIMARY),
          .fwrite 3 (footer_bytes CR_XMLFILE_PRIMARY), .g_vasprintf,
          .cr_write_entry (header_bytes repodata_ns CR_XMLFILE_PRIMARY 0),
          .fwrite 3 (header_bytes repodata_ns CR_XMLFILE_PRIMARY 0)], []⟩ ∧
    cr_xmlfile_write_xml_header sample_engine repodata_ns { sample_doc 0 with footer := 1 }
        ⟨[.cr_write_entry (footer_bytes CR_XMLFILE_PRIMARY),
          .fwrite 3 (footer_bytes CR_XMLFILE_PRIMARY)], [.int 156, .size 156]⟩ =
      .done (CRE_OK, none, { sample_doc 1 with footer := 1 })
        ⟨[.cr_write_entry (footer_bytes CR_XMLFILE_PRIMARY),
          .fwrite 3 (footer_bytes CR_XMLFILE_PRIMARY), .g_vasprintf,
          .cr_write_entry (header_bytes repodata_ns CR_XMLFILE_PRIMARY 0),
          .fwrite 3 (header_bytes repodata_ns CR_XMLFILE_PRIMARY 0)], []⟩ ∧
    written_bytes [.cr_write_entry (footer_bytes CR_XMLFILE_PRIMARY),
          .fwrite 3 (footer_bytes CR_XMLFILE_PRIMARY), .g_vasprintf,
          .cr_write_entry (header_bytes repodata_ns CR_XMLFILE_PRIMARY 0),
          .fwrite 3 (header_bytes repodata_ns CR_XMLFILE_PRIMARY 0)] =
      footer_bytes CR_XMLFILE_PRIMARY ++ header_bytes repodata_ns CR_XMLFILE_PRIMARY 0 := by
  refine ⟨?_, ?_, ?_⟩ <;> decide

/-- The stream after lines 895-905 of `cr_write` when the checksum update, if
there is one, does not fail. -/
theorem cr_write_stat_counted {κ : Type} (E : ChecksumEngine κ) (type : cr_CompressionType)
    (FILE : Handle) (st : cr_ContentStat) (ctx : Option κ) (buffer : Bytes)
    (hsz : st.size + buffer.length < 2 ^ 64)
    (hok : ∀ c, ctx = some c → (E.cr_checksum_update c buffer).2 = none) :
    cr_write_stat E ⟨type, FILE, CR_CW_MODE_WRITE, some st, ctx⟩ buffer =
      (⟨type, FILE, CR_CW_MODE_WRITE, some { st with size := st.size + buffer.length },
        ctx.map (fun c => (E.cr_checksum_update c buffer).1)⟩, none) := by
  have hsz2 : st.size + buffer.length < 18446744073709551616 := hsz
  cases ctx with
  | none => simp [cr_write_stat, Nat.mod_eq_of_lt hsz, hsz2]
  | some c => simp [cr_write_stat, Nat.mod_eq_of_lt hsz, hsz2, hok c rfl]

/-- The entry of a write splits the log: what was handed before it and what the calls after it hand. -/
theorem handed_entry (type : cr_CompressionType) (d : Bytes) (calls : List Call) :
    ∀ (log : List Call) (b : Bool),
    handed type b (log ++ .cr_write_entry d :: calls) =
      handed type b log ++ handed type true calls := by
  intro log
  induction log with
  | nil => intro b; simp [handed]
  | cons c log ih =>
    intro b
    cases c <;> simp [handed, ih]
    rename_i a _ _
    cases a <;> simp [handed, ih]

/-- Calls that hand nothing to the library can be dropped from the end of a log. -/
theorem handed_quiet (type : cr_CompressionType) (calls : List Call)
    (hq : ∀ b, handed type b calls = []) :
    ∀ (log : List Call) (b : Bool), handed type b (log ++ calls) = handed type b log := by
  intro log
  induction log with
  | nil => intro b; simp [handed, hq]
  | cons c log ih =>
    intro b
    cases c <;> simp [handed, ih]

/-- The xz write loop with answers that do not fail: it ends with the input used up, and its calls hand the encoder the whole buffer. -/
theorem xz_write_loop_handed (file : Nat) (ret : Int) (rest : List Resp) :
    ∀ (b : Bytes) (script : List Resp) (log : List Call),
    xz_write_answers_ok b script = true →
    ∃ calls, xz_write_loop file b ret log (script ++ rest) =
        .done (ret, none, []) ⟨log ++ calls, rest⟩ ∧
      handed CR_CW_XZ_COMPRESSION true calls = b ∧
      handed CR_CW_XZ_COMPRESSION false calls = [] := by
  intro b script
  induction b, script using xz_write_answers_ok.induct with
  | case1 script =>
    intro log h
    simp [xz_write_answers_ok] at h
    subst h
    exact ⟨[], by simp [xz_write_loop], rfl, rfl⟩
  | case2 c cs lret consumed out n rest1 ih =>
    intro log h
    simp only [xz_write_answers_ok, Bool.and_eq_true, decide_eq_true_eq] at h
    obtain ⟨⟨⟨⟨h1, h2⟩, h3⟩, h4⟩, h5⟩ := h
    obtain ⟨calls, hc, hh1, hh2⟩ := ih
      (log ++ [.lzma_code LZMA_RUN (c :: cs) XZ_BUFFER_SIZE] ++ [.fwrite file out]) h5
    refine ⟨.lzma_code LZMA_RUN (c :: cs) XZ_BUFFER_SIZE :: .fwrite file out :: calls,
      ?_, ?_, ?_⟩
    · subst h1 h4
      simp only [List.cons_append, xz_write_loop, h2, h3, and_self, if_true, ne_eq,
        not_true_eq_false, if_false, le_refl]
      simpa using hc
    · simp [handed, hh2]
    · simp [handed, hh2]
  | case3 t c cs hne =>
    intro log h
    exfalso
    unfold xz_write_answers_ok at h
    split at h
    · rename_i heq; cases heq
    · exact hne _ _ _ _ _ rfl
    · exact Bool.false_ne_true h

/-- The `switch` of `cr_write` with answers that do not fail: the value in `ret` is `(int) len` and the calls made hand the library the whole buffer. -/
theorem cr_write_kind_handed {κ : Type} (f : CR_FILE κ) (hf : f.write_ready) (b : Bytes)
    (hb : write_fits f.type b.length) (seg rest : List Resp) (log : List Call)
    (hs : write_answers_ok f.type b seg = true) :
    ∃ f' calls, cr_write_kind f b ⟨log, seg ++ rest⟩ =
        .done (toInt32 b.length, none, f') ⟨log ++ calls, rest⟩ ∧
      f'.write_ready ∧ f'.type = f.type ∧ handed f.type true calls = b := by
  obtain ⟨type, FILE, mode, stat, ctx⟩ := f
  obtain ⟨hm, hk⟩ := hf
  obtain ⟨hb1, hb2⟩ := hb
  simp only at hm hk hs hb2
  subst hm
  rcases FILE with p | x <;> cases type <;> simp only [handle_fits] at hk
  · -- no compression
    simp only [write_answers_ok, decide_eq_true_eq] at hs
    subst hs
    refine ⟨⟨CR_CW_NO_COMPRESSION, .ptr p, CR_CW_MODE_WRITE, stat, ctx⟩, [.fwrite p b],
      ?_, ⟨rfl, trivial⟩, rfl, ?_⟩
    · simp only [cr_write_kind, World.call, List.singleton_append, le_refl, if_true, ne_eq,
        not_true_eq_false, if_false]
    · simp [handed]
  · -- gzip
    have hb31 : b.length < 2 ^ 31 := hb2 (Or.inl rfl)
    have hi : toInt32 b.length = (b.length : Int) := toInt32_small hb31
    simp only [write_answers_ok] at hs
    by_cases h0 : b.length = 0
    · simp only [h0, if_true, decide_eq_true_eq] at hs
      subst hs
      have hnil : b = [] := List.length_eq_zero.mp h0
      refine ⟨⟨CR_CW_GZ_COMPRESSION, .ptr p, CR_CW_MODE_WRITE, stat, ctx⟩, [],
        ?_, ⟨rfl, trivial⟩, rfl, ?_⟩
      · subst hnil
        simp [cr_write_kind, toInt32]
      · simp [handed, hnil]
    · simp only [h0, if_false, decide_eq_true_eq] at hs
      subst hs
      refine ⟨⟨CR_CW_GZ_COMPRESSION, .ptr p, CR_CW_MODE_WRITE, stat, ctx⟩,
        [.gzwrite p b], ?_, ⟨rfl, trivial⟩, rfl, ?_⟩
      · have h1 : (b.length : Int) < 2 ^ 31 := by exact_mod_cast hb31
        have h2 : ¬ ((b.length : Int) = 0) := by exact_mod_cast h0
        have h3 : b.length < 2147483648 := by simpa using hb31
        simp [cr_write_kind, World.call, h0, h1, h2, h3, hi]
      · simp [handed]
  · -- bzip2
    simp only [write_answers_ok, decide_eq_true_eq] at hs
    subst hs
    refine ⟨⟨CR_CW_BZ2_COMPRESSION, .ptr p, CR_CW_MODE_WRITE, stat, ctx⟩,
      [.BZ2_bzWrite p b], ?_, ⟨rfl, trivial⟩, rfl, ?_⟩
    · simp [cr_write_kind, World.call]
    · simp [handed]
  · -- xz
    simp only [write_answers_ok] at hs
    obtain ⟨calls, hl, hh, -⟩ :=
      xz_write_loop_handed x.file (toInt32 b.length) rest b seg log hs
    refine ⟨⟨CR_CW_XZ_COMPRESSION, .xz { x with avail_in := [] }, CR_CW_MODE_WRITE, stat, ctx⟩,
      calls, ?_, ⟨rfl, rfl⟩, rfl, hh⟩
    simp only [cr_write_kind, hl]

/-- An `unsigned int` below 2^32 - 1 does not read as `CR_CW_ERR` when converted to `int`. -/
theorem toInt32_not_sentinel {n : Nat} (h : n < 2 ^ 32 - 1) : toInt32 n ≠ CR_CW_ERR := by
  unfold toInt32 CR_CW_ERR
  rw [Nat.mod_eq_of_lt (by omega)]
  split <;> omega

/-- A write with answers that do not fail returns `(int) len` with no error set and hands the library the whole buffer. -/
theorem cr_write_handed {κ : Type} {E : ChecksumEngine κ} (hE : E.update_ok) (f : CR_FILE κ)
    (hf : f.write_ready) (b : Bytes) (hb : write_fits f.type b.length) (seg rest : List Resp)
    (log : List Call) (hs : write_answers_ok f.type b seg = true) :
    ∃ f' log', cr_write E f b ⟨log, seg ++ rest⟩ =
        .done (toInt32 b.length, none, f') ⟨log', rest⟩ ∧
      f'.write_ready ∧ f'.type = f.type ∧
      ∀ first, handed f.type first log' = handed f.type first log ++ b := by
  obtain ⟨h1, h2, h3⟩ := cr_write_stat_frame E f b
  have hr : (cr_write_stat E f b).1.write_ready := by
    unfold CR_FILE.write_ready at hf ⊢
    rw [h1, h2, h3]
    exact hf
  obtain ⟨f', calls, hk, hr', ht, hh⟩ := cr_write_kind_handed (cr_write_stat E f b).1 hr b
    (by rw [h2]; exact hb) seg rest (log ++ [.cr_write_entry b]) (by rw [h2]; exact hs)
  refine ⟨f', log ++ .cr_write_entry b :: calls, ?_, hr', ht.trans h2, ?_⟩
  · have hpair : cr_write_stat E f b = ((cr_write_stat E f b).1, none) := by
      rw [← cr_write_stat_ok hE f b]
    have hag : ret_err_agree (toInt32 b.length) none :=
      Or.inr ⟨toInt32_not_sentinel hb.1, rfl⟩
    unfold cr_write
    rw [if_neg (by simp [hf.1])]
    simp only [World.note]
    rw [hpair]
    simp only [hk, hag, if_true, List.append_assoc, List.singleton_append]
  · intro first
    rw [handed_entry, ← h2, hh]

/-- Successive writes with answers that do not fail hand the library the buffers in order. -/
theorem cr_write_all_handed {κ : Type} {E : ChecksumEngine κ} (hE : E.update_ok)
    (k : cr_CompressionType) (rest : List Resp) :
    ∀ (bufs : List Bytes) (segs : List (List Resp)) (f : CR_FILE κ) (log : List Call),
    f.write_ready → f.type = k → (∀ b ∈ bufs, write_fits k b.length) →
    List.Forall₂ (fun b seg => write_answers_ok k b seg = true) bufs segs →
    ∃ f' log', cr_write_all E f bufs ⟨log, segs.flatten ++ rest⟩ =
        .done (bufs.map (fun b => (toInt32 b.length, none)), f') ⟨log', rest⟩ ∧
      f'.write_ready ∧ f'.type = k ∧
      ∀ first, handed k first log' = handed k first log ++ bufs.flatten := by
  intro bufs segs f log hr hk hfit hs
  induction hs generalizing f log with
  | nil =>
    exact ⟨f, log, by simp [cr_write_all], hr, hk, by simp⟩
  | @cons b seg bufs segs hbs _ ih =>
    obtain ⟨f1, log1, h1, hr1, hk1, hh1⟩ := cr_write_handed hE f hr b
      (by rw [hk]; exact hfit b (List.mem_cons_self _ _)) seg (segs.flatten ++ rest) log
      (by rw [hk]; exact hbs)
    obtain ⟨f2, log2, h2, hr2, hk2, hh2⟩ := ih f1 log1 hr1 (hk1.trans hk)
      (fun c hc => hfit c (List.mem_cons_of_mem _ hc))
    refine ⟨f2, log2, ?_, hr2, hk2, ?_⟩
    · simp only [cr_write_all, List.flatten_cons, List.append_assoc, h1, h2, List.map_cons]
    · intro first
      rw [hh2, ← hk, hh1]
      simp

/-- The answers to an xz read with no room left: there must be none. -/
theorem xz_read_answers_zero (ain : Bytes) (script : List Resp) :
    xz_read_answers ain 0 script = if script = [] then some ([], ain) else none := by
  cases script <;> rfl

/-- An xz read with room left needs an answer. -/
theorem xz_read_answers_nil (ain : Bytes) (a : Nat) :
    xz_read_answers ain (a + 1) [] = none := rfl

/-- One turn of `xz_read_answers`, as in its definition. -/
theorem xz_read_answers_cons (ain : Bytes) (a : Nat) (r : Resp) (rest : List Resp) :
    xz_read_answers ain (a + 1) (r :: rest) =
    match ain, r with
    | [], .data d _ =>
      if d = [] then (if rest = [] then some ([], []) else none)
      else if d.length ≤ XZ_BUFFER_SIZE then
        match rest with
        | .code lret consumed out :: rest =>
          xz_answer_step d (a + 1) lret consumed out
            (xz_read_answers (d.drop consumed) (a + 1 - out.length) rest) rest
        | _ => none
      else none
    | c :: cs, .code lret consumed out =>
      xz_answer_step (c :: cs) (a + 1) lret consumed out
        (xz_read_answers ((c :: cs).drop consumed) (a + 1 - out.length) rest) rest
    | _, _ => none := by
  cases ain <;> cases r <;> cases rest <;> try rfl
  all_goals (rename_i hd tl; cases hd <;> rfl)

/-- A step that `xz_answer_step` admits is a step of `xz_decode` that ends the loop or lets it go on. -/
theorem xz_decode_of_step {ain : Bytes} {a : Nat} {lret : Int} {consumed : Nat} {out : Bytes}
    {next : Option (Bytes × Bytes)} {rest : List Resp} {r : Bytes × Bytes}
    (h : xz_answer_step ain a lret consumed out next rest = some r) (file : Nat) (got : Bytes) :
    (lret = LZMA_STREAM_END ∧ rest = [] ∧ r = (out, ain.drop consumed) ∧
      xz_decode ⟨file, ain⟩ a got lret consumed out =
        .stop (got ++ out) (a - out.length) ⟨file, ain.drop consumed⟩) ∨
    (lret = LZMA_OK ∧ (∃ r1, next = some r1 ∧ r = (out ++ r1.1, r1.2)) ∧
      xz_decode ⟨file, ain⟩ a got lret consumed out =
        .next (got ++ out) (a - out.length) ⟨file, ain.drop consumed⟩) := by
  unfold xz_answer_step at h
  split at h
  · rename_i hc
    split at h
    · rename_i he
      split at h
      · rename_i hr
        simp at h
        left
        refine ⟨he, hr, h.symm, ?_⟩
        simp [xz_decode, hc, he, LZMA_STREAM_END, LZMA_OK]
      · simp at h
    · rename_i he
      split at h
      · rename_i ho
        right
        cases next with
        | none => simp at h
        | some r1 =>
          simp at h
          refine ⟨ho, ⟨r1, rfl, h.symm⟩, ?_⟩
          simp [xz_decode, hc, ho, LZMA_STREAM_END, LZMA_OK]
      · simp at h
  · simp at h

/-- A count within the staging buffer keeps its value as an `int`. -/
theorem toInt32_buffer {d : Bytes} (h : d.length ≤ XZ_BUFFER_SIZE) :
    toInt32 d.length = (d.length : Int) :=
  toInt32_small (lt_of_le_of_lt h (by decide))

/-- The xz read loop on answers that `xz_read_answers` admits: it ends without a failure with the bytes put out in the buffer. -/
theorem xz_read_loop_ok (file : Nat) (rest : List Resp) (n : Nat) :
    ∀ (script : List Resp) (ain : Bytes) (a : Nat) (got : Bytes) (log : List Call)
      (out ain1 : Bytes),
    script.length ≤ n →
    xz_read_answers ain a script = some (out, ain1) →
    ∃ log1, xz_read_loop ⟨file, ain⟩ a got log (script ++ rest) =
      .done (some (got ++ out, a - out.length), none, ⟨file, ain1⟩) ⟨log1, rest⟩ := by
  induction n with
  | zero =>
    intro script ain a got log out ain1 hn h
    have : script = [] := List.length_eq_zero.mp (Nat.le_zero.mp hn)
    subst this
    cases a with
    | zero =>
      simp [xz_read_answers_zero] at h
      obtain ⟨rfl, rfl⟩ := h
      exact ⟨log, by simp [xz_read_loop_zero]⟩
    | succ a => simp [xz_read_answers_nil] at h
  | succ n ih =>
    intro script ain a got log out ain1 hn h
    cases a with
    | zero =>
      rw [xz_read_answers_zero] at h
      split at h
      · rename_i hs
        subst hs
        simp at h
        obtain ⟨rfl, rfl⟩ := h
        exact ⟨log, by simp [xz_read_loop_zero]⟩
      · simp at h
    | succ a =>
      cases script with
      | nil => simp [xz_read_answers_nil] at h
      | cons r script =>
        rw [xz_read_answers_cons] at h
        simp only [List.length_cons] at hn
        rw [List.cons_append, xz_read_loop_cons]
        split at h
        · -- a refill
          rename_i d e
          simp only [List.length_nil, if_true]
          split at h
          · rename_i hd
            split at h
            · rename_i hr
              simp at h
              obtain ⟨rfl, rfl⟩ := h
              subst hd hr
              have h0 : toInt32 0 = 0 := by decide
              exact ⟨log ++ [.fread file XZ_BUFFER_SIZE], by simp [h0]⟩
            · simp at h
          · rename_i hd
            split at h
            · rename_i hl
              have hi := toInt32_buffer hl
              have hpos : 0 < d.length := List.length_pos.mpr hd
              have h1 : ¬ toInt32 d.length < 0 := by rw [hi]; omega
              have h2 : ¬ toInt32 d.length = 0 := by rw [hi]; omega
              split at h
              · rename_i lret consumed o script1
                rcases xz_decode_of_step h file got with
                  ⟨-, hr, hres, hdec⟩ | ⟨-, ⟨r1, hnext, hres⟩, hdec⟩
                · subst hr
                  simp only [Prod.mk.injEq] at hres
                  obtain ⟨rfl, rfl⟩ := hres
                  exact ⟨log ++ [.fread file XZ_BUFFER_SIZE, .lzma_code LZMA_RUN d (a + 1)],
                    by simp [hl, h1, h2, hdec]⟩
                · obtain ⟨o1, a1⟩ := r1
                  simp only [Prod.mk.injEq] at hres
                  obtain ⟨rfl, rfl⟩ := hres
                  obtain ⟨log1, hloop⟩ := ih script1 (d.drop consumed) (a + 1 - o.length)
                    (got ++ o)
                    (log ++ [.fread file XZ_BUFFER_SIZE] ++ [.lzma_code LZMA_RUN d (a + 1)])
                    o1 ain1 (by simp only [List.length_cons] at hn; omega) hnext
                  refine ⟨log1, ?_⟩
                  simp only [List.cons_append, hl, h1, h2, if_true, if_false, hdec, hloop]
                  simp [List.append_assoc, Nat.sub_sub]
              · simp at h
            · simp at h
        · -- a decoding step on staged input
          rename_i c cs lret consumed o
          simp only [List.length_cons, Nat.succ_ne_zero, if_false]
          rcases xz_decode_of_step h file got with
            ⟨-, hr, hres, hdec⟩ | ⟨-, ⟨r1, hnext, hres⟩, hdec⟩
          · subst hr
            simp only [Prod.mk.injEq] at hres
            obtain ⟨rfl, rfl⟩ := hres
            exact ⟨log ++ [.lzma_code LZMA_RUN (c :: cs) (a + 1)], by simp [hdec]⟩
          · obtain ⟨o1, a1⟩ := r1
            simp only [Prod.mk.injEq] at hres
            obtain ⟨rfl, rfl⟩ := hres
            obtain ⟨log1, hloop⟩ := ih script ((c :: cs).drop consumed) (a + 1 - o.length)
              (got ++ o) (log ++ [.lzma_code LZMA_RUN (c :: cs) (a + 1)])
              o1 ain1 (by omega) hnext
            refine ⟨log1, ?_⟩
            simp only [hdec, hloop]
            simp [List.append_assoc, Nat.sub_sub]
        · simp at h

/-- A read on answers that `read_answers` admits returns the count of the bytes stored, as an `int`, with no error set. -/
theorem cr_read_ok {κ : Type} (type : cr_CompressionType) (FILE FILE1 : Handle)
    (stat : Option cr_ContentStat) (ctx : Option κ) (len : Nat) (d : Bytes)
    (seg rest : List Resp) (log : List Call)
    (hfit : read_fits type len)
    (hs : read_answers type FILE len seg = some (d, FILE1)) :
    ∃ log1, cr_read (⟨type, FILE, CR_CW_MODE_READ, stat, ctx⟩ : CR_FILE κ) len
        ⟨log, seg ++ rest⟩ =
      .done (toInt32 d.length, none, d, ⟨type, FILE1, CR_CW_MODE_READ, stat, ctx⟩)
        ⟨log1, rest⟩ := by
  obtain ⟨hl, hl31⟩ := hfit
  have hlen : len < 2 ^ 32 := by omega
  unfold read_answers at hs
  split at hs
  · -- uncompressed, a full read
    rename_i p d1 e
    split at hs
    · rename_i hd
      simp at hs
      obtain ⟨rfl, rfl⟩ := hs
      subst hd
      have hne := toInt32_not_sentinel hl
      exact ⟨log ++ [.fread p d1.length],
        by simp [cr_read, cr_read_kind, World.call, ret_err_agree, hne]⟩
    · simp at hs
  · -- uncompressed, a short read at the end of the file
    rename_i p d1 e
    split at hs
    · rename_i hd
      simp at hs
      obtain ⟨rfl, rfl⟩ := hs
      have hne := toInt32_not_sentinel (lt_trans hd hl)
      have hdiff : toInt32 d1.length ≠ toInt32 len := by
        unfold toInt32
        rw [Nat.mod_eq_of_lt hlen, Nat.mod_eq_of_lt (lt_trans hd hlen)]
        split <;> split <;> omega
      exact ⟨log ++ [.fread p len] ++ [.feof p],
        by simp [cr_read, cr_read_kind, World.call, ret_err_agree, hne, hdiff, le_of_lt hd]⟩
    · simp at hs
  · -- gzip
    rename_i p r z d1
    split at hs
    · rename_i hd
      simp at hs
      obtain ⟨rfl, rfl⟩ := hs
      obtain ⟨rfl, hd2⟩ := hd
      have h31 : len < 2 ^ 31 := hl31 (Or.inl rfl)
      have hi : toInt32 d1.length = (d1.length : Int) := toInt32_small (by omega)
      have h1 : (d1.length : Int) ≤ len := by omega
      have h2 : d1.length < 2147483648 := by omega
      have h3 : ¬ ((d1.length : Int) = -1) := by omega
      exact ⟨log ++ [.gzread p len],
        by simp [cr_read, cr_read_kind, World.call, ret_err_agree, CR_CW_ERR, h1, h2, h3, hi]⟩
    · simp at hs
  · -- bzip2
    rename_i p r bz d1
    split at hs
    · rename_i hd
      simp at hs
      obtain ⟨rfl, rfl⟩ := hs
      obtain ⟨rfl, hd2, hbz⟩ := hd
      have h31 : len < 2 ^ 31 := hl31 (Or.inr rfl)
      have hi : toInt32 d1.length = (d1.length : Int) := toInt32_small (by omega)
      have h1 : (d1.length : Int) ≤ len := by omega
      have h2 : d1.length < 2147483648 := by omega
      have h3 : ¬ ((d1.length : Int) = -1) := by omega
      refine ⟨log ++ [.BZ2_bzRead p len], ?_⟩
      rcases hbz with hbz | hbz | ⟨hbz, hnil⟩
      · subst hbz
        simp [cr_read, cr_read_kind, World.call, ret_err_agree, CR_CW_ERR, h1, h2, h3, hi,
          BZ_STREAM_END, BZ_SEQUENCE_ERROR, BZ_OK]
      · subst hbz
        simp [cr_read, cr_read_kind, World.call, ret_err_agree, CR_CW_ERR, h1, h2, h3, hi,
          BZ_STREAM_END, BZ_SEQUENCE_ERROR, BZ_OK]
      · subst hbz hnil
        simp [cr_read, cr_read_kind, World.call, BZ_SEQUENCE_ERROR, toInt32]
    · simp at hs
  · -- xz
    rename_i x
    cases hx : xz_read_answers x.avail_in len seg with
    | none => simp [hx] at hs
    | some r =>
      obtain ⟨out, ain1⟩ := r
      simp [hx] at hs
      obtain ⟨rfl, rfl⟩ := hs
      obtain ⟨log1, hloop⟩ := xz_read_loop_ok x.file rest seg.length seg x.avail_in len []
        log out ain1 (le_refl _) hx
      obtain ⟨-, hsum⟩ := xz_read_loop_some (seg ++ rest).length (seg ++ rest) ⟨x.file, x.avail_in⟩
        len [] log _ _ _ _ _ (le_refl _) hloop
      have hol : len - (len - out.length) = out.length := by
        simp at hsum
        omega
      have hne := toInt32_not_sentinel (n := out.length) (by simp at hsum; omega)
      have hu : toUInt32 len = len := Nat.mod_eq_of_lt hlen
      refine ⟨log1, ?_⟩
      simp only [List.nil_append] at hloop
      simp [cr_read, cr_read_kind, hu, hloop, hol, ret_err_agree, hne]
  · simp at hs

/-- Successive reads on answers that `reads_answers` admits return the bytes stored by each with no error set. -/
theorem cr_read_all_ok {κ : Type} (type : cr_CompressionType) (stat : Option cr_ContentStat)
    (ctx : Option κ) (rest : List Resp) :
    ∀ (lens : List Nat) (segs : List (List Resp)) (FILE : Handle) (ds : List Bytes)
      (log : List Call),
    (∀ len ∈ lens, read_fits type len) →
    reads_answers type FILE lens segs = some ds →
    ∃ FILE1 log1, cr_read_all (⟨type, FILE, CR_CW_MODE_READ, stat, ctx⟩ : CR_FILE κ) lens
        ⟨log, segs.flatten ++ rest⟩ =
      .done (ds.map (fun d => (toInt32 d.length, none, d)),
          ⟨type, FILE1, CR_CW_MODE_READ, stat, ctx⟩) ⟨log1, rest⟩ := by
  intro lens
  induction lens with
  | nil =>
    intro segs FILE ds log _ h
    cases segs with
    | nil =>
      simp [reads_answers] at h
      subst h
      exact ⟨FILE, log, by simp [cr_read_all]⟩
    | cons seg segs => simp [reads_answers] at h
  | cons len lens ih =>
    intro segs FILE ds log hfit h
    cases segs with
    | nil => simp [reads_answers] at h
    | cons seg segs =>
      simp only [reads_answers] at h
      split at h
      · rename_i d FILE1 hr
        cases hrs : reads_answers type FILE1 lens segs with
        | none => simp [hrs] at h
        | some ds1 =>
          simp [hrs] at h
          subst h
          obtain ⟨log1, h1⟩ := cr_read_ok type FILE FILE1 stat ctx len d seg
            (segs.flatten ++ rest) log (hfit len (List.mem_cons_self _ _)) hr
          obtain ⟨FILE2, log2, h2⟩ := ih segs FILE1 ds1 log1
            (fun l hl => hfit l (List.mem_cons_of_mem _ hl)) hrs
          refine ⟨FILE2, log2, ?_⟩
          simp only [cr_read_all, List.flatten_cons, List.append_assoc, h1, h2, List.map_cons]
      · simp at h

/-- A stream opened for reading with a given kind has that kind and is in read mode. -/
theorem cr_sopen_read_stream {κ : Type} {E : ChecksumEngine κ} {filename : Bytes}
    {k : cr_CompressionType} {stat st1 : Option cr_ContentStat} {w w1 : World}
    {g : CR_FILE κ} {err : Option GError}
    (hk : k ≠ CR_CW_AUTO_DETECT_COMPRESSION)
    (h : cr_sopen E filename CR_CW_MODE_READ k stat w = .done (some g, err, st1) w1) :
    g.type = k ∧ g.mode = CR_CW_MODE_READ := by
  have hm := (cr_sopen_some h).2.1
  have hb : cr_sopen_body E filename CR_CW_MODE_READ k stat w = .done (some g, err, st1) w1 := by
    simpa [cr_sopen] using h
  exact ⟨(cr_sopen_body_kind hb).2.2 hk, hm⟩

/-- A call that hands nothing to the library can be dropped from the end of a log. -/
theorem handed_snoc (type : cr_CompressionType) (c : Call) (hq : ∀ b, handed type b [c] = [])
    (log : List Call) (b : Bool) : handed type b (log ++ [c]) = handed type b log :=
  handed_quiet type [c] hq log b

/-- The xz finishing loop of `cr_close` with answers that do not fail hands the encoder nothing more. -/
theorem xz_finish_loop_handed (rest : List Resp) :
    ∀ (avail_in : Bytes) (script : List Resp) (file : Nat) (log : List Call),
    xz_finish_answers_ok avail_in script = true →
    ∃ log', xz_finish_loop ⟨file, avail_in⟩ log (script ++ rest) = .done (CRE_OK, none) ⟨log', rest⟩ ∧
      ∀ b, handed CR_CW_XZ_COMPRESSION b log' = handed CR_CW_XZ_COMPRESSION b log := by
  intro a script
  induction a, script using xz_finish_answers_ok.induct with
  | case1 a rc consumed out n rest' ih =>
    intro file log h
    simp only [xz_finish_answers_ok, Bool.and_eq_true, decide_eq_true_eq] at h
    obtain ⟨⟨⟨h1, h2⟩, h3⟩, h4⟩ := h
    subst h3
    have hq : ∀ b, handed CR_CW_XZ_COMPRESSION b
        (log ++ [.lzma_code LZMA_FINISH a XZ_BUFFER_SIZE] ++ [.fwrite file out]) =
        handed CR_CW_XZ_COMPRESSION b log := by
      intro b
      rw [handed_snoc _ _ (by intro b; simp [handed]), handed_snoc _ _ (by intro b; simp [handed])]
    by_cases hend : rc = LZMA_STREAM_END
    · simp only [hend, if_true, List.isEmpty_iff] at h4
      subst h4 hend
      refine ⟨log ++ [.lzma_code LZMA_FINISH a XZ_BUFFER_SIZE] ++ [.fwrite file out], ?_, hq⟩
      simp only [List.cons_append, List.nil_append, xz_finish_loop, h1, h2, and_self, if_true,
        le_refl, ne_eq, not_true_eq_false, and_false, if_false]
      rfl
    · simp only [hend, if_false, Bool.and_eq_true, decide_eq_true_eq] at h4
      obtain ⟨hok, h5⟩ := h4
      subst hok
      obtain ⟨log', hl, hw⟩ := ih file (log ++ [.lzma_code LZMA_FINISH a XZ_BUFFER_SIZE] ++
        [.fwrite file out]) h5
      refine ⟨log', ?_, fun b => (hw b).trans (hq b)⟩
      simp only [List.cons_append, xz_finish_loop, h1, h2, and_self, if_true, le_refl, ne_eq,
        not_true_eq_false, false_and, if_false, hend]
      exact hl
  | case2 a script hne =>
    intro file log h
    exfalso
    unfold xz_finish_answers_ok at h
    split at h
    · exact hne _ _ _ _ _ rfl
    · exact Bool.false_ne_true h

/-- A close with answers that do not fail returns `CRE_OK` and hands the library nothing more. -/
theorem cr_close_handed {κ : Type} (E : ChecksumEngine κ) (f : CR_FILE κ) (hf : f.write_ready)
    (seg rest : List Resp) (log : List Call) (hs : close_answers_ok f.type seg = true) :
    ∃ log', cr_close E (some f) ⟨log, seg ++ rest⟩ =
        .done (CRE_OK, none, close_stat E f) ⟨log', rest⟩ ∧
      ∀ b, handed f.type b log' = handed f.type b log := by
  obtain ⟨type, FILE, mode, stat, ctx⟩ := f
  obtain ⟨hm, hk⟩ := hf
  simp only at hm hk hs
  subst hm
  rcases FILE with p | x <;> cases type <;> simp only [handle_fits] at hk
  · simp only [close_answers_ok, decide_eq_true_eq] at hs
    subst hs
    exact ⟨log ++ [.fclose p], by simp [cr_close, cr_close_kind, World.call],
      fun b => handed_snoc _ _ (by intro b; simp [handed]) log b⟩
  · simp only [close_answers_ok, decide_eq_true_eq] at hs
    subst hs
    exact ⟨log ++ [.gzclose p], by simp [cr_close, cr_close_kind, World.call],
      fun b => handed_snoc _ _ (by intro b; simp [handed]) log b⟩
  · simp only [close_answers_ok, decide_eq_true_eq] at hs
    subst hs
    exact ⟨log ++ [.BZ2_bzWriteClose p], by simp [cr_close, cr_close_kind, World.call],
      fun b => handed_snoc _ _ (by intro b; simp [handed]) log b⟩
  · simp only [close_answers_ok] at hs
    split at hs
    · rename_i r hlast
      obtain ⟨file, avail⟩ := x
      simp only at hk
      subst hk
      obtain ⟨log', hl, hw⟩ := xz_finish_loop_handed (.int r :: rest) [] seg.dropLast file log hs
      have hseg : seg ++ rest = seg.dropLast ++ (.int r :: rest) := by
        conv_lhs => rw [getLast_split seg _ hlast]
        simp
      refine ⟨log' ++ [.fclose file] ++ [.lzma_end], ?_, ?_⟩
      · simp only [cr_close, cr_close_kind, if_true, hseg, hl, World.call, World.note]
        simp
      · intro b
        rw [handed_snoc _ _ (by intro b; simp [handed]),
          handed_snoc _ _ (by intro b; simp [handed]), hw]
    · exact absurd hs (by simp)

end Createrepo
